import Mathlib

namespace QCalc

/-- Text values: a `QString` is modelled as its list of characters. -/
abbrev QString := List Char

/-! ## Double precision numbers

`Control::calculate` and every zero test of `Control::buttonPressed` go through
`QString::toDouble`, C++ `double` arithmetic and `QString::setNum`.  They are
modelled exactly: a `Dbl` is an IEEE-754 binary64 datum, every operation is
the exact rational operation followed by rounding to nearest (ties to even).
-/

/-- A binary64 datum.  `fin neg m e` stands for `(-1)^neg * m * 2^e`; values
produced by `roundDbl` satisfy `m < 2^53` and `-1074 ≤ e ≤ 971`, the zero of
either sign is `fin neg 0 0`. -/
inductive Dbl where
  | fin (neg : Bool) (m : Nat) (e : Int)
  | inf (neg : Bool)
  | nan
  deriving DecidableEq, Repr

/-- Number of binary digits of `n` (`0` for `0`); the first argument is fuel,
`n` itself always suffices. -/
def bitLenAux : Nat → Nat → Nat
  | 0, _ => 0
  | f + 1, n => if n = 0 then 0 else bitLenAux f (n / 2) + 1

/-- Number of binary digits of `n`. -/
def bitLen (n : Nat) : Nat := bitLenAux n n

/-- Numerator and denominator of `(n / d) / 2^e`. -/
def shiftFrac (n d : Nat) (e : Int) : Nat × Nat :=
  if 0 ≤ e then (n, d * 2 ^ e.toNat) else (n * 2 ^ (-e).toNat, d)

/-- The integer nearest to `num / den`, ties going to the even one. -/
def roundNearestEven (num den : Nat) : Nat :=
  let q := num / den
  let r := num % den
  if 2 * r < den then q
  else if den < 2 * r then q + 1
  else if q % 2 = 0 then q else q + 1

/-- Round the rational `(-1)^neg * n / d` to binary64. -/
def roundDbl (neg : Bool) (n d : Nat) : Dbl :=
  if n = 0 ∨ d = 0 then Dbl.fin neg 0 0
  else
    let l : Int := (bitLen n : Int) - (bitLen d : Int)
    let p := shiftFrac n d l
    let fl : Int := if p.2 ≤ p.1 then l else l - 1
    let e0 : Int := max (fl - 52) (-1074)
    let s := shiftFrac n d e0
    let q := roundNearestEven s.1 s.2
    let m := if q = 2 ^ 53 then 2 ^ 52 else q
    let e := if q = 2 ^ 53 then e0 + 1 else e0
    if m = 0 then Dbl.fin neg 0 0
    else if 971 < e then Dbl.inf neg
    else Dbl.fin neg m e

namespace Dbl

/-- Positive zero. -/
def zero : Dbl := fin false 0 0

/-- The C++ test `x == 0`. -/
def isZero : Dbl → Bool
  | fin _ m _ => m == 0
  | _ => false

/-- The C++ test `x < 0`. -/
def isNeg : Dbl → Bool
  | fin s m _ => s && m != 0
  | inf s => s
  | nan => false

/-- Unary minus. -/
def neg : Dbl → Dbl
  | fin s m e => fin (!s) m e
  | inf s => inf (!s)
  | nan => nan

/-- The signed integer `(-1)^s * m * 2^(e - e0)`, for `e0 ≤ e`. -/
def scaled (s : Bool) (m : Nat) (e e0 : Int) : Int :=
  let v : Int := (m * 2 ^ (e - e0).toNat : Nat)
  if s then -v else v

/-- Addition. -/
def add : Dbl → Dbl → Dbl
  | nan, _ => nan
  | _, nan => nan
  | inf a, inf b => if a = b then inf a else nan
  | inf a, fin _ _ _ => inf a
  | fin _ _ _, inf b => inf b
  | fin s1 m1 e1, fin s2 m2 e2 =>
    if m1 = 0 ∧ m2 = 0 then fin (s1 && s2) 0 0
    else
      let e0 := min e1 e2
      let sum := scaled s1 m1 e1 e0 + scaled s2 m2 e2 e0
      if sum = 0 then fin false 0 0
      else
        let p := shiftFrac sum.natAbs 1 (-e0)
        roundDbl (decide (sum < 0)) p.1 p.2

/-- Subtraction. -/
def sub (x y : Dbl) : Dbl := add x (neg y)

/-- Multiplication. -/
def mul : Dbl → Dbl → Dbl
  | nan, _ => nan
  | _, nan => nan
  | inf a, inf b => inf (xor a b)
  | inf a, fin s m _ => if m = 0 then nan else inf (xor a s)
  | fin s m _, inf b => if m = 0 then nan else inf (xor s b)
  | fin s1 m1 e1, fin s2 m2 e2 =>
    let p := shiftFrac (m1 * m2) 1 (-(e1 + e2))
    roundDbl (xor s1 s2) p.1 p.2

/-- Division. -/
def div : Dbl → Dbl → Dbl
  | nan, _ => nan
  | _, nan => nan
  | inf _, inf _ => nan
  | inf a, fin s _ _ => inf (xor a s)
  | fin s _ _, inf b => fin (xor s b) 0 0
  | fin s1 m1 e1, fin s2 m2 e2 =>
    if m2 = 0 then (if m1 = 0 then nan else inf (xor s1 s2))
    else
      let p := shiftFrac m1 m2 (-(e1 - e2))
      roundDbl (xor s1 s2) p.1 p.2

/-- Integer square root by bisection on the bits: with `r` the bits found so
far, decide the bits `b - 1, ..., 0`. -/
def isqrtAux (n : Nat) : Nat → Nat → Nat
  | 0, r => r
  | b + 1, r => if (r + 2 ^ b) * (r + 2 ^ b) ≤ n then isqrtAux n b (r + 2 ^ b) else isqrtAux n b r

/-- The largest `s` with `s * s ≤ n`. -/
def isqrt (n : Nat) : Nat := isqrtAux n (bitLen n) 0

/-- The function `sqrt` of `math.h`, correctly rounded. -/
def sqrt : Dbl → Dbl
  | nan => nan
  | inf s => if s then nan else inf false
  | fin s m e =>
    if m = 0 then fin s 0 0
    else if s then nan
    else
      let j : Int := if (e - 112) % 2 = 0 then 112 else 113
      let big := m * 2 ^ j.toNat
      let r := isqrt big
      let p := if r * r = big then shiftFrac r 1 (-((e - j) / 2))
               else shiftFrac (2 * r + 1) 2 (-((e - j) / 2))
      roundDbl false p.1 p.2

/-- The function `round` of `math.h`: nearest integer, halves away from zero. -/
def round : Dbl → Dbl
  | nan => nan
  | inf s => inf s
  | fin s m e =>
    if 0 ≤ e then fin s m e
    else
      let d := 2 ^ (-e).toNat
      let q := m / d
      let r := m % d
      roundDbl s (if d ≤ 2 * r then q + 1 else q) 1

/-- Conversion of an `int` to `double` (exact for 32-bit values). -/
def ofInt (i : Int) : Dbl := roundDbl (decide (i < 0)) i.natAbs 1

/-- The C++ test `i <= x` for an `int` `i` and a `double` `x`. -/
def intLe (i : Int) : Dbl → Bool
  | nan => false
  | inf s => !s
  | fin s m e =>
    if 0 ≤ e then decide (i ≤ scaled s m e 0)
    else decide (i * (2 ^ (-e).toNat : Nat) ≤ scaled s m 0 0)

end Dbl


/-! ## Text to number and back -/

/-- ASCII white space, skipped by `QString::toDouble` at both ends. -/
def isSpace (c : Char) : Bool := c = ' ' || (9 ≤ c.toNat && c.toNat ≤ 13)

/-- ASCII lower-casing, applied by the number scanner to letters. -/
def lowerAscii (c : Char) : Char :=
  if 65 ≤ c.toNat ∧ c.toNat ≤ 90 then Char.ofNat (c.toNat + 32) else c

/-- Decimal digit test. -/
def isDigit (c : Char) : Bool := 48 ≤ c.toNat && c.toNat ≤ 57

/-- Value of a string of decimal digits. -/
def digitsToNat (ds : List Char) : Nat :=
  ds.foldl (fun a c => 10 * a + (c.toNat - 48)) 0

/-- An optional sign: whether it is `-`, and the rest of the text. -/
def takeSign : List Char → Bool × List Char
  | '-' :: r => (true, r)
  | '+' :: r => (false, r)
  | t => (false, t)

/-- The fraction part after the integer digits: its digits and the rest. -/
def takeFraction : List Char → List Char × List Char
  | '.' :: r => r.span isDigit
  | t => ([], t)

/-- The exponent part: `some x` for nothing or a well-formed `e[sign]digits`
that ends the text, `none` for anything else. -/
def takeExponent : List Char → Option Int
  | [] => some 0
  | 'e' :: r =>
    let sg := takeSign r
    let ds := sg.2.span isDigit
    if ds.1.isEmpty ∨ ¬ ds.2.isEmpty then none
    else some (if sg.1 then -(digitsToNat ds.1 : Int) else (digitsToNat ds.1 : Int))
  | _ => none

/-- A decimal literal `[sign] digits [. digits] [e [sign] digits]` with at
least one digit before the exponent, as sign, integer mantissa and power of
ten; `none` when the text is not of that form. -/
def parseDecimal (t : List Char) : Option (Bool × Nat × Int) :=
  let sg := takeSign t
  let ip := sg.2.span isDigit
  let fp := takeFraction ip.2
  if ip.1.isEmpty ∧ fp.1.isEmpty then none
  else
    match takeExponent fp.2 with
    | none => none
    | some x => some (sg.1, digitsToNat (ip.1 ++ fp.1), x - (fp.1.length : Int))

/-- Numerator and denominator of `m * 10^x`. -/
def scale10 (m d : Nat) (x : Int) : Nat × Nat :=
  if 0 ≤ x then (m * 10 ^ x.toNat, d) else (m, d * 10 ^ (-x).toNat)

/-- Model of `QString::toDouble()` in the C locale: white space is skipped at
both ends, letters are lower-cased, `nan`, `inf`, `+inf` and `-inf` are read as
such, a decimal literal is rounded to the nearest double, and a failed
conversion (malformed text, or a literal too large for a double) gives `0.0`. -/
def toDouble (t : QString) : Dbl :=
  let u := ((t.dropWhile isSpace).rdropWhile isSpace).map lowerAscii
  if u = "nan".toList then Dbl.nan
  else if u = "inf".toList ∨ u = "+inf".toList then Dbl.inf false
  else if u = "-inf".toList then Dbl.inf true
  else
    match parseDecimal u with
    | none => Dbl.zero
    | some (s, m, x) =>
      let p := scale10 m 1 x
      match roundDbl s p.1 p.2 with
      | Dbl.inf _ => Dbl.zero
      | r => r

/-- Floor of the decimal logarithm of `k ≥ 1` (fuel first). -/
def log10Aux : Nat → Nat → Nat
  | 0, _ => 0
  | f + 1, k => if k < 10 then 0 else log10Aux f (k / 10) + 1

/-- The least `j` with `d ≤ n * 10^j` (fuel first). -/
def negExpAux : Nat → Nat → Nat → Nat
  | 0, _, _ => 0
  | f + 1, n, d => if d ≤ n then 0 else negExpAux f (10 * n) d + 1

/-- The integer `X` with `10^X ≤ n / d < 10^(X+1)`, for `n, d > 0`. -/
def floorLog10 (n d : Nat) : Int :=
  if d ≤ n then (log10Aux (n / d) (n / d) : Int) else -(negExpAux d n d : Int)

/-- The character of a decimal digit. -/
def digitChar (k : Nat) : Char := Char.ofNat (48 + k % 10)

/-- The six decimal digits of `r < 10^6`. -/
def sixDigits (r : Nat) : List Char :=
  [digitChar (r / 100000), digitChar (r / 10000), digitChar (r / 1000),
   digitChar (r / 100), digitChar (r / 10), digitChar r]

/-- Decimal digits of a natural number. -/
def natDigits (k : Nat) : List Char := Nat.toDigits 10 k

/-- The mantissa digits with exponent `decpt - 1`: `d[.ddd]e±xx`. -/
def exponentForm (digits : List Char) (decpt : Int) : List Char :=
  let x := decpt - 1
  let mant := match digits with
    | [] => []
    | [c] => [c]
    | c :: rest => c :: '.' :: rest
  let xs := if x.natAbs < 10 then '0' :: natDigits x.natAbs else natDigits x.natAbs
  mant ++ ['e', if x < 0 then '-' else '+'] ++ xs

/-- The mantissa digits with the point after `decpt` digits, no exponent. -/
def decimalForm (digits : List Char) (decpt : Int) : List Char :=
  if decpt ≤ 0 then '0' :: '.' :: (List.replicate (-decpt).toNat '0' ++ digits)
  else if digits.length ≤ decpt.toNat then digits ++ List.replicate (decpt.toNat - digits.length) '0'
  else digits.take decpt.toNat ++ '.' :: digits.drop decpt.toNat

/-- Model of `QString::setNum(double)` (format `g`, precision 6): the value
rounded to six significant digits, trailing zeros removed, in exponent form
when the decimal exponent is below `-4` or at least `6`. -/
def setNum : Dbl → QString
  | Dbl.nan => "nan".toList
  | Dbl.inf s => if s then "-inf".toList else "inf".toList
  | Dbl.fin s m e =>
    let sign : List Char := if s then ['-'] else []
    if m = 0 then sign ++ ['0']
    else
      let v := shiftFrac m 1 (-e)
      let x0 := floorLog10 v.1 v.2
      let p := scale10 v.1 v.2 (5 - x0)
      let r0 := roundNearestEven p.1 p.2
      let r := if r0 = 1000000 then 100000 else r0
      let x := if r0 = 1000000 then x0 + 1 else x0
      let digits := (sixDigits r).rdropWhile (fun c => c == '0')
      let decpt := x + 1
      sign ++ (if decpt ≠ digits.length ∧ (decpt ≤ -4 ∨ 6 < decpt)
               then exponentForm digits decpt else decimalForm digits decpt)


/-! ## The controller (`class Control` of calculator.h / calculator.cpp) -/

/-- Number of digits supported in the LCD. -/
def LCD_LENGTH : Nat := 20

def OPERATOR_NONE : Int := 0
def OPERATOR_PLUS : Int := 1
def OPERATOR_MINUS : Int := 2
def OPERATOR_MUL : Int := 3
def OPERATOR_DIV : Int := 4
def OPERATOR_SQRT : Int := 5
def OPERATOR_FACT : Int := 6

def TYPE_INIT : Int := 0
def TYPE_NUM : Int := 1
def TYPE_OP : Int := 2
def TYPE_EQ : Int := 3
def TYPE_DOT : Int := 4
def TYPE_OTHER : Int := 5

def BUTTON_7 : Int := 0
def BUTTON_8 : Int := 1
def BUTTON_9 : Int := 2
def BUTTON_DIV : Int := 3
def BUTTON_CLR : Int := 4
def BUTTON_4 : Int := 5
def BUTTON_5 : Int := 6
def BUTTON_6 : Int := 7
def BUTTON_MUL : Int := 8
def BUTTON_SQ : Int := 9
def BUTTON_1 : Int := 10
def BUTTON_2 : Int := 11
def BUTTON_3 : Int := 12
def BUTTON_NEG : Int := 13
def BUTTON_INV : Int := 14
def BUTTON_0 : Int := 15
def BUTTON_SIGN : Int := 16
def BUTTON_DOT : Int := 17
def BUTTON_PLUS : Int := 18
def BUTTON_EQ : Int := 19
def BUTTON_MC : Int := 20
def BUTTON_MR : Int := 21
def BUTTON_MS : Int := 22
def BUTTON_MP : Int := 23
def BUTTON_BS : Int := 24
def BUTTON_SQRT : Int := 25
def BUTTON_FACT : Int := 26
def BUTTON_CUBE : Int := 27
def BUTTON_BIN : Int := 28
def BUTTON_HEX : Int := 29

def MODE_DEC : Int := 1
def MODE_BIN : Int := 2
def MODE_HEX : Int := 3

/-- Button names, in button order. -/
def buttonLabels : List QString :=
  ["7", "8", "9", "/", "C",
   "4", "5", "6", "*", "Sq",
   "1", "2", "3", "-", "1/x",
   "0", "+/-", ".", "+", "=",
   "MC", "MR", "MS", "M+", "Bksp",
   "Sqrt", "!x", "x^3", "Bin", "Hex"].map String.toList

/-- The entry `buttonLabels[index]`. -/
def buttonLabel (index : Int) : QString := buttonLabels.getD index.toNat []

/-- The signals of `Control`. -/
inductive Signal where
  | setLCD (text : QString)
  | setButton (button : Int) (text : QString) (oldStatus : Int)
  deriving DecidableEq, Repr

/-- The private fields of `Control`, and in `emitted` the signals sent so
far, oldest first. -/
structure Control where
  lcdText : QString
  operand1 : QString
  memoryText : QString
  lastOperator : Int
  lastClicked : Int
  isDecimalEnabled : Bool
  isNegativeEnabled : Bool
  binButtonStatus : Int
  hexButtonStatus : Int
  numLCDDigits : Int
  emitted : List Signal
  deriving DecidableEq, Repr

namespace Control

def setText (s : Control) (newText : QString) : Control := { s with lcdText := newText }
def setMemoryText (s : Control) (newText : QString) : Control := { s with memoryText := newText }
def setOperand1 (s : Control) (operand : QString) : Control := { s with operand1 := operand }
def setOperator (s : Control) (op : Int) : Control := { s with lastOperator := op }
def setDecimalStatus (s : Control) (status : Bool) : Control := { s with isDecimalEnabled := status }
def setNegativeStatus (s : Control) (status : Bool) : Control := { s with isNegativeEnabled := status }
def setLastClicked (s : Control) (lc : Int) : Control := { s with lastClicked := lc }
def setNumDigits (s : Control) (num : Int) : Control := { s with numLCDDigits := num }

/-- Send a signal. -/
def emit (s : Control) (sig : Signal) : Control := { s with emitted := s.emitted ++ [sig] }

def setBinButtonStatus (s : Control) (status oldStatus : Int) : Control :=
  let s := { s with binButtonStatus := status }
  let s := if status = MODE_BIN then s.emit (Signal.setButton BUTTON_BIN "Bin".toList oldStatus) else s
  let s := if status = MODE_HEX then s.emit (Signal.setButton BUTTON_BIN "Hex".toList oldStatus) else s
  if status = MODE_DEC then s.emit (Signal.setButton BUTTON_BIN "Dec".toList oldStatus) else s

def setHexButtonStatus (s : Control) (status oldStatus : Int) : Control :=
  let s := { s with hexButtonStatus := status }
  let s := if status = MODE_BIN then s.emit (Signal.setButton BUTTON_HEX "Bin".toList oldStatus) else s
  let s := if status = MODE_HEX then s.emit (Signal.setButton BUTTON_HEX "Hex".toList oldStatus) else s
  if status = MODE_DEC then s.emit (Signal.setButton BUTTON_HEX "Dec".toList oldStatus) else s

/-- `Control::updateLCD`. -/
def updateLCD (s : Control) : Control :=
  let text := s.lcdText
  let s := s.setDecimalStatus (decide ('.' ∈ text))
  let s := s.setNegativeStatus (decide ('-' ∈ text))
  let s := s.emit (Signal.setLCD text)
  s.setNumDigits text.length

/-- `Control::showError`. -/
def showError (s : Control) : Control :=
  let s := s.setText "-- error --".toList
  let s := s.updateLCD
  let s := s.setDecimalStatus false
  let s := s.setNegativeStatus false
  let s := s.setText "0".toList
  let s := s.setOperator OPERATOR_NONE
  let s := s.setOperand1 "0".toList
  s.setLastClicked TYPE_INIT

/-- The loop `for (int i = 1; i <= op1; i++) result = result * i;` entered
with counter `i` and running product `result`.  `none` stands for the signed
overflow of `i++` at `INT_MAX`; the first argument is fuel, `2^31` of it
covers every value an `int` counter can take. -/
def factLoop (op1 : Dbl) : Nat → Int → Dbl → Option Dbl
  | 0, _, _ => none
  | fuel + 1, i, result =>
    if Dbl.intLe i op1 then
      if i = 2147483647 then none
      else factLoop op1 fuel (i + 1) (Dbl.mul result (Dbl.ofInt i))
    else some result

/-- The operand of the factorial as `calculate` prepares it: `1` for zero,
`-op1` for a negative value, `round(op1)` otherwise. -/
def factOperand (op1 : Dbl) : Dbl :=
  if op1.isZero then Dbl.ofInt 1 else if op1.isNeg then op1.neg else op1.round

/-- The factorial loop of `calculate` run from `i = 1` and `result = 1`. -/
@[irreducible] def factorial (op1 : Dbl) : Option Dbl :=
  factLoop op1 2147483648 1 (Dbl.ofInt 1)

/-- `Control::calculate`: the state after the call (it changes only through
`showError`) and the returned text; `none` when the factorial loop overflows
its counter. -/
def calculate (s : Control) (opString1 opString2 : QString) (op : Int) :
    Option (Control × QString) :=
  let ret : QString := "0".toList
  if opString1.isEmpty then some (s, ret)
  else if opString2.isEmpty then some (s, ret)
  else
    let op1 := toDouble opString1
    let op2 := toDouble opString2
    if op = OPERATOR_PLUS then some (s, setNum (Dbl.add op1 op2))
    else if op = OPERATOR_MINUS then some (s, setNum (Dbl.sub op1 op2))
    else if op = OPERATOR_MUL then some (s, setNum (Dbl.mul op1 op2))
    else if op = OPERATOR_DIV then
      if op2.isZero then some (s.showError, ret)
      else some (s, setNum (Dbl.div op1 op2))
    else if op = OPERATOR_SQRT then some (s, setNum (Dbl.sqrt op1))
    else if op = OPERATOR_FACT then
      match factorial (factOperand op1) with
      | none => none
      | some result => some (s, setNum result)
    else some (s, ret)

/-- Digit buttons `BUTTON_0` ... `BUTTON_9`. -/
def pressDigit (s : Control) (index : Int) : Control :=
  let text := s.lcdText
  let lc := s.lastClicked
  let s :=
    if (toDouble text).isZero then
      let text :=
        if lc = TYPE_OP ∨ lc = TYPE_EQ ∨ lc = TYPE_INIT ∨ lc = TYPE_OTHER ∨ lc = TYPE_NUM then
          buttonLabel index
        else if lc = TYPE_DOT then "0.".toList ++ buttonLabel index
        else text
      (s.setText text).updateLCD
    else if lc = TYPE_OP ∨ lc = TYPE_EQ then (s.setText (buttonLabel index)).updateLCD
    else if text.length < LCD_LENGTH then (s.setText (text ++ buttonLabel index)).updateLCD
    else s
  s.setLastClicked TYPE_NUM

/-- `BUTTON_SQ`. -/
def pressSq (s : Control) : Option Control :=
  let text := s.lcdText
  if ¬ (toDouble text).isZero then
    match s.calculate text text OPERATOR_MUL with
    | none => none
    | some (s, text) => some (((s.setText text).updateLCD).setLastClicked TYPE_OP)
  else some s

/-- `BUTTON_SQRT`. -/
def pressSqrt (s : Control) : Option Control :=
  let text := s.lcdText
  if ¬ (toDouble text).isZero then
    match s.calculate text text OPERATOR_SQRT with
    | none => none
    | some (s, text) => some (((s.setText text).updateLCD).setLastClicked TYPE_OP)
  else some s

/-- `BUTTON_FACT`. -/
def pressFact (s : Control) : Option Control :=
  let text := s.lcdText
  match s.calculate text text OPERATOR_FACT with
  | none => none
  | some (s, text) => some (((s.setText text).updateLCD).setLastClicked TYPE_OP)

/-- `BUTTON_INV`. -/
def pressInv (s : Control) : Option Control :=
  let text := s.lcdText
  if (toDouble text).isZero then some s.showError
  else
    match s.calculate "1".toList text OPERATOR_DIV with
    | none => none
    | some (s, text) => some (((s.setText text).updateLCD).setLastClicked TYPE_OP)

/-- `BUTTON_SIGN`. -/
def pressSign (s : Control) : Control :=
  let text := s.lcdText
  if s.isNegativeEnabled = false then
    let s := s.setNegativeStatus true
    let text := if text.length ≤ LCD_LENGTH then '-' :: text else text
    (s.setText text).updateLCD
  else
    let s := s.setNegativeStatus false
    let text := text.drop 1
    (s.setText text).updateLCD

/-- `BUTTON_DOT`. -/
def pressDot (s : Control) : Control :=
  let text := s.lcdText
  let lc := s.lastClicked
  if s.isDecimalEnabled = false then
    let text := if (toDouble text).isZero ∨ lc = TYPE_OP then "0.".toList
                else text ++ buttonLabel BUTTON_DOT
    let s := s.setDecimalStatus true
    ((s.setText text).updateLCD).setLastClicked TYPE_DOT
  else s

/-- The operator chosen by the fall-through chain `BUTTON_PLUS`, `BUTTON_NEG`,
`BUTTON_MUL`, `BUTTON_DIV`: every label from the pressed one on assigns
`newOp` if it is still `OPERATOR_NONE`. -/
def newOpOf (index : Int) : Int :=
  let newOp := OPERATOR_NONE
  let newOp := if index = BUTTON_PLUS then
    (if newOp = OPERATOR_NONE then OPERATOR_PLUS else newOp) else newOp
  let newOp := if index = BUTTON_PLUS ∨ index = BUTTON_NEG then
    (if newOp = OPERATOR_NONE then OPERATOR_MINUS else newOp) else newOp
  let newOp := if index = BUTTON_PLUS ∨ index = BUTTON_NEG ∨ index = BUTTON_MUL then
    (if newOp = OPERATOR_NONE then OPERATOR_MUL else newOp) else newOp
  if newOp = OPERATOR_NONE then OPERATOR_DIV else newOp

/-- Binary operator buttons `BUTTON_PLUS`, `BUTTON_NEG`, `BUTTON_MUL`,
`BUTTON_DIV`. -/
def pressBinary (s : Control) (index : Int) : Option Control :=
  let text := s.lcdText
  let lc := s.lastClicked
  let newOp := newOpOf index
  if (toDouble text).isZero ∨ lc = TYPE_OP then
    some ((s.setOperator newOp).setLastClicked TYPE_OP)
  else
    let op := s.lastOperator
    let operand1 := s.operand1
    if (toDouble operand1).isZero ∨ lc = TYPE_EQ ∨ op = OPERATOR_NONE then
      let s := s.setOperand1 text
      some (((s.setOperator newOp).setLastClicked TYPE_OP).setDecimalStatus false)
    else
      match s.calculate operand1 text op with
      | none => none
      | some (s, operand1) =>
        let s := s.setOperand1 operand1
        let s := (s.setText operand1).updateLCD
        some (((s.setOperator newOp).setLastClicked TYPE_OP).setDecimalStatus false)

/-- The end of the `BUTTON_EQ` case, from "Check the result" on, with
`operand1` the local operand text at that point. -/
def finishEq (s : Control) (operand1 : QString) : Control :=
  let newOp := OPERATOR_NONE
  let s := if ¬ (toDouble operand1).isZero then
    ((s.setOperator newOp).setText operand1).updateLCD else s
  (s.setLastClicked TYPE_EQ).setDecimalStatus false

/-- `BUTTON_EQ`. -/
def pressEq (s : Control) : Option Control :=
  let text := s.lcdText
  let lc := s.lastClicked
  if (toDouble text).isZero ∨ lc = TYPE_OP ∨ lc = TYPE_EQ then
    some (s.setLastClicked TYPE_EQ)
  else
    let op := s.lastOperator
    let operand1 := s.operand1
    if ¬ (toDouble operand1).isZero then
      match s.calculate operand1 text op with
      | none => none
      | some (s, operand1) => some (s.finishEq operand1)
    else some (s.finishEq operand1)

/-- `BUTTON_MC`. -/
def pressMC (s : Control) : Control := s.setMemoryText "0".toList

/-- `BUTTON_MR`. -/
def pressMR (s : Control) : Control :=
  let tempText := s.memoryText
  let s := if (toDouble tempText).isZero then s.setText "0".toList else s.setText tempText
  s.updateLCD

/-- `BUTTON_MS`. -/
def pressMS (s : Control) : Control :=
  let text := s.lcdText
  let s := if (toDouble text).isZero then s.setMemoryText "0".toList else s.setMemoryText text
  (s.setText "0".toList).setLastClicked TYPE_INIT

/-- `BUTTON_MP`. -/
def pressMP (s : Control) : Option Control :=
  let text := s.lcdText
  let tempText := s.memoryText
  if (toDouble text).isZero then some s
  else if (toDouble tempText).isZero then some (s.setMemoryText text)
  else
    match s.calculate text tempText OPERATOR_PLUS with
    | none => none
    | some (s, r) => some (s.setMemoryText r)

/-- `BUTTON_BS`. -/
def pressBS (s : Control) : Control :=
  let text := s.lcdText
  let s :=
    if 1 < text.length then (s.setText text.dropLast).updateLCD
    else if text.length = 1 then (s.setText "0".toList).updateLCD
    else s
  s.setLastClicked TYPE_OTHER

/-- `BUTTON_CLR`. -/
def pressCLR (s : Control) : Control :=
  let s := s.setDecimalStatus false
  let s := s.setNegativeStatus false
  let s := s.setText "0".toList
  let s := s.setOperator OPERATOR_NONE
  let s := s.setOperand1 "0".toList
  let s := s.setLastClicked TYPE_INIT
  s.updateLCD

/-- `BUTTON_CUBE`. -/
def pressCube (s : Control) : Option Control :=
  let text := s.lcdText
  if ¬ (toDouble text).isZero then
    match s.calculate text text OPERATOR_MUL with
    | none => none
    | some (s, tempText) =>
      match s.calculate tempText text OPERATOR_MUL with
      | none => none
      | some (s, tempText) => some (((s.setText tempText).updateLCD).setLastClicked TYPE_OP)
  else some s

/-- `BUTTON_BIN`. -/
def pressBin (s : Control) : Control :=
  if s.binButtonStatus = MODE_DEC then s.setBinButtonStatus MODE_BIN MODE_DEC
  else if s.binButtonStatus = MODE_BIN then s.setBinButtonStatus MODE_DEC MODE_BIN
  else s

/-- `BUTTON_HEX`. -/
def pressHex (s : Control) : Control :=
  if s.hexButtonStatus = MODE_DEC then s.setHexButtonStatus MODE_HEX MODE_DEC
  else if s.hexButtonStatus = MODE_HEX then s.setHexButtonStatus MODE_DEC MODE_HEX
  else s

/-- `Control::buttonPressed`: the state after the slot has run, `none` when
the factorial loop overflows its counter. -/
def buttonPressed (s : Control) (index : Int) : Option Control :=
  if index = BUTTON_1 ∨ index = BUTTON_2 ∨ index = BUTTON_3 ∨ index = BUTTON_4 ∨
     index = BUTTON_5 ∨ index = BUTTON_6 ∨ index = BUTTON_7 ∨ index = BUTTON_8 ∨
     index = BUTTON_9 ∨ index = BUTTON_0 then some (s.pressDigit index)
  else if index = BUTTON_SQ then s.pressSq
  else if index = BUTTON_SQRT then s.pressSqrt
  else if index = BUTTON_FACT then s.pressFact
  else if index = BUTTON_INV then s.pressInv
  else if index = BUTTON_SIGN then some s.pressSign
  else if index = BUTTON_DOT then some s.pressDot
  else if index = BUTTON_PLUS ∨ index = BUTTON_NEG ∨ index = BUTTON_MUL ∨
          index = BUTTON_DIV then s.pressBinary index
  else if index = BUTTON_EQ then s.pressEq
  else if index = BUTTON_MC then some s.pressMC
  else if index = BUTTON_MR then some s.pressMR
  else if index = BUTTON_MS then some s.pressMS
  else if index = BUTTON_MP then s.pressMP
  else if index = BUTTON_BS then some s.pressBS
  else if index = BUTTON_CLR then some s.pressCLR
  else if index = BUTTON_CUBE then s.pressCube
  else if index = BUTTON_BIN then some s.pressBin
  else if index = BUTTON_HEX then some s.pressHex
  else some s

/-- The button presses of a list, in order. -/
def run (s : Control) : List Int → Option Control
  | [] => some s
  | b :: bs => (s.buttonPressed b).bind (fun s1 => run s1 bs)

end Control

/-- The controller as configured by `Calculator::Calculator`.  The
constructor runs before the signals are connected, so nothing has been sent;
`numLCDDigits`, which the constructor leaves unset, is taken as `0`. -/
def init : Control :=
  { lcdText := "0".toList
    operand1 := "0".toList
    memoryText := "0".toList
    lastOperator := OPERATOR_NONE
    lastClicked := TYPE_INIT
    isDecimalEnabled := false
    isNegativeEnabled := false
    binButtonStatus := MODE_BIN
    hexButtonStatus := MODE_HEX
    numLCDDigits := 0
    emitted := [] }

/-- The states the controller can be in: those some list of button presses
leads to from `init`. -/
def Reachable (s : Control) : Prop := ∃ bs : List Int, init.run bs = some s

/-! ## Notions of the specification -/

/-- The spec's valid numeric literal without sign: decimal digits, at least
one, with at most one point among them. -/
def specUnsignedLiteral (t : QString) : Bool :=
  t.all (fun c => isDigit c || c == '.') && t.any isDigit && decide (t.count '.' ≤ 1)

/-- The spec's valid numeric literal: an unsigned literal, optionally
prefixed with `-`. -/
def specValidLiteral : QString → Bool
  | '-' :: r => specUnsignedLiteral r
  | t => specUnsignedLiteral t

/-- The value range of binary64: mantissa below `2^53`, exponent in
`-1074 .. 971`. -/
def Dbl.WF : Dbl → Prop
  | Dbl.fin _ m e => m < 2 ^ 53 ∧ -1074 ≤ e ∧ e ≤ 971
  | _ => True

/-- The ten digit buttons. -/
def digitButtons : List Int :=
  [BUTTON_0, BUTTON_1, BUTTON_2, BUTTON_3, BUTTON_4, BUTTON_5, BUTTON_6, BUTTON_7,
   BUTTON_8, BUTTON_9]

/-- The labels of a list of buttons, concatenated. -/
def labelsOf : List Int → QString
  | [] => []
  | b :: bs => buttonLabel b ++ labelsOf bs

/-- A digit text without its leading zeros; the last character is kept. -/
def dropLeadingZeros : QString → QString
  | '0' :: c :: r => dropLeadingZeros (c :: r)
  | t => t

/-- The length a text may have: 20 characters, one more for each of its
first two points and one more when it holds a minus sign. -/
def textBound (t : QString) : Nat :=
  20 + min (t.count '.') 2 + (if '-' ∈ t then 1 else 0)

/-- The text is within its length bound. -/
def TextOk (t : QString) : Prop := t.length ≤ textBound t

/-- Display text and memory register are within their length bound. -/
def LengthInv (s : Control) : Prop := TextOk s.lcdText ∧ TextOk s.memoryText

/-- The state after `setText(r); updateLCD(); setLastClicked(lc)`, the end of
every case of `buttonPressed` that shows a result. -/
def Control.displayed (s : Control) (r : QString) (lc : Int) : Control :=
  ((s.setText r).updateLCD).setLastClicked lc

/-- The statuses the two base-toggle handlers expect: Bin or Dec for the Bin
button, Hex or Dec for the Hex button. -/
def ModeInv (s : Control) : Prop :=
  (s.binButtonStatus = MODE_BIN ∨ s.binButtonStatus = MODE_DEC) ∧
  (s.hexButtonStatus = MODE_HEX ∨ s.hexButtonStatus = MODE_DEC)

/-- The state `s1` has just shown its display text, starting from `s`: the
sign flag and the digit count are those of the text, and the text is the one
signal sent since `s`. -/
def Shown (s s1 : Control) : Prop :=
  s1.isNegativeEnabled = decide ('-' ∈ s1.lcdText) ∧
  s1.numLCDDigits = (s1.lcdText.length : Int) ∧
  s1.emitted = s.emitted ++ [Signal.setLCD s1.lcdText]

/-- The binary operator buttons and Equals, which clear the decimal flag
after the display update. -/
def clearsDecimal (b : Int) : Prop :=
  b = BUTTON_PLUS ∨ b = BUTTON_NEG ∨ b = BUTTON_MUL ∨ b = BUTTON_DIV ∨ b = BUTTON_EQ

/-- The decimal flag of `s1` is the one of its text. -/
def DecimalSynced (s1 : Control) : Prop :=
  s1.isDecimalEnabled = decide ('.' ∈ s1.lcdText)

/-! ## Theorems -/

/-- C1: from the constructor state the presses 5, +, 3, + leave the display
text "8" (the second + evaluates the pending 5 + 3 and sends "8" to the LCD)
and the further presses 2, = leave the display text "10". -/
theorem chained_plus_gives_ten :
    (init.run [BUTTON_5, BUTTON_PLUS, BUTTON_3, BUTTON_PLUS]).map
        (fun s => (s.lcdText, s.emitted)) =
      some ("8".toList,
        [Signal.setLCD "5".toList, Signal.setLCD "3".toList, Signal.setLCD "8".toList]) ∧
    (init.run [BUTTON_5, BUTTON_PLUS, BUTTON_3, BUTTON_PLUS, BUTTON_2, BUTTON_EQ]).map
        (fun s => s.lcdText) = some "10".toList := by
  decide!

/-! ### Dispatch of `buttonPressed` -/

theorem buttonPressed_CLR (s : Control) : s.buttonPressed BUTTON_CLR = some s.pressCLR := rfl

theorem buttonPressed_INV (s : Control) : s.buttonPressed BUTTON_INV = s.pressInv := rfl

theorem buttonPressed_SIGN (s : Control) : s.buttonPressed BUTTON_SIGN = some s.pressSign := rfl

theorem buttonPressed_MS (s : Control) : s.buttonPressed BUTTON_MS = some s.pressMS := rfl

theorem buttonPressed_MR (s : Control) : s.buttonPressed BUTTON_MR = some s.pressMR := rfl

/-- C8: the Clear button sets the display text to "0", the pending operator to
none, the pending operand to "0", both cached flags to false and the last
action to Init, sends "0" to the LCD, and leaves the memory register and the
two base-toggle statuses as they were. -/
theorem clear_resets_all_but_memory (s : Control) :
    ∃ s1, s.buttonPressed BUTTON_CLR = some s1 ∧
      s1.lcdText = "0".toList ∧ s1.lastOperator = OPERATOR_NONE ∧
      s1.operand1 = "0".toList ∧ s1.isDecimalEnabled = false ∧
      s1.isNegativeEnabled = false ∧ s1.lastClicked = TYPE_INIT ∧
      s1.emitted = s.emitted ++ [Signal.setLCD "0".toList] ∧
      s1.memoryText = s.memoryText ∧ s1.binButtonStatus = s.binButtonStatus ∧
      s1.hexButtonStatus = s.hexButtonStatus := by
  refine ⟨s.pressCLR, rfl, rfl, rfl, rfl, ?_, ?_, rfl, rfl, rfl, rfl, rfl⟩ <;>
    simp [Control.pressCLR, Control.updateLCD, Control.setDecimalStatus,
      Control.setNegativeStatus, Control.setText, Control.setOperator, Control.setOperand1,
      Control.setLastClicked, Control.emit, Control.setNumDigits]

/-- C9: when the display text is numerically zero, the reciprocal button runs
`showError` and nothing else (no call of `calculate`): the marker
"-- error --" is sent to the LCD, and display text, operator, operand, flags
and last action get the values Clear gives them; the memory register is kept. -/
theorem reciprocal_of_zero_is_error (s : Control)
    (hz : (toDouble s.lcdText).isZero = true) :
    s.buttonPressed BUTTON_INV = some s.showError ∧
      s.showError.emitted = s.emitted ++ [Signal.setLCD "-- error --".toList] ∧
      s.showError.lcdText = "0".toList ∧ s.showError.lastOperator = OPERATOR_NONE ∧
      s.showError.operand1 = "0".toList ∧ s.showError.isDecimalEnabled = false ∧
      s.showError.isNegativeEnabled = false ∧ s.showError.lastClicked = TYPE_INIT ∧
      s.showError.lcdText = s.pressCLR.lcdText ∧
      s.showError.lastOperator = s.pressCLR.lastOperator ∧
      s.showError.operand1 = s.pressCLR.operand1 ∧
      s.showError.isDecimalEnabled = s.pressCLR.isDecimalEnabled ∧
      s.showError.isNegativeEnabled = s.pressCLR.isNegativeEnabled ∧
      s.showError.lastClicked = s.pressCLR.lastClicked ∧
      s.showError.memoryText = s.memoryText := by
  refine ⟨?_, rfl, rfl, rfl, rfl, rfl, rfl, rfl, rfl, rfl, rfl, ?_, ?_, rfl, rfl⟩
  · rw [buttonPressed_INV]
    simp [Control.pressInv, hz]
  · simp [Control.pressCLR, Control.showError, Control.updateLCD, Control.setDecimalStatus,
      Control.setNegativeStatus, Control.setText, Control.setOperator, Control.setOperand1,
      Control.setLastClicked, Control.emit, Control.setNumDigits]
  · simp [Control.pressCLR, Control.showError, Control.updateLCD, Control.setDecimalStatus,
      Control.setNegativeStatus, Control.setText, Control.setOperator, Control.setOperand1,
      Control.setLastClicked, Control.emit, Control.setNumDigits]

/-- Witness of C9: the constructor state shows "0", and the reciprocal
button sends the error marker there. -/
theorem reciprocal_of_zero_is_error_witness :
    (toDouble init.lcdText).isZero = true ∧
      init.buttonPressed BUTTON_INV = some init.showError ∧
      init.showError.emitted = init.emitted ++ [Signal.setLCD "-- error --".toList] :=
  ⟨by decide!, (reciprocal_of_zero_is_error init (by decide!)).1,
    (reciprocal_of_zero_is_error init (by decide!)).2.1⟩

/-- C4: the presses 5, sign, Bksp, sign from the constructor state leave the
stored display text empty: Backspace cuts "-5" to "-", and the sign toggle
then removes that character. -/
theorem sign_after_backspace_empties_display :
    (init.run [BUTTON_5, BUTTON_SIGN, BUTTON_BS]).map (fun s => s.lcdText) =
      some "-".toList ∧
    (init.run [BUTTON_5, BUTTON_SIGN, BUTTON_BS, BUTTON_SIGN]).map (fun s => s.lcdText) =
      some [] := by
  decide!

/-- C5: the presses 1, ., 5, =, . from the constructor state leave the
display text "1.5.": Equals clears the cached decimal flag although the text
still holds a point, and the next point is appended. -/
theorem dot_after_equals_doubles_point :
    (init.run [BUTTON_1, BUTTON_DOT, BUTTON_5, BUTTON_EQ]).map
        (fun s => (s.lcdText, s.isDecimalEnabled)) = some ("1.5".toList, false) ∧
    (init.run [BUTTON_1, BUTTON_DOT, BUTTON_5, BUTTON_EQ, BUTTON_DOT]).map
        (fun s => s.lcdText) = some "1.5.".toList := by
  decide!

/-- C10: the presses 5, /, 0, = from the constructor state raise no error:
Equals finds the display numerically zero and returns at once, so the
divide-by-zero check of `calculate` is not reached; only "5" and "0" were
sent to the LCD, and operand "5" and operator Divide stay pending. -/
theorem divide_by_zero_keys_no_error :
    (init.run [BUTTON_5, BUTTON_DIV, BUTTON_0, BUTTON_EQ]).map
        (fun s => (s.lcdText, s.emitted, s.operand1, s.lastOperator, s.lastClicked)) =
      some ("0".toList, [Signal.setLCD "5".toList, Signal.setLCD "0".toList],
        "5".toList, OPERATOR_DIV, TYPE_EQ) := by
  decide!

/-! ### What `calculate` and the buttons leave alone -/

theorem calculate_state {s s1 : Control} {a b r : QString} {op : Int}
    (h : s.calculate a b op = some (s1, r)) : s1 = s ∨ s1 = s.showError := by
  unfold Control.calculate at h
  dsimp only at h
  split_ifs at h
  all_goals first
    | (simp only [Option.some.injEq, Prod.mk.injEq] at h; simp [h.1.symm])
    | (split at h <;> simp at h; simp [h.1.symm])

theorem calculate_total (s : Control) (a b : QString) {op : Int} (hop : op ≠ OPERATOR_FACT) :
    ∃ p, s.calculate a b op = some p := by
  unfold Control.calculate
  dsimp only
  split_ifs <;> exact ⟨_, rfl⟩

theorem calculate_memoryText {s s1 : Control} {a b r : QString} {op : Int}
    (h : s.calculate a b op = some (s1, r)) : s1.memoryText = s.memoryText := by
  rcases calculate_state h with h1 | h1 <;> rw [h1]
  rfl

theorem pressDigit_memoryText (s : Control) (index : Int) :
    (s.pressDigit index).memoryText = s.memoryText := by
  unfold Control.pressDigit
  dsimp only
  split_ifs <;> rfl

theorem pressSign_memoryText (s : Control) :
    (s.pressSign).memoryText = s.memoryText := by
  unfold Control.pressSign
  dsimp only
  split_ifs <;> rfl

theorem pressDot_memoryText (s : Control) :
    (s.pressDot).memoryText = s.memoryText := by
  unfold Control.pressDot
  dsimp only
  split_ifs <;> rfl

theorem pressMR_memoryText (s : Control) :
    (s.pressMR).memoryText = s.memoryText := by
  unfold Control.pressMR
  dsimp only
  split_ifs <;> rfl

theorem pressBS_memoryText (s : Control) :
    (s.pressBS).memoryText = s.memoryText := by
  unfold Control.pressBS
  dsimp only
  split_ifs <;> rfl

theorem pressBin_memoryText (s : Control) :
    (s.pressBin).memoryText = s.memoryText := by
  unfold Control.pressBin Control.setBinButtonStatus
  dsimp only
  split_ifs <;> rfl

theorem pressHex_memoryText (s : Control) :
    (s.pressHex).memoryText = s.memoryText := by
  unfold Control.pressHex Control.setHexButtonStatus
  dsimp only
  split_ifs <;> rfl

theorem finishEq_memoryText (s : Control) (t : QString) :
    (s.finishEq t).memoryText = s.memoryText := by
  unfold Control.finishEq
  dsimp only
  split_ifs <;> rfl

theorem pressSq_memoryText {s s1 : Control} (h : s.pressSq = some s1) :
    s1.memoryText = s.memoryText := by
  unfold Control.pressSq at h
  dsimp only at h
  split_ifs at h
  all_goals first
    | (simp only [Option.some.injEq] at h
       subst h
       first | rfl | exact finishEq_memoryText _ _)
    | (split at h
       · simp at h
       · rename_i heq
         simp only [Option.some.injEq] at h
         subst h
         have h2 := calculate_memoryText heq
         first | exact h2 | exact (finishEq_memoryText _ _).trans h2)

theorem pressSqrt_memoryText {s s1 : Control} (h : s.pressSqrt = some s1) :
    s1.memoryText = s.memoryText := by
  unfold Control.pressSqrt at h
  dsimp only at h
  split_ifs at h
  all_goals first
    | (simp only [Option.some.injEq] at h
       subst h
       first | rfl | exact finishEq_memoryText _ _)
    | (split at h
       · simp at h
       · rename_i heq
         simp only [Option.some.injEq] at h
         subst h
         have h2 := calculate_memoryText heq
         first | exact h2 | exact (finishEq_memoryText _ _).trans h2)

theorem pressInv_memoryText {s s1 : Control} (h : s.pressInv = some s1) :
    s1.memoryText = s.memoryText := by
  unfold Control.pressInv at h
  dsimp only at h
  split_ifs at h
  all_goals first
    | (simp only [Option.some.injEq] at h
       subst h
       first | rfl | exact finishEq_memoryText _ _)
    | (split at h
       · simp at h
       · rename_i heq
         simp only [Option.some.injEq] at h
         subst h
         have h2 := calculate_memoryText heq
         first | exact h2 | exact (finishEq_memoryText _ _).trans h2)

theorem pressEq_memoryText {s s1 : Control} (h : s.pressEq = some s1) :
    s1.memoryText = s.memoryText := by
  unfold Control.pressEq at h
  dsimp only at h
  split_ifs at h
  all_goals first
    | (simp only [Option.some.injEq] at h
       subst h
       first | rfl | exact finishEq_memoryText _ _)
    | (split at h
       · simp at h
       · rename_i heq
         simp only [Option.some.injEq] at h
         subst h
         have h2 := calculate_memoryText heq
         first | exact h2 | exact (finishEq_memoryText _ _).trans h2)

theorem pressBinary_memoryText {s s1 : Control} {index : Int} (h : s.pressBinary index = some s1) :
    s1.memoryText = s.memoryText := by
  unfold Control.pressBinary at h
  dsimp only at h
  split_ifs at h
  all_goals first
    | (simp only [Option.some.injEq] at h
       subst h
       first | rfl | exact finishEq_memoryText _ _)
    | (split at h
       · simp at h
       · rename_i heq
         simp only [Option.some.injEq] at h
         subst h
         have h2 := calculate_memoryText heq
         first | exact h2 | exact (finishEq_memoryText _ _).trans h2)

theorem pressFact_memoryText {s s1 : Control} (h : s.pressFact = some s1) :
    s1.memoryText = s.memoryText := by
  unfold Control.pressFact at h
  dsimp only at h
  split at h
  · simp at h
  · rename_i heq
    simp only [Option.some.injEq] at h
    subst h
    have h2 := calculate_memoryText heq
    exact h2

theorem pressCube_memoryText {s s1 : Control} (h : s.pressCube = some s1) :
    s1.memoryText = s.memoryText := by
  unfold Control.pressCube at h
  dsimp only at h
  split_ifs at h
  · simp only [Option.some.injEq] at h
    subst h
    rfl
  · split at h
    · simp at h
    · rename_i heq
      split at h
      · simp at h
      · rename_i heq2
        simp only [Option.some.injEq] at h
        subst h
        have h2 := (calculate_memoryText heq2).trans (calculate_memoryText heq)
        exact h2

/-- An index that is no button's is ignored. -/
theorem buttonPressed_out_of_range (s : Control) {index : Int}
    (h : index < 0 ∨ 29 < index) : s.buttonPressed index = some s := by
  unfold Control.buttonPressed
  simp only [BUTTON_7, BUTTON_8, BUTTON_9, BUTTON_DIV, BUTTON_CLR, BUTTON_4, BUTTON_5,
    BUTTON_6, BUTTON_MUL, BUTTON_SQ, BUTTON_1, BUTTON_2, BUTTON_3, BUTTON_NEG, BUTTON_INV,
    BUTTON_0, BUTTON_SIGN, BUTTON_DOT, BUTTON_PLUS, BUTTON_EQ, BUTTON_MC, BUTTON_MR,
    BUTTON_MS, BUTTON_MP, BUTTON_BS, BUTTON_SQRT, BUTTON_FACT, BUTTON_CUBE, BUTTON_BIN,
    BUTTON_HEX]
  rw [if_neg (by omega), if_neg (by omega), if_neg (by omega), if_neg (by omega),
    if_neg (by omega), if_neg (by omega), if_neg (by omega), if_neg (by omega),
    if_neg (by omega), if_neg (by omega), if_neg (by omega), if_neg (by omega),
    if_neg (by omega), if_neg (by omega), if_neg (by omega), if_neg (by omega),
    if_neg (by omega), if_neg (by omega)]

/-- The dispatch of `buttonPressed`, button by button. -/
theorem buttonPressed_cases (s : Control) (b : Int) :
    ((b < 0 ∨ 29 < b) ∧ s.buttonPressed b = some s) ∨
    ((b = BUTTON_1 ∨ b = BUTTON_2 ∨ b = BUTTON_3 ∨ b = BUTTON_4 ∨ b = BUTTON_5 ∨
        b = BUTTON_6 ∨ b = BUTTON_7 ∨ b = BUTTON_8 ∨ b = BUTTON_9 ∨ b = BUTTON_0) ∧ s.buttonPressed b = some (s.pressDigit b)) ∨
    (b = BUTTON_SQ ∧ s.buttonPressed b = s.pressSq) ∨
    (b = BUTTON_SQRT ∧ s.buttonPressed b = s.pressSqrt) ∨
    (b = BUTTON_FACT ∧ s.buttonPressed b = s.pressFact) ∨
    (b = BUTTON_INV ∧ s.buttonPressed b = s.pressInv) ∨
    (b = BUTTON_SIGN ∧ s.buttonPressed b = some s.pressSign) ∨
    (b = BUTTON_DOT ∧ s.buttonPressed b = some s.pressDot) ∨
    ((b = BUTTON_PLUS ∨ b = BUTTON_NEG ∨ b = BUTTON_MUL ∨ b = BUTTON_DIV) ∧ s.buttonPressed b = s.pressBinary b) ∨
    (b = BUTTON_EQ ∧ s.buttonPressed b = s.pressEq) ∨
    (b = BUTTON_MC ∧ s.buttonPressed b = some s.pressMC) ∨
    (b = BUTTON_MR ∧ s.buttonPressed b = some s.pressMR) ∨
    (b = BUTTON_MS ∧ s.buttonPressed b = some s.pressMS) ∨
    (b = BUTTON_MP ∧ s.buttonPressed b = s.pressMP) ∨
    (b = BUTTON_BS ∧ s.buttonPressed b = some s.pressBS) ∨
    (b = BUTTON_CLR ∧ s.buttonPressed b = some s.pressCLR) ∨
    (b = BUTTON_CUBE ∧ s.buttonPressed b = s.pressCube) ∨
    (b = BUTTON_BIN ∧ s.buttonPressed b = some s.pressBin) ∨
    (b = BUTTON_HEX ∧ s.buttonPressed b = some s.pressHex) := by
  by_cases hr : b < 0 ∨ 29 < b
  · exact Or.inl ⟨hr, buttonPressed_out_of_range s hr⟩
  · have h0 : 0 ≤ b := by omega
    have h29 : b ≤ 29 := by omega
    interval_cases b
    · refine Or.inr (Or.inl ?_)
      exact ⟨by decide, rfl⟩
    · refine Or.inr (Or.inl ?_)
      exact ⟨by decide, rfl⟩
    · refine Or.inr (Or.inl ?_)
      exact ⟨by decide, rfl⟩
    · refine Or.inr (Or.inr (Or.inr (Or.inr (Or.inr (Or.inr (Or.inr (Or.inr (Or.inl ?_))))))))
      exact ⟨by decide, rfl⟩
    · refine Or.inr (Or.inr (Or.inr (Or.inr (Or.inr (Or.inr (Or.inr (Or.inr (Or.inr (Or.inr (Or.inr (Or.inr (Or.inr (Or.inr (Or.inr (Or.inl ?_)))))))))))))))
      exact ⟨by decide, rfl⟩
    · refine Or.inr (Or.inl ?_)
      exact ⟨by decide, rfl⟩
    · refine Or.inr (Or.inl ?_)
      exact ⟨by decide, rfl⟩
    · refine Or.inr (Or.inl ?_)
      exact ⟨by decide, rfl⟩
    · refine Or.inr (Or.inr (Or.inr (Or.inr (Or.inr (Or.inr (Or.inr (Or.inr (Or.inl ?_))))))))
      exact ⟨by decide, rfl⟩
    · refine Or.inr (Or.inr (Or.inl ?_))
      exact ⟨by decide, rfl⟩
    · refine Or.inr (Or.inl ?_)
      exact ⟨by decide, rfl⟩
    · refine Or.inr (Or.inl ?_)
      exact ⟨by decide, rfl⟩
    · refine Or.inr (Or.inl ?_)
      exact ⟨by decide, rfl⟩
    · refine Or.inr (Or.inr (Or.inr (Or.inr (Or.inr (Or.inr (Or.inr (Or.inr (Or.inl ?_))))))))
      exact ⟨by decide, rfl⟩
    · refine Or.inr (Or.inr (Or.inr (Or.inr (Or.inr (Or.inl ?_)))))
      exact ⟨by decide, rfl⟩
    · refine Or.inr (Or.inl ?_)
      exact ⟨by decide, rfl⟩
    · refine Or.inr (Or.inr (Or.inr (Or.inr (Or.inr (Or.inr (Or.inl ?_))))))
      exact ⟨by decide, rfl⟩
    · refine Or.inr (Or.inr (Or.inr (Or.inr (Or.inr (Or.inr (Or.inr (Or.inl ?_)))))))
      exact ⟨by decide, rfl⟩
    · refine Or.inr (Or.inr (Or.inr (Or.inr (Or.inr (Or.inr (Or.inr (Or.inr (Or.inl ?_))))))))
      exact ⟨by decide, rfl⟩
    · refine Or.inr (Or.inr (Or.inr (Or.inr (Or.inr (Or.inr (Or.inr (Or.inr (Or.inr (Or.inl ?_)))))))))
      exact ⟨by decide, rfl⟩
    · refine Or.inr (Or.inr (Or.inr (Or.inr (Or.inr (Or.inr (Or.inr (Or.inr (Or.inr (Or.inr (Or.inl ?_))))))))))
      exact ⟨by decide, rfl⟩
    · refine Or.inr (Or.inr (Or.inr (Or.inr (Or.inr (Or.inr (Or.inr (Or.inr (Or.inr (Or.inr (Or.inr (Or.inl ?_)))))))))))
      exact ⟨by decide, rfl⟩
    · refine Or.inr (Or.inr (Or.inr (Or.inr (Or.inr (Or.inr (Or.inr (Or.inr (Or.inr (Or.inr (Or.inr (Or.inr (Or.inl ?_))))))))))))
      exact ⟨by decide, rfl⟩
    · refine Or.inr (Or.inr (Or.inr (Or.inr (Or.inr (Or.inr (Or.inr (Or.inr (Or.inr (Or.inr (Or.inr (Or.inr (Or.inr (Or.inl ?_)))))))))))))
      exact ⟨by decide, rfl⟩
    · refine Or.inr (Or.inr (Or.inr (Or.inr (Or.inr (Or.inr (Or.inr (Or.inr (Or.inr (Or.inr (Or.inr (Or.inr (Or.inr (Or.inr (Or.inl ?_))))))))))))))
      exact ⟨by decide, rfl⟩
    · refine Or.inr (Or.inr (Or.inr (Or.inl ?_)))
      exact ⟨by decide, rfl⟩
    · refine Or.inr (Or.inr (Or.inr (Or.inr (Or.inl ?_))))
      exact ⟨by decide, rfl⟩
    · refine Or.inr (Or.inr (Or.inr (Or.inr (Or.inr (Or.inr (Or.inr (Or.inr (Or.inr (Or.inr (Or.inr (Or.inr (Or.inr (Or.inr (Or.inr (Or.inr (Or.inl ?_))))))))))))))))
      exact ⟨by decide, rfl⟩
    · refine Or.inr (Or.inr (Or.inr (Or.inr (Or.inr (Or.inr (Or.inr (Or.inr (Or.inr (Or.inr (Or.inr (Or.inr (Or.inr (Or.inr (Or.inr (Or.inr (Or.inr (Or.inl ?_)))))))))))))))))
      exact ⟨by decide, rfl⟩
    · refine Or.inr (Or.inr (Or.inr (Or.inr (Or.inr (Or.inr (Or.inr (Or.inr (Or.inr (Or.inr (Or.inr (Or.inr (Or.inr (Or.inr (Or.inr (Or.inr (Or.inr (Or.inr (?_))))))))))))))))))
      exact ⟨by decide, rfl⟩

/-- Every button except MC, MS and M+ leaves the memory register alone. -/
theorem buttonPressed_memoryText {s s1 : Control} {b : Int}
    (hb1 : b ≠ BUTTON_MC ∧ b ≠ BUTTON_MS ∧ b ≠ BUTTON_MP)
    (h : s.buttonPressed b = some s1) : s1.memoryText = s.memoryText := by
  obtain ⟨hmc, hms, hmp⟩ := hb1
  rcases buttonPressed_cases s b with
    ⟨hb, he⟩ | ⟨hb, he⟩ | ⟨hb, he⟩ | ⟨hb, he⟩ | ⟨hb, he⟩ | ⟨hb, he⟩ | ⟨hb, he⟩ | ⟨hb, he⟩ | ⟨hb, he⟩ | ⟨hb, he⟩ | ⟨hb, he⟩ | ⟨hb, he⟩ | ⟨hb, he⟩ | ⟨hb, he⟩ | ⟨hb, he⟩ | ⟨hb, he⟩ | ⟨hb, he⟩ | ⟨hb, he⟩ | ⟨hb, he⟩
  all_goals rw [he] at h
  · rw [← Option.some.inj h]
  · rw [← Option.some.inj h]; exact pressDigit_memoryText _ _
  · exact pressSq_memoryText h
  · exact pressSqrt_memoryText h
  · exact pressFact_memoryText h
  · exact pressInv_memoryText h
  · rw [← Option.some.inj h]; exact pressSign_memoryText _
  · rw [← Option.some.inj h]; exact pressDot_memoryText _
  · exact pressBinary_memoryText h
  · exact pressEq_memoryText h
  · exact absurd hb hmc
  · rw [← Option.some.inj h]; exact pressMR_memoryText _
  · exact absurd hb hms
  · exact absurd hb hmp
  · rw [← Option.some.inj h]; exact pressBS_memoryText _
  · rw [← Option.some.inj h]; rfl
  · exact pressCube_memoryText h
  · rw [← Option.some.inj h]; exact pressBin_memoryText _
  · rw [← Option.some.inj h]; exact pressHex_memoryText _

theorem run_append (s : Control) (xs ys : List Int) :
    s.run (xs ++ ys) = (s.run xs).bind (fun s1 => s1.run ys) := by
  induction xs generalizing s with
  | nil => rfl
  | cons x xs ih =>
    simp only [List.cons_append, Control.run]
    cases s.buttonPressed x with
    | none => rfl
    | some s1 => exact ih s1

theorem run_memoryText {bs : List Int}
    (hbs : ∀ b ∈ bs, b ≠ BUTTON_MC ∧ b ≠ BUTTON_MS ∧ b ≠ BUTTON_MP) :
    ∀ {s s1 : Control}, s.run bs = some s1 → s1.memoryText = s.memoryText := by
  induction bs with
  | nil =>
    intro s s1 h
    simp only [Control.run, Option.some.injEq] at h
    rw [h]
  | cons x xs ih =>
    intro s s1 h
    simp only [Control.run] at h
    cases hx : s.buttonPressed x with
    | none => simp [hx] at h
    | some s2 =>
      rw [hx] at h
      have h1 := buttonPressed_memoryText (hbs x (List.mem_cons_self x xs)) hx
      have h2 := ih (fun b hb => hbs b (List.mem_cons_of_mem x hb)) h
      rw [h2, h1]

/-! ### Completion of a button press -/

theorem none_ne_fact : OPERATOR_NONE ≠ OPERATOR_FACT := by decide

theorem calculate_lastOperator {s s1 : Control} {a b r : QString} {op : Int}
    (h : s.calculate a b op = some (s1, r)) (hs : s.lastOperator ≠ OPERATOR_FACT) :
    s1.lastOperator ≠ OPERATOR_FACT := by
  rcases calculate_state h with h1 | h1 <;> rw [h1]
  · exact hs
  · exact none_ne_fact

theorem newOpOf_ne_fact (index : Int) : Control.newOpOf index ≠ OPERATOR_FACT := by
  unfold Control.newOpOf
  dsimp only
  split_ifs <;> decide

/-- Every button except the factorial completes when the pending operator
is not the factorial (which no button ever makes it), and keeps it so. -/
theorem buttonPressed_total (s : Control) {b : Int} (hb : b ≠ BUTTON_FACT)
    (hs : s.lastOperator ≠ OPERATOR_FACT) :
    ∃ s1, s.buttonPressed b = some s1 ∧ s1.lastOperator ≠ OPERATOR_FACT := by
  rcases buttonPressed_cases s b with
    ⟨_, he⟩ | ⟨_, he⟩ | ⟨_, he⟩ | ⟨_, he⟩ | ⟨hf, _⟩ | ⟨_, he⟩ | ⟨_, he⟩ | ⟨_, he⟩ | ⟨_, he⟩ |
    ⟨_, he⟩ | ⟨_, he⟩ | ⟨_, he⟩ | ⟨_, he⟩ | ⟨_, he⟩ | ⟨_, he⟩ | ⟨_, he⟩ | ⟨_, he⟩ | ⟨_, he⟩ |
    ⟨_, he⟩
  · exact ⟨s, he, hs⟩
  · refine ⟨_, he, ?_⟩
    unfold Control.pressDigit
    dsimp only
    split_ifs <;> exact hs
  · rw [he]
    unfold Control.pressSq
    dsimp only
    split_ifs
    · exact ⟨s, rfl, hs⟩
    · obtain ⟨⟨s2, r⟩, hc⟩ := calculate_total s s.lcdText s.lcdText
        (show OPERATOR_MUL ≠ OPERATOR_FACT by decide)
      have hl := calculate_lastOperator hc hs
      rw [hc]
      exact ⟨_, rfl, hl⟩
  · rw [he]
    unfold Control.pressSqrt
    dsimp only
    split_ifs
    · exact ⟨s, rfl, hs⟩
    · obtain ⟨⟨s2, r⟩, hc⟩ := calculate_total s s.lcdText s.lcdText
        (show OPERATOR_SQRT ≠ OPERATOR_FACT by decide)
      have hl := calculate_lastOperator hc hs
      rw [hc]
      exact ⟨_, rfl, hl⟩
  · exact absurd hf hb
  · rw [he]
    unfold Control.pressInv
    dsimp only
    split_ifs
    · exact ⟨_, rfl, none_ne_fact⟩
    · obtain ⟨⟨s2, r⟩, hc⟩ := calculate_total s "1".toList s.lcdText
        (show OPERATOR_DIV ≠ OPERATOR_FACT by decide)
      have hl := calculate_lastOperator hc hs
      rw [hc]
      exact ⟨_, rfl, hl⟩
  · refine ⟨_, he, ?_⟩
    unfold Control.pressSign
    dsimp only
    split_ifs <;> exact hs
  · refine ⟨_, he, ?_⟩
    unfold Control.pressDot
    dsimp only
    split_ifs <;> exact hs
  · rw [he]
    unfold Control.pressBinary
    dsimp only
    split_ifs
    · exact ⟨_, rfl, newOpOf_ne_fact b⟩
    · exact ⟨_, rfl, newOpOf_ne_fact b⟩
    · obtain ⟨⟨s2, r⟩, hc⟩ := calculate_total s s.operand1 s.lcdText hs
      rw [hc]
      exact ⟨_, rfl, newOpOf_ne_fact b⟩
  · rw [he]
    have hfin : ∀ (s2 : Control) (t : QString), s2.lastOperator ≠ OPERATOR_FACT →
        (s2.finishEq t).lastOperator ≠ OPERATOR_FACT := by
      intro s2 t h2
      unfold Control.finishEq
      dsimp only
      split_ifs
      · exact h2
      · exact none_ne_fact
    unfold Control.pressEq
    dsimp only
    split_ifs
    · exact ⟨_, rfl, hs⟩
    · exact ⟨_, rfl, hfin _ _ hs⟩
    · obtain ⟨⟨s2, r⟩, hc⟩ := calculate_total s s.operand1 s.lcdText hs
      have hl := hfin s2 r (calculate_lastOperator hc hs)
      rw [hc]
      exact ⟨_, rfl, hl⟩
  · exact ⟨_, he, hs⟩
  · refine ⟨_, he, ?_⟩
    unfold Control.pressMR
    dsimp only
    split_ifs <;> exact hs
  · refine ⟨_, he, ?_⟩
    unfold Control.pressMS
    dsimp only
    split_ifs <;> exact hs
  · rw [he]
    unfold Control.pressMP
    dsimp only
    split_ifs
    · exact ⟨_, rfl, hs⟩
    · exact ⟨_, rfl, hs⟩
    · obtain ⟨⟨s2, r⟩, hc⟩ := calculate_total s s.lcdText s.memoryText
        (show OPERATOR_PLUS ≠ OPERATOR_FACT by decide)
      have hl := calculate_lastOperator hc hs
      rw [hc]
      exact ⟨_, rfl, hl⟩
  · refine ⟨_, he, ?_⟩
    unfold Control.pressBS
    dsimp only
    split_ifs <;> exact hs
  · exact ⟨_, he, none_ne_fact⟩
  · rw [he]
    unfold Control.pressCube
    dsimp only
    split_ifs
    · exact ⟨s, rfl, hs⟩
    · obtain ⟨⟨s2, r⟩, hc⟩ := calculate_total s s.lcdText s.lcdText
        (show OPERATOR_MUL ≠ OPERATOR_FACT by decide)
      rw [hc]
      dsimp only
      obtain ⟨⟨s3, r3⟩, hc3⟩ := calculate_total s2 r s.lcdText
        (show OPERATOR_MUL ≠ OPERATOR_FACT by decide)
      have hl := calculate_lastOperator hc3 (calculate_lastOperator hc hs)
      rw [hc3]
      exact ⟨_, rfl, hl⟩
  · refine ⟨_, he, ?_⟩
    unfold Control.pressBin Control.setBinButtonStatus
    dsimp only
    split_ifs <;> exact hs
  · refine ⟨_, he, ?_⟩
    unfold Control.pressHex Control.setHexButtonStatus
    dsimp only
    split_ifs <;> exact hs

theorem run_total {bs : List Int} (hbs : BUTTON_FACT ∉ bs) :
    ∀ (s : Control), s.lastOperator ≠ OPERATOR_FACT →
      ∃ s1, s.run bs = some s1 ∧ s1.lastOperator ≠ OPERATOR_FACT := by
  induction bs with
  | nil => exact fun s hs => ⟨s, rfl, hs⟩
  | cons x xs ih =>
    intro s hs
    have hx : x ≠ BUTTON_FACT := fun h => hbs (h ▸ List.mem_cons_self x xs)
    obtain ⟨s2, h2, hs2⟩ := buttonPressed_total s hx hs
    obtain ⟨s3, h3, hs3⟩ := ih (fun h => hbs (List.mem_cons_of_mem x h)) s2 hs2
    refine ⟨s3, ?_, hs3⟩
    simp only [Control.run, h2, Option.some_bind, h3]


theorem toDouble_zero_text : (toDouble "0".toList).isZero = true := by decide!

/-- C7: after MS, any presses other than MC, MS and M+, and then MR, the
display text is the text `t` shown before MS when `t` is numerically non-zero,
and "0" when it is zero; the presses complete whenever none of them is the
factorial. -/
theorem memory_store_then_recall (s : Control) (bs : List Int)
    (hbs : ∀ b ∈ bs, b ≠ BUTTON_MC ∧ b ≠ BUTTON_MS ∧ b ≠ BUTTON_MP) :
    (∀ s1, s.run (BUTTON_MS :: (bs ++ [BUTTON_MR])) = some s1 →
        s1.lcdText = if (toDouble s.lcdText).isZero then "0".toList else s.lcdText) ∧
    (BUTTON_FACT ∉ bs → s.lastOperator ≠ OPERATOR_FACT →
        ∃ s1, s.run (BUTTON_MS :: (bs ++ [BUTTON_MR])) = some s1) := by
  have hrun : s.run (BUTTON_MS :: (bs ++ [BUTTON_MR])) =
      (s.pressMS.run bs).bind (fun s2 => some s2.pressMR) := by
    show s.pressMS.run (bs ++ [BUTTON_MR]) = _
    rw [run_append]
    rfl
  constructor
  · intro s1 h
    rw [hrun] at h
    cases h2 : s.pressMS.run bs with
    | none => simp [h2] at h
    | some s2 =>
      rw [h2] at h
      simp only [Option.some_bind, Option.some.injEq] at h
      have hm := run_memoryText hbs h2
      have hms : s.pressMS.memoryText =
          if (toDouble s.lcdText).isZero then "0".toList else s.lcdText := by
        unfold Control.pressMS
        dsimp only
        split_ifs <;> rfl
      have hmr : s2.pressMR.lcdText =
          if (toDouble s2.memoryText).isZero then "0".toList else s2.memoryText := by
        unfold Control.pressMR
        dsimp only
        split_ifs <;> rfl
      rw [← h, hmr, hm, hms]
      by_cases hz : (toDouble s.lcdText).isZero = true
      · rw [if_pos hz, if_pos toDouble_zero_text]
      · rw [if_neg hz, if_neg hz]
  · intro hf hs
    have hs2 : s.pressMS.lastOperator ≠ OPERATOR_FACT := by
      unfold Control.pressMS
      dsimp only
      split_ifs <;> exact hs
    obtain ⟨s2, h2, _⟩ := run_total hf s.pressMS hs2
    exact ⟨s2.pressMR, by rw [hrun, h2]; rfl⟩

/-- Witness of C7: with "7" on the display, MS, then 8, then MR shows "7". -/
theorem memory_store_then_recall_witness :
    (∀ b ∈ [BUTTON_8], b ≠ BUTTON_MC ∧ b ≠ BUTTON_MS ∧ b ≠ BUTTON_MP) ∧
    (init.pressDigit BUTTON_7).lcdText = "7".toList ∧
    ((init.pressDigit BUTTON_7).run (BUTTON_MS :: ([BUTTON_8] ++ [BUTTON_MR]))).map
      (fun s => s.lcdText) = some "7".toList := by
  have h := memory_store_then_recall (init.pressDigit BUTTON_7) [BUTTON_8] (by decide)
  obtain ⟨s1, h1⟩ := h.2 (by decide) (by decide)
  refine ⟨by decide, by decide!, ?_⟩
  rw [h1, Option.map_some', h.1 s1 h1]
  decide!


theorem specUnsignedLiteral_no_minus {t : QString} (h : specUnsignedLiteral t = true) :
    '-' ∉ t := by
  intro hm
  unfold specUnsignedLiteral at h
  simp only [Bool.and_eq_true, List.all_eq_true] at h
  have := h.1.1 _ hm
  revert this
  decide

theorem specValidLiteral_cons {c : Char} {r : QString} (hc : c ≠ '-') :
    specValidLiteral (c :: r) = specUnsignedLiteral (c :: r) := by
  unfold specValidLiteral
  split
  · rename_i h
    simp only [List.cons.injEq] at h
    exact absurd h.1 hc
  · rfl

theorem pressSign_lcdText (s : Control) :
    s.pressSign.lcdText =
      if s.isNegativeEnabled = false then
        (if s.lcdText.length ≤ LCD_LENGTH then '-' :: s.lcdText else s.lcdText)
      else s.lcdText.drop 1 := by
  unfold Control.pressSign
  dsimp only
  split_ifs <;> rfl

theorem pressSign_isNegativeEnabled (s : Control) :
    s.pressSign.isNegativeEnabled = decide ('-' ∈ s.pressSign.lcdText) := by
  unfold Control.pressSign
  dsimp only
  split_ifs <;> rfl

/-- C6 (amended): in a state whose display text is a valid numeric literal of
at most 21 characters and whose cached negative flag agrees with the text,
two presses of the sign toggle leave the display text as it was. -/
theorem sign_toggle_twice_restores (s : Control)
    (hlit : specValidLiteral s.lcdText = true)
    (hflag : s.isNegativeEnabled = decide ('-' ∈ s.lcdText))
    (hlen : s.lcdText.length ≤ 21) :
    (s.run [BUTTON_SIGN, BUTTON_SIGN]).map (fun s1 => s1.lcdText) = some s.lcdText := by
  have hrun : s.run [BUTTON_SIGN, BUTTON_SIGN] = some s.pressSign.pressSign := rfl
  rw [hrun, Option.map_some']
  congr 1
  have hnil : specValidLiteral [] = false := by decide
  rw [pressSign_lcdText s.pressSign, pressSign_isNegativeEnabled s, pressSign_lcdText s]
  rcases hs : s.lcdText with _ | ⟨c, r⟩
  · rw [hs, hnil] at hlit
    exact absurd hlit (by decide)
  · rw [hs] at hlit hflag hlen
    by_cases hc : c = '-'
    · subst hc
      have hr : '-' ∉ r := specUnsignedLiteral_no_minus hlit
      have hf : s.isNegativeEnabled = true := by rw [hflag]; simp
      have hl : r.length ≤ LCD_LENGTH := by
        simp only [List.length_cons] at hlen
        unfold LCD_LENGTH
        omega
      simp [hf, hr, hl]
    · rw [specValidLiteral_cons hc] at hlit
      have hr : '-' ∉ c :: r := specUnsignedLiteral_no_minus hlit
      have hf : s.isNegativeEnabled = false := by rw [hflag]; simp [hr]
      have hr2 : ¬ '-' = c ∧ '-' ∉ r := by simpa using hr
      by_cases hl : r.length + 1 ≤ LCD_LENGTH
      · simp [hf, hl]
      · simp [hf, hl, hr2.1, hr2.2]

/-- Witness of C6 (amended): "-5" with the flag set. -/
theorem sign_toggle_twice_restores_witness :
    specValidLiteral (init.pressDigit BUTTON_5).pressSign.lcdText = true ∧
    (init.pressDigit BUTTON_5).pressSign.lcdText = "-5".toList ∧
    ((init.pressDigit BUTTON_5).pressSign.run [BUTTON_SIGN, BUTTON_SIGN]).map
      (fun s1 => s1.lcdText) = some (init.pressDigit BUTTON_5).pressSign.lcdText :=
  ⟨by decide!, by decide!,
    sign_toggle_twice_restores (init.pressDigit BUTTON_5).pressSign (by decide!) (by decide!)
      (by decide!)⟩

/-- C6 as stated fails: after 5, sign, MS the display text is the literal "0"
while the cached negative flag is stale, and two sign presses give "-"; and
on the 22-character literal reached by twenty 1s, sign, point, whose flag is
right, two sign presses drop the sign for good. -/
theorem sign_toggle_twice_counterexample :
    (init.run [BUTTON_5, BUTTON_SIGN, BUTTON_MS]).map
        (fun s => (s.lcdText, specValidLiteral s.lcdText, s.isNegativeEnabled,
          (s.run [BUTTON_SIGN, BUTTON_SIGN]).map (fun s1 => s1.lcdText))) =
      some ("0".toList, true, true, some "-".toList) ∧
    (init.run (List.replicate 20 BUTTON_1 ++ [BUTTON_SIGN, BUTTON_DOT])).map
        (fun s => (s.lcdText, specValidLiteral s.lcdText, s.isNegativeEnabled,
          (s.run [BUTTON_SIGN, BUTTON_SIGN]).map (fun s1 => s1.lcdText))) =
      some ("-11111111111111111111.".toList, true, true,
        some "11111111111111111111.".toList) := by
  decide!

/-! ### Numeric lemmas: binary length and rounding -/

theorem bitLenAux_zero (f : Nat) : bitLenAux f 0 = 0 := by
  cases f <;> simp [bitLenAux]

theorem bitLenAux_spec : ∀ (f n : Nat), n ≤ f →
    n < 2 ^ bitLenAux f n ∧ (n ≠ 0 → 2 ^ (bitLenAux f n - 1) ≤ n) := by
  intro f
  induction f with
  | zero =>
    intro n hn
    have : n = 0 := by omega
    subst this
    simp [bitLenAux]
  | succ f ih =>
    intro n hn
    by_cases h0 : n = 0
    · subst h0
      simp [bitLenAux]
    · have hle : n / 2 ≤ f := by omega
      obtain ⟨h1, h2⟩ := ih (n / 2) hle
      simp only [bitLenAux, h0, if_false, Nat.add_sub_cancel]
      constructor
      · rw [pow_succ]
        omega
      · intro _
        by_cases h3 : n / 2 = 0
        · rw [h3, bitLenAux_zero]
          simp
          omega
        · have h4 := h2 h3
          have h5 : 1 ≤ bitLenAux f (n / 2) := by
            by_contra hc
            have : bitLenAux f (n / 2) = 0 := by omega
            rw [this] at h1
            simp at h1
            exact h3 h1
          have h6 : 2 ^ bitLenAux f (n / 2) = 2 * 2 ^ (bitLenAux f (n / 2) - 1) := by
            rw [← pow_succ']
            congr 1
            omega
          rw [h6]
          omega

theorem bitLen_lt (n : Nat) : n < 2 ^ bitLen n := (bitLenAux_spec n n le_rfl).1

theorem bitLen_le {n : Nat} (h : n ≠ 0) : 2 ^ (bitLen n - 1) ≤ n :=
  (bitLenAux_spec n n le_rfl).2 h

theorem bitLen_pos {n : Nat} (h : n ≠ 0) : 1 ≤ bitLen n := by
  by_contra hc
  have h0 : bitLen n = 0 := by omega
  have := bitLen_lt n
  rw [h0] at this
  simp at this
  exact h this

theorem bitLen_le_of_lt {n k : Nat} (h : n < 2 ^ k) : bitLen n ≤ k := by
  by_cases h0 : n = 0
  · subst h0
    simp [bitLen, bitLenAux]
  · by_contra hc
    have h1 := bitLen_le h0
    have h2 : 2 ^ k ≤ 2 ^ (bitLen n - 1) := Nat.pow_le_pow_right (by norm_num) (by omega)
    omega

theorem shiftFrac_eq (n d : Nat) (e : Int) :
    shiftFrac n d e = (n * 2 ^ (-e).toNat, d * 2 ^ e.toNat) := by
  unfold shiftFrac
  split_ifs with h
  · have : (-e).toNat = 0 := by omega
    simp [this]
  · have : e.toNat = 0 := by omega
    simp [this]

theorem roundNearestEven_le (num den : Nat) :
    roundNearestEven num den ≤ num / den + 1 := by
  unfold roundNearestEven
  dsimp only
  split_ifs <;> omega

theorem roundNearestEven_ge (num den : Nat) :
    num / den ≤ roundNearestEven num den := by
  unfold roundNearestEven
  dsimp only
  split_ifs <;> omega

theorem two_pow_toNat_split (e e1 : Int) :
    2 ^ (-e).toNat * 2 ^ e1.toNat * 2 ^ (e - e1).toNat =
      2 ^ (e1 - e).toNat * (2 ^ (-e1).toNat * 2 ^ e.toNat) := by
  rw [← pow_add, ← pow_add, ← pow_add, ← pow_add]
  congr 1
  omega

/-- If `n / d < 2^e1` then `n / (d * 2^e) < 2^(e1 - e)`. -/
theorem shiftFrac_lt {n d : Nat} (e e1 : Int)
    (hlt : (shiftFrac n d e1).1 < (shiftFrac n d e1).2) :
    (shiftFrac n d e).1 < 2 ^ (e1 - e).toNat * (shiftFrac n d e).2 := by
  rw [shiftFrac_eq] at hlt ⊢
  dsimp only at hlt ⊢
  have hsplit := two_pow_toNat_split e e1
  have key : n * 2 ^ (-e).toNat * (2 ^ e1.toNat * 2 ^ (e - e1).toNat) <
      2 ^ (e1 - e).toNat * (d * 2 ^ e.toNat) * (2 ^ e1.toNat * 2 ^ (e - e1).toNat) := by
    calc n * 2 ^ (-e).toNat * (2 ^ e1.toNat * 2 ^ (e - e1).toNat)
        = n * (2 ^ (-e).toNat * 2 ^ e1.toNat * 2 ^ (e - e1).toNat) := by ring
      _ = (n * 2 ^ (-e1).toNat) * (2 ^ (e1 - e).toNat * 2 ^ e.toNat) := by rw [hsplit]; ring
      _ < (d * 2 ^ e1.toNat) * (2 ^ (e1 - e).toNat * 2 ^ e.toNat) := by
          apply Nat.mul_lt_mul_of_pos_right hlt
          positivity
      _ ≤ (d * 2 ^ e1.toNat) * (2 ^ (e1 - e).toNat * 2 ^ e.toNat) * 2 ^ (e - e1).toNat :=
          Nat.le_mul_of_pos_right _ (by positivity)
      _ = 2 ^ (e1 - e).toNat * (d * 2 ^ e.toNat) * (2 ^ e1.toNat * 2 ^ (e - e1).toNat) := by
          ring
  exact Nat.lt_of_mul_lt_mul_right key

/-- The quotient of `n / d` by `2^(bitLen n - bitLen d + 1)` is below one. -/
theorem shiftFrac_bitLen_lt {n d : Nat} (hd : d ≠ 0) :
    (shiftFrac n d ((bitLen n : Int) - (bitLen d : Int) + 1)).1 <
      (shiftFrac n d ((bitLen n : Int) - (bitLen d : Int) + 1)).2 := by
  rw [shiftFrac_eq]
  dsimp only
  have h1 := bitLen_lt n
  have h2 := bitLen_le hd
  have h3 := bitLen_pos hd
  have key : 2 ^ bitLen n * 2 ^ (-((bitLen n : Int) - (bitLen d : Int) + 1)).toNat =
      2 ^ (bitLen d - 1) * 2 ^ ((bitLen n : Int) - (bitLen d : Int) + 1).toNat := by
    rw [← pow_add, ← pow_add]
    congr 1
    omega
  calc n * 2 ^ (-((bitLen n : Int) - (bitLen d : Int) + 1)).toNat
      < 2 ^ bitLen n * 2 ^ (-((bitLen n : Int) - (bitLen d : Int) + 1)).toNat := by
        apply Nat.mul_lt_mul_of_pos_right h1
        positivity
    _ = 2 ^ (bitLen d - 1) * 2 ^ ((bitLen n : Int) - (bitLen d : Int) + 1).toNat := key
    _ ≤ d * 2 ^ ((bitLen n : Int) - (bitLen d : Int) + 1).toNat :=
        Nat.mul_le_mul_right _ h2

theorem roundDbl_wf (neg : Bool) (n d : Nat) : (roundDbl neg n d).WF := by
  unfold roundDbl
  by_cases h0 : n = 0 ∨ d = 0
  · rw [if_pos h0]
    simp [Dbl.WF]
  · rw [if_neg h0]
    have hd : d ≠ 0 := fun h => h0 (Or.inr h)
    dsimp only
    generalize hl : ((bitLen n : Int) - (bitLen d : Int)) = l
    generalize hfl : (if (shiftFrac n d l).2 ≤ (shiftFrac n d l).1 then l else l - 1) = fl
    have hup : (shiftFrac n d (fl + 1)).1 < (shiftFrac n d (fl + 1)).2 := by
      rw [← hfl]
      split_ifs with hc
      · rw [← hl]
        exact shiftFrac_bitLen_lt hd
      · have : l - 1 + 1 = l := by omega
        rw [this]
        omega
    generalize he0 : max (fl - 52) (-1074) = e0
    have hm1 : fl - 52 ≤ e0 := by rw [← he0]; exact le_max_left _ _
    have hm2 : -1074 ≤ e0 := by rw [← he0]; exact le_max_right _ _
    have hk : (fl + 1 - e0).toNat ≤ 53 := by
      clear he0 hup hfl hl
      omega
    have hs := shiftFrac_lt e0 (fl + 1) hup
    generalize hq : roundNearestEven (shiftFrac n d e0).1 (shiftFrac n d e0).2 = q
    have hs2pos : 0 < (shiftFrac n d e0).2 := by
      rw [shiftFrac_eq]
      dsimp only
      have : 0 < d := Nat.pos_of_ne_zero hd
      positivity
    have hq53 : q ≤ 2 ^ 53 := by
      have h1 := roundNearestEven_le (shiftFrac n d e0).1 (shiftFrac n d e0).2
      rw [hq] at h1
      have h2 : (shiftFrac n d e0).1 < 2 ^ 53 * (shiftFrac n d e0).2 := by
        calc (shiftFrac n d e0).1 < 2 ^ (fl + 1 - e0).toNat * (shiftFrac n d e0).2 := hs
          _ ≤ 2 ^ 53 * (shiftFrac n d e0).2 :=
              Nat.mul_le_mul_right _ (Nat.pow_le_pow_right (by norm_num) hk)
      have h3 : (shiftFrac n d e0).1 / (shiftFrac n d e0).2 < 2 ^ 53 :=
        (Nat.div_lt_iff_lt_mul hs2pos).mpr h2
      omega
    split_ifs with h1 h2 h3 h4 h5 h6
    all_goals simp only [Dbl.WF]
    all_goals first
      | trivial
      | (refine ⟨?_, ?_, ?_⟩ <;> first | omega | norm_num)

theorem Dbl.wf_zero (s : Bool) : (Dbl.fin s 0 0).WF := by
  simp [Dbl.WF]

theorem Dbl.add_wf (x y : Dbl) : (Dbl.add x y).WF := by
  unfold Dbl.add
  split <;> (try dsimp only) <;> (try split_ifs) <;>
    first | trivial | exact Dbl.wf_zero _ | exact roundDbl_wf _ _ _

theorem Dbl.sub_wf (x y : Dbl) : (Dbl.sub x y).WF := Dbl.add_wf _ _

theorem Dbl.mul_wf (x y : Dbl) : (Dbl.mul x y).WF := by
  unfold Dbl.mul
  split <;> (try dsimp only) <;> (try split_ifs) <;>
    first | trivial | exact Dbl.wf_zero _ | exact roundDbl_wf _ _ _

theorem Dbl.div_wf (x y : Dbl) : (Dbl.div x y).WF := by
  unfold Dbl.div
  split <;> (try dsimp only) <;> (try split_ifs) <;>
    first | trivial | exact Dbl.wf_zero _ | exact roundDbl_wf _ _ _

theorem Dbl.sqrt_wf (x : Dbl) : (Dbl.sqrt x).WF := by
  unfold Dbl.sqrt
  split <;> (try dsimp only) <;> (try split_ifs) <;>
    first | trivial | exact Dbl.wf_zero _ | exact roundDbl_wf _ _ _

theorem toDouble_wf (t : QString) : (toDouble t).WF := by
  unfold toDouble
  dsimp only
  split_ifs
  · trivial
  · trivial
  · trivial
  · split
    · exact Dbl.wf_zero _
    · rename_i sg m x _
      have hw := roundDbl_wf sg (scale10 m 1 x).1 (scale10 m 1 x).2
      generalize roundDbl sg (scale10 m 1 x).1 (scale10 m 1 x).2 = r at hw ⊢
      cases r with
      | fin a b c => exact hw
      | inf a => exact Dbl.wf_zero _
      | nan => trivial

theorem factLoop_wf (op1 : Dbl) : ∀ (fuel : Nat) (i : Int) (r r1 : Dbl), r.WF →
    Control.factLoop op1 fuel i r = some r1 → r1.WF := by
  intro fuel
  induction fuel with
  | zero =>
    intro i r r1 _ h
    simp [Control.factLoop] at h
  | succ f ih =>
    intro i r r1 hr h
    simp only [Control.factLoop] at h
    split_ifs at h
    · exact ih _ _ _ (Dbl.mul_wf _ _) h
    · simp only [Option.some.injEq] at h
      rw [← h]
      exact hr

theorem Dbl.neg_wf {x : Dbl} (h : x.WF) : x.neg.WF := by
  cases x <;> first | exact h | trivial

theorem Dbl.round_wf {x : Dbl} (h : x.WF) : x.round.WF := by
  unfold Dbl.round
  split <;> (try dsimp only) <;> (try split_ifs) <;>
    first | trivial | exact h | exact roundDbl_wf _ _ _

theorem Dbl.ofInt_wf (i : Int) : (Dbl.ofInt i).WF := roundDbl_wf _ _ _

theorem factOperand_wf {x : Dbl} (h : x.WF) : (Control.factOperand x).WF := by
  unfold Control.factOperand
  split_ifs
  · exact Dbl.ofInt_wf 1
  · exact Dbl.neg_wf h
  · exact Dbl.round_wf h

theorem factorial_wf {x r : Dbl} (h : Control.factorial x = some r) : r.WF := by
  unfold Control.factorial at h
  exact factLoop_wf x _ _ _ _ (Dbl.ofInt_wf 1) h

/-- What `calculate` returns is "0" or the text of a double. -/
theorem calculate_result {s s1 : Control} {a b r : QString} {op : Int}
    (h : s.calculate a b op = some (s1, r)) :
    r = "0".toList ∨ ∃ d : Dbl, d.WF ∧ r = setNum d := by
  unfold Control.calculate at h
  dsimp only at h
  split_ifs at h
  all_goals first
    | (simp only [Option.some.injEq, Prod.mk.injEq] at h
       first
         | exact Or.inl h.2.symm
         | exact Or.inr ⟨_, Dbl.add_wf _ _, h.2.symm⟩
         | exact Or.inr ⟨_, Dbl.sub_wf _ _, h.2.symm⟩
         | exact Or.inr ⟨_, Dbl.mul_wf _ _, h.2.symm⟩
         | exact Or.inr ⟨_, Dbl.div_wf _ _, h.2.symm⟩
         | exact Or.inr ⟨_, Dbl.sqrt_wf _, h.2.symm⟩)
    | (split at h
       · simp at h
       · rename_i heq
         simp only [Option.some.injEq, Prod.mk.injEq] at h
         exact Or.inr ⟨_, factorial_wf heq, h.2.symm⟩)

/-! ### Length of the text of a double -/

theorem log10Aux_le : ∀ (f k j : Nat), k < 10 ^ (j + 1) → log10Aux f k ≤ j := by
  intro f
  induction f with
  | zero => intro k j _; simp [log10Aux]
  | succ f ih =>
    intro k j h
    simp only [log10Aux]
    split_ifs with h10
    · omega
    · cases j with
      | zero => simp at h; omega
      | succ j =>
        have : k / 10 < 10 ^ (j + 1) := by
          rw [pow_succ] at h
          omega
        have := ih (k / 10) j this
        omega

theorem negExpAux_le : ∀ (f n d j : Nat), d ≤ n * 10 ^ j → negExpAux f n d ≤ j := by
  intro f
  induction f with
  | zero => intro n d j _; simp [negExpAux]
  | succ f ih =>
    intro n d j h
    simp only [negExpAux]
    split_ifs with hd
    · omega
    · cases j with
      | zero => simp at h; omega
      | succ j =>
        have : d ≤ 10 * n * 10 ^ j := by
          rw [pow_succ] at h
          calc d ≤ n * (10 ^ j * 10) := h
            _ = 10 * n * 10 ^ j := by ring
        have := ih (10 * n) d j this
        omega

theorem natDigits_length {k : Nat} (h : k < 1000) : (natDigits k).length ≤ 3 := by
  unfold natDigits Nat.toDigits
  exact Nat.toDigitsCore_length 10 (by norm_num) (k + 1) k 3 (by norm_num; exact h)
    (by norm_num)

theorem exponentForm_length {digits : List Char} {decpt : Int}
    (hd : digits.length ≤ 6) (hx : (decpt - 1).natAbs < 1000) :
    (exponentForm digits decpt).length ≤ 12 := by
  have hxs := natDigits_length hx
  have hx1 : (decpt - 1).natAbs < 10 → (natDigits (decpt - 1).natAbs).length ≤ 1 := by
    intro h10
    unfold natDigits Nat.toDigits
    exact Nat.toDigitsCore_length 10 (by norm_num) _ _ 1 (by simpa using h10) (by norm_num)
  unfold exponentForm
  dsimp only
  rcases digits with _ | ⟨c, _ | ⟨c2, rest⟩⟩
  · simp only [List.length_append, List.length_cons, List.length_nil]
    split_ifs with h10
    · have := hx1 h10
      simp only [List.length_cons]
      omega
    · omega
  · simp only [List.length_append, List.length_cons, List.length_nil]
    split_ifs with h10
    · have := hx1 h10
      simp only [List.length_cons]
      omega
    · omega
  · simp only [List.length_append, List.length_cons, List.length_nil] at hd ⊢
    split_ifs with h10
    · have := hx1 h10
      simp only [List.length_cons]
      omega
    · omega

theorem decimalForm_length {digits : List Char} {decpt : Int}
    (hd : digits.length ≤ 6)
    (hc : decpt = digits.length ∨ (-4 < decpt ∧ decpt ≤ 6)) :
    (decimalForm digits decpt).length ≤ 12 := by
  unfold decimalForm
  split_ifs with h1 h2
  · simp only [List.length_cons, List.length_append, List.length_replicate]
    omega
  · simp only [List.length_append, List.length_replicate]
    omega
  · simp only [List.length_append, List.length_cons, List.length_take, List.length_drop]
    omega

theorem isEmpty_eq_false {a : QString} (h : a ≠ []) : a.isEmpty = false := by
  cases a with
  | nil => exact absurd rfl h
  | cons c r => rfl

/-- C11: with both operand texts non-empty and the second one numerically
zero, `calculate` under Divide runs `showError` and returns "0": the marker
"-- error --" is sent to the LCD, display text, operator, operand, flags and
last action are back at their initial values, the memory register is kept. -/
theorem calculate_divide_by_zero (s : Control) (a b : QString)
    (ha : a ≠ []) (hb : b ≠ []) (hz : (toDouble b).isZero = true) :
    s.calculate a b OPERATOR_DIV = some (s.showError, "0".toList) ∧
      s.showError.emitted = s.emitted ++ [Signal.setLCD "-- error --".toList] ∧
      s.showError.lcdText = init.lcdText ∧ s.showError.lastOperator = init.lastOperator ∧
      s.showError.operand1 = init.operand1 ∧
      s.showError.isDecimalEnabled = init.isDecimalEnabled ∧
      s.showError.isNegativeEnabled = init.isNegativeEnabled ∧
      s.showError.lastClicked = init.lastClicked ∧
      s.showError.memoryText = s.memoryText := by
  refine ⟨?_, rfl, rfl, rfl, rfl, rfl, rfl, rfl, rfl⟩
  unfold Control.calculate
  dsimp only
  rw [isEmpty_eq_false ha, isEmpty_eq_false hb]
  simp [OPERATOR_DIV, OPERATOR_PLUS, OPERATOR_MINUS, OPERATOR_MUL, hz]

/-- Witness of C11: 5 / 0 and 0 / 0. -/
theorem calculate_divide_by_zero_witness :
    init.calculate "5".toList "0".toList OPERATOR_DIV = some (init.showError, "0".toList) ∧
    init.calculate "0".toList "0".toList OPERATOR_DIV = some (init.showError, "0".toList) :=
  ⟨(calculate_divide_by_zero init "5".toList "0".toList (by decide) (by decide)
      (by decide!)).1,
   (calculate_divide_by_zero init "0".toList "0".toList (by decide) (by decide)
      (by decide!)).1⟩

/-- C12 as stated fails: `calculate` on "1", "0" and Divide changes the
controller (it sends the error marker and resets the state). -/
theorem calculate_not_pure_counterexample :
    ((init.pressDigit BUTTON_5).calculate "1".toList "0".toList OPERATOR_DIV).map
      (fun p => (decide (p.1 = init.pressDigit BUTTON_5), p.1.lcdText, p.1.emitted)) =
      some (false, "0".toList,
        [Signal.setLCD "5".toList, Signal.setLCD "-- error --".toList]) := by
  decide!

/-- C12 (amended): `calculate` leaves every controller field unchanged and
sends no signal, except under Divide with both operand texts non-empty and
the second one numerically zero. -/
theorem calculate_pure_except_divide_by_zero (s s1 : Control) (a b r : QString) (op : Int)
    (h : s.calculate a b op = some (s1, r))
    (hne : ¬ (op = OPERATOR_DIV ∧ a ≠ [] ∧ b ≠ [] ∧ (toDouble b).isZero = true)) :
    s1 = s := by
  unfold Control.calculate at h
  dsimp only at h
  split_ifs at h with h1 h2 h3 h4 h5 h6 h7
  all_goals first
    | (simp only [Option.some.injEq, Prod.mk.injEq] at h; exact h.1.symm)
    | (split at h <;> simp at h; exact h.1.symm)
    | (exfalso
       apply hne
       refine ⟨h6, ?_, ?_, h7⟩
       · intro ha; rw [ha] at h1; exact h1 rfl
       · intro hb; rw [hb] at h2; exact h2 rfl)

/-- Witness of C12 (amended): 5 + 3 leaves the state as it is. -/
theorem calculate_pure_except_divide_by_zero_witness :
    init.calculate "5".toList "3".toList OPERATOR_PLUS = some (init, "8".toList) ∧
    ¬ (OPERATOR_PLUS = OPERATOR_DIV ∧ "5".toList ≠ [] ∧ "3".toList ≠ [] ∧
        (toDouble "3".toList).isZero = true) ∧ init = init :=
  ⟨by decide!, by decide,
    calculate_pure_except_divide_by_zero init init "5".toList "3".toList "8".toList
      OPERATOR_PLUS (by decide!) (by decide)⟩

/-- C15: an index outside 0..29 changes no field and sends no signal. -/
theorem unknown_button_ignored (s : Control) (index : Int)
    (h : index < 0 ∨ 29 < index) : s.buttonPressed index = some s :=
  buttonPressed_out_of_range s h

/-- Witness of C15: the indices 30 and -1. -/
theorem unknown_button_ignored_witness :
    ((30 : Int) < 0 ∨ 29 < (30 : Int)) ∧ init.buttonPressed 30 = some init ∧
      init.buttonPressed (-1) = some init :=
  ⟨by decide, unknown_button_ignored init 30 (by decide),
    unknown_button_ignored init (-1) (by decide)⟩

/-- C16: with an empty first or second operand text `calculate` returns "0"
and the state as it was, whatever the operator. -/
theorem calculate_empty_operand (s : Control) (a b : QString) (op : Int)
    (h : a = [] ∨ b = []) : s.calculate a b op = some (s, "0".toList) := by
  unfold Control.calculate
  dsimp only
  rcases h with h | h
  · subst h
    rfl
  · subst h
    cases a <;> rfl

/-- Witness of C16: Divide with an empty first operand and a zero second
operand, and with an empty second operand. -/
theorem calculate_empty_operand_witness :
    init.calculate [] "0".toList OPERATOR_DIV = some (init, "0".toList) ∧
    init.calculate "7".toList [] OPERATOR_FACT = some (init, "0".toList) :=
  ⟨calculate_empty_operand init [] "0".toList OPERATOR_DIV (Or.inl rfl),
   calculate_empty_operand init "7".toList [] OPERATOR_FACT (Or.inr rfl)⟩

/-- C17: a press of any button other than MC, MS and M+ that completes leaves
the memory register as it was; this covers the reciprocal of zero, which
enters the error state, and Clear. -/
theorem memory_kept_by_other_buttons (s s1 : Control) (b : Int)
    (hb : b ≠ BUTTON_MC ∧ b ≠ BUTTON_MS ∧ b ≠ BUTTON_MP)
    (h : s.buttonPressed b = some s1) : s1.memoryText = s.memoryText :=
  buttonPressed_memoryText hb h

/-- Witness of C17: with "7" in memory, the reciprocal of zero and Clear. -/
theorem memory_kept_by_other_buttons_witness :
    (init.setMemoryText "7".toList).buttonPressed BUTTON_INV =
      some (init.setMemoryText "7".toList).showError ∧
    (init.setMemoryText "7".toList).showError.memoryText = "7".toList ∧
    (init.setMemoryText "7".toList).pressCLR.memoryText = "7".toList :=
  ⟨by decide!,
   memory_kept_by_other_buttons (init.setMemoryText "7".toList) _ BUTTON_INV (by decide)
     (by decide!),
   memory_kept_by_other_buttons (init.setMemoryText "7".toList) _ BUTTON_CLR (by decide)
     (buttonPressed_CLR _)⟩

/-- C13: the factorial of "-2.5" differs from that of "2.5": a negative
operand is negated but not rounded, and the loop then stops at 2, while the
positive operand is rounded to 3; through the keys, and on `calculate`
itself.  On 0 and 5 the results are "1" and "120". -/
theorem factorial_negative_not_rounded :
    (init.calculate "2.5".toList "2.5".toList OPERATOR_FACT).map (fun p => p.2) =
      some "6".toList ∧
    (init.calculate "-2.5".toList "-2.5".toList OPERATOR_FACT).map (fun p => p.2) =
      some "2".toList ∧
    (init.run [BUTTON_2, BUTTON_DOT, BUTTON_5, BUTTON_FACT]).map (fun s => s.lcdText) =
      some "6".toList ∧
    (init.run [BUTTON_2, BUTTON_DOT, BUTTON_5, BUTTON_SIGN, BUTTON_FACT]).map
      (fun s => s.lcdText) = some "2".toList ∧
    (init.calculate "0".toList "0".toList OPERATOR_FACT).map (fun p => p.2) =
      some "1".toList ∧
    (init.calculate "5".toList "5".toList OPERATOR_FACT).map (fun p => p.2) =
      some "120".toList := by
  decide!

theorem buttonPressed_BS (s : Control) : s.buttonPressed BUTTON_BS = some s.pressBS := rfl

theorem pressBS_zero {s : Control} (h : s.lcdText = "0".toList) :
    s.pressBS.lcdText = "0".toList := by
  unfold Control.pressBS
  dsimp only
  rw [h]
  rfl

theorem run_BS_zero : ∀ (n : Nat) (s : Control), s.lcdText = "0".toList →
    ∃ s1, s.run (List.replicate n BUTTON_BS) = some s1 ∧ s1.lcdText = "0".toList := by
  intro n
  induction n with
  | zero => exact fun s h => ⟨s, rfl, h⟩
  | succ n ih =>
    intro s h
    obtain ⟨s1, h1, h2⟩ := ih s.pressBS (pressBS_zero h)
    exact ⟨s1, h1, h2⟩

/-- C14: Backspace removes the last character of a display text longer than
one character, sets a one-character text to "0", and sets the last action to
Other; from the display "0" any number of Backspace presses leaves "0". -/
theorem backspace_behaviour (s : Control) :
    (∃ s1, s.buttonPressed BUTTON_BS = some s1 ∧ s1.lastClicked = TYPE_OTHER ∧
      (1 < s.lcdText.length → s1.lcdText = s.lcdText.dropLast) ∧
      (s.lcdText.length = 1 → s1.lcdText = "0".toList)) ∧
    (s.lcdText = "0".toList → ∀ n : Nat,
      (s.run (List.replicate n BUTTON_BS)).map (fun s1 => s1.lcdText) = some "0".toList) := by
  constructor
  · refine ⟨s.pressBS, rfl, ?_, ?_, ?_⟩
    · unfold Control.pressBS
      dsimp only
      split_ifs <;> rfl
    · intro h
      unfold Control.pressBS
      dsimp only
      rw [if_pos h]
      rfl
    · intro h
      unfold Control.pressBS
      dsimp only
      rw [if_neg (by omega), if_pos h]
      rfl
  · intro h n
    obtain ⟨s1, h1, h2⟩ := run_BS_zero n s h
    rw [h1, Option.map_some', h2]

/-- Witness of C14: "12" becomes "1", "1" becomes "0", and three Backspace
presses on the constructor's "0" leave "0". -/
theorem backspace_behaviour_witness :
    ((init.setText "12".toList).buttonPressed BUTTON_BS).map (fun s => s.lcdText) =
      some "1".toList ∧
    ((init.setText "1".toList).buttonPressed BUTTON_BS).map (fun s => s.lcdText) =
      some "0".toList ∧
    (init.run (List.replicate 3 BUTTON_BS)).map (fun s1 => s1.lcdText) = some "0".toList := by
  refine ⟨?_, ?_, (backspace_behaviour init).2 rfl 3⟩
  · obtain ⟨s1, h1, _, h2, _⟩ := (backspace_behaviour (init.setText "12".toList)).1
    rw [h1, Option.map_some', h2 (by decide)]
    rfl
  · obtain ⟨s1, h1, _, _, h3⟩ := (backspace_behaviour (init.setText "1".toList)).1
    rw [h1, Option.map_some', h3 (by decide)]

theorem buttonPressed_digit (s : Control) {d : Int}
    (hd : d = BUTTON_1 ∨ d = BUTTON_2 ∨ d = BUTTON_3 ∨ d = BUTTON_4 ∨ d = BUTTON_5 ∨
      d = BUTTON_6 ∨ d = BUTTON_7 ∨ d = BUTTON_8 ∨ d = BUTTON_9 ∨ d = BUTTON_0) :
    s.buttonPressed d = some (s.pressDigit d) := by
  rcases hd with h | h | h | h | h | h | h | h | h | h <;> subst h <;> rfl

/-- C18: a digit button sets the display text to its label when the display
is numerically zero and the last action is Operator, Equals, Init, Other or
Digit; to "0." followed by the label when it is zero and the last action is
Decimal; to the label when it is non-zero and the last action is Operator or
Equals; otherwise appends the label to a text shorter than 20 characters and
leaves a longer text unchanged.  The last action becomes Digit, and operand,
operator and memory are unchanged. -/
theorem digit_press_behaviour (s : Control) (d : Int)
    (hd : d = BUTTON_1 ∨ d = BUTTON_2 ∨ d = BUTTON_3 ∨ d = BUTTON_4 ∨ d = BUTTON_5 ∨
      d = BUTTON_6 ∨ d = BUTTON_7 ∨ d = BUTTON_8 ∨ d = BUTTON_9 ∨ d = BUTTON_0) :
    ∃ s1, s.buttonPressed d = some s1 ∧
      s1.lastClicked = TYPE_NUM ∧ s1.operand1 = s.operand1 ∧
      s1.lastOperator = s.lastOperator ∧ s1.memoryText = s.memoryText ∧
      ((toDouble s.lcdText).isZero = true →
        (s.lastClicked = TYPE_OP ∨ s.lastClicked = TYPE_EQ ∨ s.lastClicked = TYPE_INIT ∨
          s.lastClicked = TYPE_OTHER ∨ s.lastClicked = TYPE_NUM) →
        s1.lcdText = buttonLabel d) ∧
      ((toDouble s.lcdText).isZero = true → s.lastClicked = TYPE_DOT →
        s1.lcdText = "0.".toList ++ buttonLabel d) ∧
      ((toDouble s.lcdText).isZero = false →
        (s.lastClicked = TYPE_OP ∨ s.lastClicked = TYPE_EQ) →
        s1.lcdText = buttonLabel d) ∧
      ((toDouble s.lcdText).isZero = false →
        ¬ (s.lastClicked = TYPE_OP ∨ s.lastClicked = TYPE_EQ) →
        s.lcdText.length < 20 → s1.lcdText = s.lcdText ++ buttonLabel d) ∧
      ((toDouble s.lcdText).isZero = false →
        ¬ (s.lastClicked = TYPE_OP ∨ s.lastClicked = TYPE_EQ) →
        ¬ s.lcdText.length < 20 → s1.lcdText = s.lcdText) := by
  refine ⟨s.pressDigit d, buttonPressed_digit s hd, rfl, ?_, ?_, ?_, ?_, ?_, ?_, ?_, ?_⟩
  · unfold Control.pressDigit
    dsimp only
    split_ifs <;> rfl
  · unfold Control.pressDigit
    dsimp only
    split_ifs <;> rfl
  · exact pressDigit_memoryText s d
  · intro hz hlc
    unfold Control.pressDigit
    dsimp only
    rw [if_pos hz, if_pos hlc]
    rfl
  · intro hz hlc
    unfold Control.pressDigit
    dsimp only
    rw [if_pos hz, if_neg (by rw [hlc]; decide), if_pos hlc]
    rfl
  · intro hz hlc
    unfold Control.pressDigit
    dsimp only
    rw [if_neg (by rw [hz]; decide), if_pos hlc]
    rfl
  · intro hz hlc hlen
    unfold Control.pressDigit
    dsimp only
    rw [if_neg (by rw [hz]; decide), if_neg hlc, if_pos (show s.lcdText.length < LCD_LENGTH from hlen)]
    rfl
  · intro hz hlc hlen
    unfold Control.pressDigit
    dsimp only
    rw [if_neg (by rw [hz]; decide), if_neg hlc,
      if_neg (show ¬ s.lcdText.length < LCD_LENGTH from hlen)]
    rfl

/-- Witness of C18: the digit 5 on the constructor state, and a second 5. -/
theorem digit_press_behaviour_witness :
    (init.buttonPressed BUTTON_5).map (fun s => s.lcdText) = some "5".toList ∧
    ((init.pressDigit BUTTON_5).buttonPressed BUTTON_5).map (fun s => s.lcdText) =
      some "55".toList := by
  constructor
  · obtain ⟨s1, h1, _, _, _, _, h2, _⟩ := digit_press_behaviour init BUTTON_5 (by decide)
    rw [h1, Option.map_some', h2 (by decide!) (by decide)]
    rfl
  · obtain ⟨s1, h1, _, _, _, _, _, _, _, h2, _⟩ :=
      digit_press_behaviour (init.pressDigit BUTTON_5) BUTTON_5 (by decide)
    rw [h1, Option.map_some', h2 (by decide!) (by decide!) (by decide!)]
    decide!

/-- With a numerically non-zero second operand `calculate` does not touch
the state. -/
theorem calculate_same_state {s s1 : Control} {a b r : QString} {op : Int}
    (h : s.calculate a b op = some (s1, r)) (hb : (toDouble b).isZero = false) : s1 = s := by
  unfold Control.calculate at h
  dsimp only at h
  split_ifs at h with h1 h2 h3 h4 h5 h6 h7
  all_goals first
    | (simp only [Option.some.injEq, Prod.mk.injEq] at h; exact h.1.symm)
    | (split at h <;> simp at h; exact h.1.symm)
    | (rw [hb] at h7; exact absurd h7 (by decide))

theorem buttonPressed_binary (s : Control) {b : Int}
    (hb : b = BUTTON_PLUS ∨ b = BUTTON_NEG ∨ b = BUTTON_MUL ∨ b = BUTTON_DIV) :
    s.buttonPressed b = s.pressBinary b := by
  rcases hb with h | h | h | h <;> subst h <;> rfl

/-- C19: for a binary operator button `b`, with `newOpOf b` its operator:
if the display is numerically zero or the last action is Operator, only the
pending operator and the last action change; otherwise, if the pending
operand is numerically zero, the last action is Equals or no operator is
pending, the display text becomes the pending operand and the display is
unchanged, else both become the text returned by `calculate` on the pending
operand, the display and the pending operator, which is sent to the LCD; in
both cases the pending operator becomes that of `b`, the last action
Operator and the decimal flag false. -/
theorem binary_operator_behaviour (s : Control) (b : Int)
    (hb : b = BUTTON_PLUS ∨ b = BUTTON_NEG ∨ b = BUTTON_MUL ∨ b = BUTTON_DIV) :
    (b = BUTTON_PLUS → Control.newOpOf b = OPERATOR_PLUS) ∧
    (b = BUTTON_NEG → Control.newOpOf b = OPERATOR_MINUS) ∧
    (b = BUTTON_MUL → Control.newOpOf b = OPERATOR_MUL) ∧
    (b = BUTTON_DIV → Control.newOpOf b = OPERATOR_DIV) ∧
    ((toDouble s.lcdText).isZero = true ∨ s.lastClicked = TYPE_OP →
      s.buttonPressed b =
        some { s with lastOperator := Control.newOpOf b, lastClicked := TYPE_OP }) ∧
    (¬ ((toDouble s.lcdText).isZero = true ∨ s.lastClicked = TYPE_OP) →
      ((toDouble s.operand1).isZero = true ∨ s.lastClicked = TYPE_EQ ∨
        s.lastOperator = OPERATOR_NONE) →
      s.buttonPressed b =
        some { s with operand1 := s.lcdText, lastOperator := Control.newOpOf b,
                      lastClicked := TYPE_OP, isDecimalEnabled := false }) ∧
    (¬ ((toDouble s.lcdText).isZero = true ∨ s.lastClicked = TYPE_OP) →
      ¬ ((toDouble s.operand1).isZero = true ∨ s.lastClicked = TYPE_EQ ∨
        s.lastOperator = OPERATOR_NONE) →
      s.buttonPressed b =
        (s.calculate s.operand1 s.lcdText s.lastOperator).map (fun p =>
          { s with operand1 := p.2, lcdText := p.2, lastOperator := Control.newOpOf b,
                   lastClicked := TYPE_OP, isDecimalEnabled := false,
                   isNegativeEnabled := decide ('-' ∈ p.2),
                   numLCDDigits := p.2.length,
                   emitted := s.emitted ++ [Signal.setLCD p.2] })) := by
  refine ⟨?_, ?_, ?_, ?_, ?_, ?_, ?_⟩
  · intro h; subst h; rfl
  · intro h; subst h; rfl
  · intro h; subst h; rfl
  · intro h; subst h; rfl
  · intro h
    rw [buttonPressed_binary s hb]
    unfold Control.pressBinary
    dsimp only
    rw [if_pos h]
    rfl
  · intro h1 h2
    rw [buttonPressed_binary s hb]
    unfold Control.pressBinary
    dsimp only
    rw [if_neg h1, if_pos h2]
    rfl
  · intro h1 h2
    rw [buttonPressed_binary s hb]
    unfold Control.pressBinary
    dsimp only
    rw [if_neg h1, if_neg h2]
    have hnz : (toDouble s.lcdText).isZero = false := by
      cases hz : (toDouble s.lcdText).isZero
      · rfl
      · exact absurd (Or.inl hz) h1
    cases hc : s.calculate s.operand1 s.lcdText s.lastOperator with
    | none => rfl
    | some p =>
      obtain ⟨s1, r⟩ := p
      have hs := calculate_same_state hc hnz
      subst hs
      rfl

/-- Witness of C19: on the display "5" the button + captures the operand, and
with operand "5", operator + and display "3" it evaluates to "8". -/
theorem binary_operator_behaviour_witness :
    (((init.pressDigit BUTTON_5).buttonPressed BUTTON_PLUS).map
      (fun s => (s.operand1, s.lcdText, s.lastOperator))) =
      some ("5".toList, "5".toList, OPERATOR_PLUS) ∧
    (({ init with lcdText := "3".toList, operand1 := "5".toList,
                  lastOperator := OPERATOR_PLUS, lastClicked := TYPE_NUM } :
        Control).buttonPressed BUTTON_PLUS).map
      (fun s => (s.operand1, s.lcdText, s.lastOperator, s.emitted)) =
      some ("8".toList, "8".toList, OPERATOR_PLUS, [Signal.setLCD "8".toList]) := by
  constructor
  · rw [(binary_operator_behaviour (init.pressDigit BUTTON_5) BUTTON_PLUS
      (by decide)).2.2.2.2.2.1 (by decide!) (by decide!)]
    decide!
  · rw [(binary_operator_behaviour _ BUTTON_PLUS (by decide)).2.2.2.2.2.2
      (by decide!) (by decide!)]
    decide!

theorem buttonPressed_EQ (s : Control) : s.buttonPressed BUTTON_EQ = s.pressEq := rfl

/-- C20 as stated fails: after the presses -, 7, = from the constructor state
the pending operand is still "0", Equals makes no call of `calculate`, and
the display stays "7", while `calculate` on "0", "7" and Subtract returns
"-7". -/
theorem equals_zero_operand_counterexample :
    (init.run [BUTTON_NEG, BUTTON_7]).map
        (fun s => (s.lcdText, s.operand1, s.lastOperator, s.lastClicked)) =
      some ("7".toList, "0".toList, OPERATOR_MINUS, TYPE_NUM) ∧
    (init.run [BUTTON_NEG, BUTTON_7, BUTTON_EQ]).map (fun s => s.lcdText) =
      some "7".toList ∧
    (init.calculate "0".toList "7".toList OPERATOR_MINUS).map (fun p => p.2) =
      some "-7".toList := by
  decide!

/-- C20 (amended): with a numerically non-zero display and a last action
that is neither Operator nor Equals, Equals calls `calculate` on the pending
operand, the display and the pending operator only when the pending operand
is numerically non-zero; the display is replaced by the returned text `r`
(which is sent to the LCD, the pending operator becoming none) exactly when
`r` is numerically non-zero.  With a numerically zero pending operand nothing
is computed and the display is unchanged.  In every case the last action
becomes Equals and the decimal flag false. -/
theorem equals_behaviour (s : Control)
    (hnz : (toDouble s.lcdText).isZero = false)
    (hlc : s.lastClicked ≠ TYPE_OP ∧ s.lastClicked ≠ TYPE_EQ) :
    ((toDouble s.operand1).isZero = true →
      s.buttonPressed BUTTON_EQ =
        some { s with lastClicked := TYPE_EQ, isDecimalEnabled := false }) ∧
    ((toDouble s.operand1).isZero = false →
      s.buttonPressed BUTTON_EQ =
        (s.calculate s.operand1 s.lcdText s.lastOperator).map (fun p =>
          if (toDouble p.2).isZero = true then
            { s with lastClicked := TYPE_EQ, isDecimalEnabled := false }
          else
            { s with lcdText := p.2, lastOperator := OPERATOR_NONE,
                     lastClicked := TYPE_EQ, isDecimalEnabled := false,
                     isNegativeEnabled := decide ('-' ∈ p.2),
                     numLCDDigits := p.2.length,
                     emitted := s.emitted ++ [Signal.setLCD p.2] })) := by
  have hg : ¬ ((toDouble s.lcdText).isZero = true ∨ s.lastClicked = TYPE_OP ∨
      s.lastClicked = TYPE_EQ) := by
    rw [hnz]
    rintro (h | h | h)
    · exact absurd h (by decide)
    · exact hlc.1 h
    · exact hlc.2 h
  constructor
  · intro hz
    rw [buttonPressed_EQ]
    unfold Control.pressEq
    dsimp only
    rw [if_neg hg, if_neg (by rw [hz]; decide)]
    unfold Control.finishEq
    dsimp only
    rw [if_neg (by rw [hz]; decide)]
    rfl
  · intro hz
    rw [buttonPressed_EQ]
    unfold Control.pressEq
    dsimp only
    rw [if_neg hg, if_pos (by rw [hz]; decide)]
    cases hc : s.calculate s.operand1 s.lcdText s.lastOperator with
    | none => rfl
    | some p =>
      obtain ⟨s1, r⟩ := p
      have hs := calculate_same_state hc hnz
      subst hs
      simp only [Option.map_some']
      unfold Control.finishEq
      dsimp only
      by_cases hr : (toDouble r).isZero = true
      · rw [if_neg (by rw [hr]; decide), if_pos hr]
        rfl
      · rw [if_pos hr, if_neg hr]
        rfl

/-- Witness of C20 (amended): with display "7", operand "0" and operator
Subtract the display stays "7"; with operand "8", operator Add and display
"2" it becomes "10". -/
theorem equals_behaviour_witness :
    (({ init with lcdText := "7".toList, lastOperator := OPERATOR_MINUS,
                  lastClicked := TYPE_NUM } : Control).buttonPressed BUTTON_EQ).map
      (fun s => (s.lcdText, s.lastClicked)) = some ("7".toList, TYPE_EQ) ∧
    (({ init with lcdText := "2".toList, operand1 := "8".toList,
                  lastOperator := OPERATOR_PLUS, lastClicked := TYPE_NUM } :
        Control).buttonPressed BUTTON_EQ).map
      (fun s => (s.lcdText, s.lastClicked, s.emitted)) =
      some ("10".toList, TYPE_EQ, [Signal.setLCD "10".toList]) := by
  constructor
  · rw [(equals_behaviour _ (by decide!) (by decide!)).1 (by decide!)]
    decide!
  · rw [(equals_behaviour _ (by decide!) (by decide!)).2 (by decide!)]
    decide!

/-! ### Digit strings are read as their value -/

theorem roundDbl_int_ne_zero (neg : Bool) {n : Nat} (h1 : 1 ≤ n) (h2 : n < 2 ^ 1023) :
    ∃ m e, roundDbl neg n 1 = Dbl.fin neg m e ∧ m ≠ 0 := by
  have hn0 : n ≠ 0 := by omega
  have hb1 : bitLen 1 = 1 := by decide
  have hbn := bitLen_le_of_lt h2
  have hbp := bitLen_pos hn0
  have hble := bitLen_le hn0
  unfold roundDbl
  rw [if_neg (by omega)]
  dsimp only
  rw [hb1]
  generalize hfl : (if (shiftFrac n 1 ((bitLen n : Int) - ((1 : Nat) : Int))).2 ≤
      (shiftFrac n 1 ((bitLen n : Int) - ((1 : Nat) : Int))).1
      then (bitLen n : Int) - ((1 : Nat) : Int)
      else (bitLen n : Int) - ((1 : Nat) : Int) - 1) = fl
  have hfl_le : fl ≤ (bitLen n : Int) - 1 := by
    rw [← hfl]
    split_ifs <;> simp
  generalize he0 : max (fl - 52) (-1074) = e0
  have hm1 : e0 ≤ max ((bitLen n : Int) - 53) (-1074) := by
    rw [← he0]
    apply max_le_max _ le_rfl
    omega
  have he970 : e0 ≤ 970 := by
    apply le_trans hm1
    apply max_le <;> omega
  have he0c : e0 = fl - 52 ∨ e0 = -1074 := by
    rw [← he0]
    rcases max_choice (fl - 52) (-1074) with h | h <;> simp [h]
  have hs : (shiftFrac n 1 e0).2 ≤ (shiftFrac n 1 e0).1 := by
    rw [shiftFrac_eq]
    dsimp only
    rw [one_mul]
    by_cases hpos : 0 < e0
    · have hz : (-e0).toNat = 0 := by omega
      rw [hz, pow_zero, mul_one]
      have : e0.toNat ≤ bitLen n - 1 := by omega
      exact le_trans (Nat.pow_le_pow_right (by norm_num) this) hble
    · have hz : e0.toNat = 0 := by omega
      rw [hz, pow_zero]
      exact Nat.one_le_iff_ne_zero.mpr (by positivity)
  have hs2 : 0 < (shiftFrac n 1 e0).2 := by
    rw [shiftFrac_eq]
    dsimp only
    positivity
  generalize hq : roundNearestEven (shiftFrac n 1 e0).1 (shiftFrac n 1 e0).2 = q
  have hq1 : 1 ≤ q := by
    have := roundNearestEven_ge (shiftFrac n 1 e0).1 (shiftFrac n 1 e0).2
    rw [hq] at this
    have h3 : 1 ≤ (shiftFrac n 1 e0).1 / (shiftFrac n 1 e0).2 :=
      (Nat.one_le_div_iff hs2).mpr hs
    omega
  by_cases hq53 : q = 2 ^ 53
  · simp only [hq53, if_true]
    rw [if_neg (by norm_num), if_neg (by omega)]
    exact ⟨_, _, rfl, by norm_num⟩
  · simp only [hq53, if_false]
    rw [if_neg (by omega), if_neg (by omega)]
    exact ⟨_, _, rfl, by omega⟩

theorem isDigit_not_space {c : Char} (h : isDigit c = true) : isSpace c = false := by
  unfold isDigit at h
  unfold isSpace
  simp only [Bool.and_eq_true, decide_eq_true_eq] at h
  simp only [Bool.or_eq_false_iff, decide_eq_false_iff_not, Bool.and_eq_false_iff]
  constructor
  · intro hc
    subst hc
    revert h
    decide
  · omega

theorem isDigit_lower {c : Char} (h : isDigit c = true) : lowerAscii c = c := by
  unfold isDigit at h
  unfold lowerAscii
  simp only [Bool.and_eq_true, decide_eq_true_eq] at h
  rw [if_neg (by omega)]

theorem rdropWhile_of_all_false {p : Char → Bool} :
    ∀ {t : List Char}, (∀ c ∈ t, p c = false) → t.rdropWhile p = t := by
  intro t h
  unfold List.rdropWhile
  cases hr : t.reverse with
  | nil =>
    have : t = [] := by simpa using hr
    subst this
    rfl
  | cons x xs =>
    have hx : x ∈ t := by
      have : x ∈ t.reverse := by rw [hr]; exact List.mem_cons_self _ _
      simpa using this
    simp only [List.dropWhile, h x hx]
    rw [← hr, List.reverse_reverse]

theorem dropWhile_of_all_false {p : Char → Bool} :
    ∀ {t : List Char}, (∀ c ∈ t, p c = false) → t.dropWhile p = t := by
  intro t h
  cases t with
  | nil => rfl
  | cons x xs => simp only [List.dropWhile, h x (List.mem_cons_self _ _)]

theorem span_isDigit_all {t : List Char} (h : ∀ c ∈ t, isDigit c = true) :
    t.span isDigit = (t, []) := by
  rw [List.span_eq_take_drop]
  have h1 : t.takeWhile isDigit = t := List.takeWhile_eq_self_iff.mpr h
  have h2 : t.dropWhile isDigit = [] := List.dropWhile_eq_nil_iff.mpr h
  rw [h1, h2]

theorem takeSign_digit {c : Char} (r : List Char) (h : isDigit c = true) :
    takeSign (c :: r) = (false, c :: r) := by
  unfold takeSign
  split
  · rename_i heq
    simp only [List.cons.injEq] at heq
    rw [heq.1] at h
    exact absurd h (by decide)
  · rename_i heq
    simp only [List.cons.injEq] at heq
    rw [heq.1] at h
    exact absurd h (by decide)
  · rfl

theorem digitsToNat_foldl_bounds : ∀ (r : List Char) (a : Nat),
    (∀ c ∈ r, isDigit c = true) →
    a * 10 ^ r.length ≤ r.foldl (fun a c => 10 * a + (c.toNat - 48)) a ∧
    r.foldl (fun a c => 10 * a + (c.toNat - 48)) a < (a + 1) * 10 ^ r.length := by
  intro r
  induction r with
  | nil => intro a _; simp
  | cons x xs ih =>
    intro a h
    have hx : isDigit x = true := h x (List.mem_cons_self _ _)
    unfold isDigit at hx
    simp only [Bool.and_eq_true, decide_eq_true_eq] at hx
    obtain ⟨h1, h2⟩ := ih (10 * a + (x.toNat - 48)) (fun c hc => h c (List.mem_cons_of_mem _ hc))
    simp only [List.foldl_cons, List.length_cons, pow_succ]
    constructor
    · calc a * (10 ^ xs.length * 10) = (10 * a) * 10 ^ xs.length := by ring
        _ ≤ (10 * a + (x.toNat - 48)) * 10 ^ xs.length :=
            Nat.mul_le_mul_right _ (by omega)
        _ ≤ _ := h1
    · calc _ < (10 * a + (x.toNat - 48) + 1) * 10 ^ xs.length := h2
        _ ≤ (10 * (a + 1)) * 10 ^ xs.length := Nat.mul_le_mul_right _ (by omega)
        _ = (a + 1) * (10 ^ xs.length * 10) := by ring

/-- The value of a digit string that does not start with 0 and has at most 20
digits is at least 1 and below `2^1023`. -/
theorem digitsToNat_bounds {c : Char} {r : List Char} (hc : isDigit c = true)
    (hc0 : c ≠ '0') (hr : ∀ x ∈ r, isDigit x = true) (hlen : (c :: r).length ≤ 20) :
    1 ≤ digitsToNat (c :: r) ∧ digitsToNat (c :: r) < 2 ^ 1023 := by
  unfold digitsToNat
  simp only [List.foldl_cons, Nat.mul_zero, Nat.zero_add]
  have hd : 1 ≤ c.toNat - 48 ∧ c.toNat - 48 ≤ 9 := by
    unfold isDigit at hc
    simp only [Bool.and_eq_true, decide_eq_true_eq] at hc
    have hne : c.toNat ≠ 48 := by
      intro h
      apply hc0
      have : c = Char.ofNat c.toNat := by simp
      rw [this, h]
    omega
  obtain ⟨h1, h2⟩ := digitsToNat_foldl_bounds r (c.toNat - 48) hr
  simp only [List.length_cons] at hlen
  constructor
  · have : 1 * 1 ≤ (c.toNat - 48) * 10 ^ r.length :=
      Nat.mul_le_mul hd.1 (Nat.one_le_pow _ _ (by norm_num))
    omega
  · have h3 : (c.toNat - 48 + 1) * 10 ^ r.length ≤ 10 * 10 ^ 19 :=
      Nat.mul_le_mul (by omega) (Nat.pow_le_pow_right (by norm_num) (by omega))
    have h4 : 10 * 10 ^ 19 < 2 ^ 1023 := by norm_num
    omega

/-- A string of at most 20 digits that does not start with 0 is numerically
non-zero. -/
theorem toDouble_digits_ne_zero {c : Char} {r : List Char} (hc : isDigit c = true)
    (hc0 : c ≠ '0') (hr : ∀ x ∈ r, isDigit x = true) (hlen : (c :: r).length ≤ 20) :
    (toDouble (c :: r)).isZero = false := by
  have hall : ∀ x ∈ c :: r, isDigit x = true := by
    intro x hx
    rcases List.mem_cons.mp hx with h | h
    · rw [h]; exact hc
    · exact hr x h
  have hsp : ∀ x ∈ c :: r, isSpace x = false := fun x hx => isDigit_not_space (hall x hx)
  have hu : (((c :: r).dropWhile isSpace).rdropWhile isSpace).map lowerAscii = c :: r := by
    rw [dropWhile_of_all_false hsp, rdropWhile_of_all_false hsp]
    calc (c :: r).map lowerAscii = (c :: r).map id :=
          List.map_congr_left (fun x hx => isDigit_lower (hall x hx))
      _ = c :: r := List.map_id _
  have hp : parseDecimal (c :: r) = some (false, digitsToNat (c :: r), 0) := by
    unfold parseDecimal
    dsimp only
    rw [takeSign_digit r hc]
    dsimp only
    rw [span_isDigit_all hall]
    simp [takeFraction, takeExponent]
  obtain ⟨hb1, hb2⟩ := digitsToNat_bounds hc hc0 hr hlen
  obtain ⟨m, e, hrd, hm⟩ := roundDbl_int_ne_zero false hb1 hb2
  unfold toDouble
  dsimp only
  rw [hu]
  have hnan : ¬ (c :: r) = "nan".toList := by
    intro h
    have : c = 'n' := (List.cons.inj h).1
    rw [this] at hc
    exact absurd hc (by decide)
  have hinf : ¬ ((c :: r) = "inf".toList ∨ (c :: r) = "+inf".toList) := by
    rintro (h | h)
    · have : c = 'i' := (List.cons.inj h).1
      rw [this] at hc
      exact absurd hc (by decide)
    · have : c = '+' := (List.cons.inj h).1
      rw [this] at hc
      exact absurd hc (by decide)
  have hminf : ¬ (c :: r) = "-inf".toList := by
    intro h
    have : c = '-' := (List.cons.inj h).1
    rw [this] at hc
    exact absurd hc (by decide)
  rw [if_neg hnan, if_neg hinf, if_neg hminf, hp]
  dsimp only
  have hsc : scale10 (digitsToNat (c :: r)) 1 0 = (digitsToNat (c :: r), 1) := by
    simp [scale10]
  rw [hsc]
  dsimp only
  rw [hrd]
  simp [Dbl.isZero, hm]

/-! ### Typing digits -/

/-- The label of a digit button is one digit. -/
theorem digit_label {b : Int} (hb : b ∈ digitButtons) :
    ∃ c, buttonLabel b = [c] ∧ isDigit c = true := by
  simp only [digitButtons, List.mem_cons, List.mem_singleton, List.not_mem_nil,
    or_false] at hb
  rcases hb with h | h | h | h | h | h | h | h | h | h <;> subst h <;>
    exact ⟨_, rfl, by decide⟩

theorem buttonPressed_of_digit (s : Control) {b : Int} (hb : b ∈ digitButtons) :
    s.buttonPressed b = some (s.pressDigit b) := by
  simp only [digitButtons, List.mem_cons, List.mem_singleton, List.not_mem_nil,
    or_false] at hb
  rcases hb with h | h | h | h | h | h | h | h | h | h <;> subst h <;> rfl

theorem dropLeadingZeros_cons_ne {c : Char} (r : List Char) (hc : c ≠ '0') :
    dropLeadingZeros (c :: r) = c :: r := by
  unfold dropLeadingZeros
  split
  · rename_i heq
    exact absurd (List.cons.inj heq).1 hc
  · rfl

theorem dropLeadingZeros_zero_cons (c : Char) (r : List Char) :
    dropLeadingZeros ('0' :: c :: r) = dropLeadingZeros (c :: r) := by
  rw [dropLeadingZeros]

/-- Typing digits: from a display text `t` that is "0" or a digit text not
starting with 0, with last action Digit or Init, the digit presses `bs` that
fit in 20 characters give `t` followed by their labels, leading zeros
dropped. -/
theorem run_digits : ∀ (bs : List Int) (s : Control),
    (∀ b ∈ bs, b ∈ digitButtons) →
    (s.lastClicked = TYPE_NUM ∨ s.lastClicked = TYPE_INIT) →
    (s.lcdText = "0".toList ∨ ∃ c r, s.lcdText = c :: r ∧ isDigit c = true ∧ c ≠ '0' ∧
      ∀ x ∈ r, isDigit x = true) →
    s.lcdText.length + bs.length ≤ 20 →
    (s.run bs).map (fun s1 => s1.lcdText) =
      some (dropLeadingZeros (s.lcdText ++ labelsOf bs)) := by
  intro bs
  induction bs with
  | nil =>
    intro s _ _ hT _
    simp only [Control.run, Option.map_some', labelsOf, List.append_nil]
    rcases hT with h | ⟨c, r, h, _, hc0, _⟩
    · rw [h]; rfl
    · rw [h, dropLeadingZeros_cons_ne r hc0]
  | cons b bs ih =>
    intro s hbs hlc hT hlen
    have hb : b ∈ digitButtons := hbs b (List.mem_cons_self _ _)
    obtain ⟨d, hlab, hd⟩ := digit_label hb
    simp only [Control.run, buttonPressed_of_digit s hb, Option.some_bind, labelsOf, hlab]
    simp only [List.length_cons] at hlen
    have hlc' : (s.pressDigit b).lastClicked = TYPE_NUM ∨
        (s.pressDigit b).lastClicked = TYPE_INIT := Or.inl rfl
    have hbs' : ∀ x ∈ bs, x ∈ digitButtons := fun x hx => hbs x (List.mem_cons_of_mem _ hx)
    rcases hT with h | ⟨c, r, h, hc, hc0, hr⟩
    · -- the display is "0": the digit replaces it
      have hz : (toDouble s.lcdText).isZero = true := by rw [h]; exact toDouble_zero_text
      have htext : (s.pressDigit b).lcdText = [d] := by
        unfold Control.pressDigit
        dsimp only
        rw [if_pos hz, if_pos (by
          rcases hlc with h1 | h1
          · exact Or.inr (Or.inr (Or.inr (Or.inr h1)))
          · exact Or.inr (Or.inr (Or.inl h1))), hlab]
        rfl
      have hcan : (s.pressDigit b).lcdText = "0".toList ∨
          ∃ c r, (s.pressDigit b).lcdText = c :: r ∧ isDigit c = true ∧ c ≠ '0' ∧
            ∀ x ∈ r, isDigit x = true := by
        by_cases hd0 : d = '0'
        · left; rw [htext, hd0]; rfl
        · right; exact ⟨d, [], htext, hd, hd0, by simp⟩
      have := ih (s.pressDigit b) hbs' hlc' hcan (by rw [htext]; simp; omega)
      rw [this, htext, h]
      show some (dropLeadingZeros (d :: labelsOf bs)) =
        some (dropLeadingZeros ('0' :: d :: labelsOf bs))
      rw [dropLeadingZeros_zero_cons]
    · -- the display is a number: the digit is appended
      have hlen20 : (c :: r).length ≤ 20 := by rw [← h]; omega
      have hz : (toDouble s.lcdText).isZero = false := by
        rw [h]; exact toDouble_digits_ne_zero hc hc0 hr hlen20
      have htext : (s.pressDigit b).lcdText = s.lcdText ++ [d] := by
        unfold Control.pressDigit
        dsimp only
        rw [if_neg (by rw [hz]; decide), if_neg (by
          rcases hlc with h1 | h1 <;> rw [h1] <;> decide),
          if_pos (show s.lcdText.length < LCD_LENGTH by unfold LCD_LENGTH; omega), hlab]
        rfl
      have hcan : (s.pressDigit b).lcdText = "0".toList ∨
          ∃ c r, (s.pressDigit b).lcdText = c :: r ∧ isDigit c = true ∧ c ≠ '0' ∧
            ∀ x ∈ r, isDigit x = true := by
        right
        refine ⟨c, r ++ [d], by rw [htext, h]; rfl, hc, hc0, ?_⟩
        intro x hx
        rcases List.mem_append.mp hx with h1 | h1
        · exact hr x h1
        · rw [List.mem_singleton.mp h1]; exact hd
      have := ih (s.pressDigit b) hbs' hlc' hcan (by rw [htext]; simp; omega)
      rw [this, htext]
      simp

/-- C2 as stated fails: the presses 0, 5 show "5", not the concatenation
"05" of the labels. -/
theorem digits_concatenation_counterexample :
    (init.run [BUTTON_0, BUTTON_5]).map (fun s => s.lcdText) = some "5".toList ∧
    labelsOf [BUTTON_0, BUTTON_5] = "05".toList := by
  decide!

/-- C2 (amended): after at least one and at most 20 digit presses from the
constructor state, the display text is the concatenation of the pressed
labels with its leading zeros dropped (presses of 0 only show "0"). -/
theorem digits_display (bs : List Int) (hne : bs ≠ [])
    (hd : ∀ b ∈ bs, b ∈ digitButtons) (hlen : bs.length ≤ 20) :
    (init.run bs).map (fun s => s.lcdText) = some (dropLeadingZeros (labelsOf bs)) := by
  cases bs with
  | nil => exact absurd rfl hne
  | cons b bs =>
    have hb : b ∈ digitButtons := hd b (List.mem_cons_self _ _)
    obtain ⟨d, hlab, hdig⟩ := digit_label hb
    simp only [List.length_cons] at hlen
    -- the first press replaces the initial "0"
    have htext : (init.pressDigit b).lcdText = [d] := by
      unfold Control.pressDigit
      dsimp only
      rw [if_pos (show (toDouble init.lcdText).isZero = true from toDouble_zero_text),
        if_pos (show init.lastClicked = TYPE_OP ∨ init.lastClicked = TYPE_EQ ∨
          init.lastClicked = TYPE_INIT ∨ init.lastClicked = TYPE_OTHER ∨
          init.lastClicked = TYPE_NUM from Or.inr (Or.inr (Or.inl rfl))), hlab]
      rfl
    have hcan : (init.pressDigit b).lcdText = "0".toList ∨
        ∃ c r, (init.pressDigit b).lcdText = c :: r ∧ isDigit c = true ∧ c ≠ '0' ∧
          ∀ x ∈ r, isDigit x = true := by
      by_cases hd0 : d = '0'
      · left; rw [htext, hd0]; rfl
      · right; exact ⟨d, [], htext, hdig, hd0, by simp⟩
    have h1 := run_digits bs (init.pressDigit b)
      (fun x hx => hd x (List.mem_cons_of_mem _ hx)) (Or.inl rfl) hcan
      (by rw [htext]; simp; omega)
    simp only [Control.run, buttonPressed_of_digit init hb, Option.some_bind]
    rw [h1, htext, labelsOf, hlab]

/-- Witness of C2 (amended): the presses 0, 0, 7, 0 show "70". -/
theorem digits_display_witness :
    [BUTTON_0, BUTTON_0, BUTTON_7, BUTTON_0] ≠ [] ∧
    (∀ b ∈ [BUTTON_0, BUTTON_0, BUTTON_7, BUTTON_0], b ∈ digitButtons) ∧
    dropLeadingZeros (labelsOf [BUTTON_0, BUTTON_0, BUTTON_7, BUTTON_0]) = "70".toList ∧
    (init.run [BUTTON_0, BUTTON_0, BUTTON_7, BUTTON_0]).map (fun s => s.lcdText) =
      some (dropLeadingZeros (labelsOf [BUTTON_0, BUTTON_0, BUTTON_7, BUTTON_0])) :=
  ⟨by decide, by decide, by decide!,
    digits_display [BUTTON_0, BUTTON_0, BUTTON_7, BUTTON_0] (by decide) (by decide)
      (by decide)⟩

/-! ### A numerically non-zero text holds at most one point -/

theorem lowerAscii_eq_dot (c : Char) : lowerAscii c = '.' ↔ c = '.' := by
  unfold lowerAscii
  split_ifs with h
  · constructor
    · intro h1
      exfalso
      generalize c.toNat = n at h h1
      obtain ⟨h2, h3⟩ := h
      interval_cases n <;> exact absurd h1 (by decide)
    · intro h1
      subst h1
      exact absurd h (by decide)
  · rfl

theorem count_dot_map_lower (l : List Char) :
    (l.map lowerAscii).count '.' = l.count '.' := by
  induction l with
  | nil => rfl
  | cons c r ih =>
    simp only [List.map_cons, List.count_cons, ih]
    by_cases hc : c = '.'
    · subst hc
      rfl
    · have h2 : ¬ lowerAscii c = '.' := fun h => hc ((lowerAscii_eq_dot c).mp h)
      simp [hc, h2]

theorem count_dot_dropWhile {p : Char → Bool} (hp : p '.' = false) (l : List Char) :
    (l.dropWhile p).count '.' = l.count '.' := by
  induction l with
  | nil => rfl
  | cons c r ih =>
    simp only [List.dropWhile]
    cases hc : p c
    · rfl
    · simp only [ih, List.count_cons]
      have : c ≠ '.' := by
        intro h
        rw [h, hp] at hc
        exact absurd hc (by decide)
      simp [this]

theorem count_dot_rdropWhile {p : Char → Bool} (hp : p '.' = false) (l : List Char) :
    (l.rdropWhile p).count '.' = l.count '.' := by
  unfold List.rdropWhile
  rw [List.count_reverse, count_dot_dropWhile hp, List.count_reverse]

theorem count_dot_of_digits {l : List Char} (h : ∀ c ∈ l, isDigit c = true) :
    l.count '.' = 0 := by
  rw [List.count_eq_zero]
  intro hm
  exact absurd (h _ hm) (by decide)

theorem count_dot_span (l : List Char) :
    (l.span isDigit).2.count '.' = l.count '.' := by
  rw [List.span_eq_take_drop]
  exact count_dot_dropWhile (by decide) l

theorem count_dot_takeSign (l : List Char) : (takeSign l).2.count '.' = l.count '.' := by
  unfold takeSign
  split
  · simp [List.count_cons]
  · simp [List.count_cons]
  · rfl

theorem count_dot_takeFraction (l : List Char) :
    l.count '.' ≤ (takeFraction l).2.count '.' + 1 := by
  unfold takeFraction
  split
  · rw [count_dot_span]
    simp [List.count_cons]
  · exact Nat.le_succ _

theorem span_snd_nil {l : List Char} (h : (l.span isDigit).2.isEmpty = true) :
    ∀ c ∈ l, isDigit c = true := by
  rw [List.span_eq_take_drop] at h
  have : l.dropWhile isDigit = [] := by simpa using h
  exact List.dropWhile_eq_nil_iff.mp this

theorem count_dot_takeExponent {l : List Char} {x : Int} (h : takeExponent l = some x) :
    l.count '.' = 0 := by
  unfold takeExponent at h
  split at h
  · rfl
  · rename_i r
    dsimp only at h
    by_cases hc : ((takeSign r).2.span isDigit).1.isEmpty = true ∨
        ¬ ((takeSign r).2.span isDigit).2.isEmpty = true
    · rw [if_pos hc] at h
      exact absurd h (by simp)
    · have h2 : ((takeSign r).2.span isDigit).2.isEmpty = true := by
        by_contra hne
        exact hc (Or.inr hne)
      have h3 := count_dot_of_digits (span_snd_nil h2)
      rw [count_dot_takeSign] at h3
      simp [List.count_cons, h3]
  · exact absurd h (by simp)

theorem count_dot_parseDecimal {l : List Char} {v : Bool × Nat × Int}
    (h : parseDecimal l = some v) : l.count '.' ≤ 1 := by
  unfold parseDecimal at h
  dsimp only at h
  split_ifs at h
  split at h
  · exact absurd h (by simp)
  · rename_i x hx
    have h1 := count_dot_takeExponent hx
    have h2 := count_dot_takeFraction ((takeSign l).2.span isDigit).2
    rw [count_dot_span, count_dot_takeSign] at h2
    omega

/-- A text that is numerically non-zero holds at most one point. -/
theorem toDouble_ne_zero_dots {t : QString} (h : (toDouble t).isZero = false) :
    t.count '.' ≤ 1 := by
  have hcount : (((t.dropWhile isSpace).rdropWhile isSpace).map lowerAscii).count '.' =
      t.count '.' := by
    rw [count_dot_map_lower, count_dot_rdropWhile (by decide), count_dot_dropWhile (by decide)]
  unfold toDouble at h
  dsimp only at h
  generalize ((t.dropWhile isSpace).rdropWhile isSpace).map lowerAscii = u at h hcount
  rw [← hcount]
  split_ifs at h with h1 h2 h3
  · rw [h1]; decide
  · rcases h2 with h2 | h2 <;> rw [h2] <;> decide
  · rw [h3]; decide
  · split at h
    · exact absurd h (by decide)
    · rename_i hp
      exact count_dot_parseDecimal hp

theorem floorLog10_bounds {m : Nat} {e : Int} (hm0 : m ≠ 0) (hm : m < 2 ^ 53)
    (he1 : -1074 ≤ e) (he2 : e ≤ 971) :
    -324 ≤ floorLog10 (shiftFrac m 1 (-e)).1 (shiftFrac m 1 (-e)).2 ∧
      floorLog10 (shiftFrac m 1 (-e)).1 (shiftFrac m 1 (-e)).2 ≤ 308 := by
  rw [shiftFrac_eq]
  dsimp only
  rw [one_mul, neg_neg]
  unfold floorLog10
  split_ifs with h
  · have hk : m * 2 ^ e.toNat / 2 ^ (-e).toNat < 10 ^ (308 + 1) := by
      have h1 : m * 2 ^ e.toNat / 2 ^ (-e).toNat ≤ m * 2 ^ e.toNat := Nat.div_le_self _ _
      have h2 : m * 2 ^ e.toNat < 2 ^ 53 * 2 ^ 971 := by
        have h3 : 2 ^ e.toNat ≤ 2 ^ 971 := Nat.pow_le_pow_right (by norm_num) (by omega)
        calc m * 2 ^ e.toNat ≤ m * 2 ^ 971 := Nat.mul_le_mul_left _ h3
          _ < 2 ^ 53 * 2 ^ 971 := Nat.mul_lt_mul_of_pos_right hm (by positivity)
      have h4 : 2 ^ 53 * 2 ^ 971 < 10 ^ (308 + 1) := by norm_num
      omega
    have := log10Aux_le (m * 2 ^ e.toNat / 2 ^ (-e).toNat) _ 308 hk
    omega
  · have hd : 2 ^ (-e).toNat ≤ m * 2 ^ e.toNat * 10 ^ 324 := by
      have h1 : 2 ^ (-e).toNat ≤ 2 ^ 1074 := Nat.pow_le_pow_right (by norm_num) (by omega)
      have h2 : 2 ^ 1074 ≤ 10 ^ 324 := by norm_num
      have h3 : 1 ≤ m * 2 ^ e.toNat := Nat.one_le_iff_ne_zero.mpr (by positivity)
      calc 2 ^ (-e).toNat ≤ 1 * 10 ^ 324 := by omega
        _ ≤ m * 2 ^ e.toNat * 10 ^ 324 := Nat.mul_le_mul_right _ h3
    have := negExpAux_le (2 ^ (-e).toNat) (m * 2 ^ e.toNat) (2 ^ (-e).toNat) 324 hd
    omega

theorem sixDigits_stripped_length (r : Nat) :
    ((sixDigits r).rdropWhile (fun c => c == '0')).length ≤ 6 := by
  have h := (List.rdropWhile_prefix (fun c => c == '0') (sixDigits r)).length_le
  simpa [sixDigits] using h

/-- The text of a double has at most 13 characters. -/
theorem setNum_length {d : Dbl} (h : d.WF) : (setNum d).length ≤ 13 := by
  cases d with
  | nan => decide
  | inf s => cases s <;> decide
  | fin s m e =>
    obtain ⟨hm, he1, he2⟩ := h
    unfold setNum
    dsimp only
    have hsign : (if s = true then ['-'] else ([] : List Char)).length ≤ 1 := by
      split_ifs <;> simp
    by_cases hm0 : m = 0
    · rw [if_pos hm0]
      simp only [List.length_append, List.length_singleton]
      omega
    · rw [if_neg hm0]
      obtain ⟨hx1, hx2⟩ := floorLog10_bounds hm0 hm he1 he2
      generalize floorLog10 (shiftFrac m 1 (-e)).1 (shiftFrac m 1 (-e)).2 = x0 at hx1 hx2 ⊢
      generalize roundNearestEven (scale10 (shiftFrac m 1 (-e)).1 (shiftFrac m 1 (-e)).2 (5 - x0)).1
        (scale10 (shiftFrac m 1 (-e)).1 (shiftFrac m 1 (-e)).2 (5 - x0)).2 = r0
      generalize hx : (if r0 = 1000000 then x0 + 1 else x0) = x
      have hxb : -324 ≤ x ∧ x ≤ 309 := by
        rw [← hx]
        split_ifs <;> omega
      have hdl := sixDigits_stripped_length (if r0 = 1000000 then 100000 else r0)
      generalize (sixDigits (if r0 = 1000000 then 100000 else r0)).rdropWhile
        (fun c => c == '0') = digits at hdl ⊢
      simp only [List.length_append]
      have hbody : (if x + 1 ≠ (digits.length : Int) ∧ (x + 1 ≤ -4 ∨ 6 < x + 1)
          then exponentForm digits (x + 1) else decimalForm digits (x + 1)).length ≤ 12 := by
        split_ifs with hc
        · exact exponentForm_length hdl (by omega)
        · apply decimalForm_length hdl
          by_cases h1 : x + 1 = (digits.length : Int)
          · exact Or.inl h1
          · right
            by_contra h2
            apply hc
            exact ⟨h1, by omega⟩
      omega

/-! ### The length of the display text -/

theorem textOk_of_short {t : QString} (h : t.length ≤ 20) : TextOk t := by
  unfold TextOk textBound
  omega

theorem textOk_le (t : QString) (h : TextOk t) : t.length ≤ 23 := by
  unfold TextOk textBound at h
  have : (if '-' ∈ t then 1 else 0) ≤ 1 := by split_ifs <;> omega
  omega

theorem textBound_cons_le (c : Char) (t : QString) :
    textBound (c :: t) ≤ textBound t + 1 := by
  unfold textBound
  by_cases hd : c = '.'
  · subst hd
    have h1 : ¬ '-' = '.' := by decide
    simp only [List.count_cons_self, List.mem_cons, h1, false_or]
    omega
  · have h2 : (c :: t).count '.' = t.count '.' := by
      rw [List.count_cons]
      simp [hd]
    rw [h2]
    by_cases hm : '-' ∈ t
    · have : '-' ∈ c :: t := List.mem_cons_of_mem _ hm
      simp only [hm, this, if_true]
      omega
    · simp only [hm, if_false]
      split_ifs <;> omega

theorem textOk_tail {c : Char} {t : QString} (h : TextOk (c :: t)) : TextOk t := by
  unfold TextOk at h ⊢
  have := textBound_cons_le c t
  simp only [List.length_cons] at h
  omega

theorem textOk_drop_one {t : QString} (h : TextOk t) : TextOk (t.drop 1) := by
  cases t with
  | nil => exact h
  | cons c r => exact textOk_tail h

theorem textBound_reverse (t : QString) : textBound t.reverse = textBound t := by
  unfold textBound
  simp only [List.count_reverse, List.mem_reverse]

theorem textOk_reverse {t : QString} (h : TextOk t) : TextOk t.reverse := by
  unfold TextOk at h ⊢
  rw [textBound_reverse, List.length_reverse]
  exact h

theorem textOk_dropLast {t : QString} (h : TextOk t) : TextOk t.dropLast := by
  have h1 : t.dropLast = (t.reverse.drop 1).reverse := by
    rw [List.dropLast_eq_take, List.drop_reverse, List.reverse_reverse]
  rw [h1]
  exact textOk_reverse (textOk_drop_one (textOk_reverse h))

theorem textOk_cons_minus {t : QString} (h : t.length ≤ 20) : TextOk ('-' :: t) := by
  unfold TextOk textBound
  simp only [List.length_cons, List.mem_cons, true_or, if_true]
  omega

theorem textOk_append_dot {t : QString} (h : TextOk t) (hd : t.count '.' ≤ 1) :
    TextOk (t ++ ['.']) := by
  unfold TextOk textBound at h ⊢
  have h1 : (t ++ ['.']).count '.' = t.count '.' + 1 := by simp
  have h2 : ('-' ∈ t ++ ['.']) ↔ '-' ∈ t := by
    simp only [List.mem_append, List.mem_singleton]
    constructor
    · rintro (h | h)
      · exact h
      · exact absurd h (by decide)
    · exact Or.inl
  rw [h1]
  simp only [List.length_append, List.length_singleton, h2]
  omega

theorem calculate_result_ok {s s1 : Control} {a b r : QString} {op : Int}
    (h : s.calculate a b op = some (s1, r)) : TextOk r := by
  rcases calculate_result h with h1 | ⟨d, hd, h1⟩
  · rw [h1]; exact textOk_of_short (by decide)
  · rw [h1]
    have := setNum_length hd
    exact textOk_of_short (by omega)

theorem textOk_zero : TextOk "0".toList := textOk_of_short (by decide)

theorem mem_digitButtons {b : Int}
    (hb : b = BUTTON_1 ∨ b = BUTTON_2 ∨ b = BUTTON_3 ∨ b = BUTTON_4 ∨ b = BUTTON_5 ∨
      b = BUTTON_6 ∨ b = BUTTON_7 ∨ b = BUTTON_8 ∨ b = BUTTON_9 ∨ b = BUTTON_0) :
    b ∈ digitButtons := by
  rcases hb with h | h | h | h | h | h | h | h | h | h <;> subst h <;> decide

theorem pressDigit_inv {s : Control} {b : Int} (hb : b ∈ digitButtons) (h : LengthInv s) :
    LengthInv (s.pressDigit b) := by
  obtain ⟨d, hlab, _⟩ := digit_label hb
  unfold Control.pressDigit
  dsimp only
  rw [hlab]
  have hd1 : TextOk [d] := textOk_of_short (by simp)
  have hd3 : TextOk ['0', '.', d] := textOk_of_short (by simp)
  split_ifs with h1 h2 h3 h4 h5
  · exact ⟨hd1, h.2⟩
  · exact ⟨hd3, h.2⟩
  · exact ⟨h.1, h.2⟩
  · exact ⟨hd1, h.2⟩
  · have hd5 : TextOk (s.lcdText ++ [d]) := by
      apply textOk_of_short
      unfold LCD_LENGTH at h5
      simp only [List.length_append, List.length_singleton]
      omega
    exact ⟨hd5, h.2⟩
  · exact h

theorem showError_inv {s : Control} (h : LengthInv s) : LengthInv s.showError :=
  ⟨textOk_zero, h.2⟩

/-- After `calculate`, a state showing the returned text. -/
theorem calculate_show_inv {s s1 : Control} {a b r : QString} {op : Int}
    (hc : s.calculate a b op = some (s1, r)) (h : LengthInv s) (lc : Int) :
    LengthInv (((s1.setText r).updateLCD).setLastClicked lc) := by
  refine ⟨calculate_result_ok hc, ?_⟩
  have := calculate_memoryText hc
  show TextOk s1.memoryText
  rw [this]
  exact h.2

theorem calculate_inv {s s1 : Control} {a b r : QString} {op : Int}
    (hc : s.calculate a b op = some (s1, r)) (h : LengthInv s) : LengthInv s1 := by
  rcases calculate_state hc with h1 | h1 <;> rw [h1]
  · exact h
  · exact showError_inv h

theorem pressSq_inv {s s1 : Control} (h : LengthInv s) (hp : s.pressSq = some s1) :
    LengthInv s1 := by
  unfold Control.pressSq at hp
  dsimp only at hp
  split_ifs at hp
  · rw [← Option.some.inj hp]; exact h
  · split at hp
    · exact absurd hp (by simp)
    · rename_i hc
      rw [← Option.some.inj hp]
      exact calculate_show_inv hc h _

theorem pressSqrt_inv {s s1 : Control} (h : LengthInv s) (hp : s.pressSqrt = some s1) :
    LengthInv s1 := by
  unfold Control.pressSqrt at hp
  dsimp only at hp
  split_ifs at hp
  · rw [← Option.some.inj hp]; exact h
  · split at hp
    · exact absurd hp (by simp)
    · rename_i hc
      rw [← Option.some.inj hp]
      exact calculate_show_inv hc h _

theorem pressFact_inv {s s1 : Control} (h : LengthInv s) (hp : s.pressFact = some s1) :
    LengthInv s1 := by
  unfold Control.pressFact at hp
  dsimp only at hp
  split at hp
  · exact absurd hp (by simp)
  · rename_i hc
    rw [← Option.some.inj hp]
    exact calculate_show_inv hc h _

theorem pressInv_inv {s s1 : Control} (h : LengthInv s) (hp : s.pressInv = some s1) :
    LengthInv s1 := by
  unfold Control.pressInv at hp
  dsimp only at hp
  split_ifs at hp
  · rw [← Option.some.inj hp]; exact showError_inv h
  · split at hp
    · exact absurd hp (by simp)
    · rename_i hc
      rw [← Option.some.inj hp]
      exact calculate_show_inv hc h _

theorem pressCube_inv {s s1 : Control} (h : LengthInv s) (hp : s.pressCube = some s1) :
    LengthInv s1 := by
  unfold Control.pressCube at hp
  dsimp only at hp
  split_ifs at hp
  · rw [← Option.some.inj hp]; exact h
  · split at hp
    · exact absurd hp (by simp)
    · rename_i hc
      split at hp
      · exact absurd hp (by simp)
      · rename_i hc2
        rw [← Option.some.inj hp]
        exact calculate_show_inv hc2 (calculate_inv hc h) _

theorem pressSign_inv {s : Control} (h : LengthInv s) : LengthInv s.pressSign := by
  unfold Control.pressSign
  dsimp only
  split_ifs with h1 h2
  · exact ⟨textOk_cons_minus h2, h.2⟩
  · exact ⟨h.1, h.2⟩
  · exact ⟨textOk_drop_one h.1, h.2⟩

theorem pressDot_inv {s : Control} (h : LengthInv s) : LengthInv s.pressDot := by
  unfold Control.pressDot
  dsimp only
  split_ifs with h1 h2
  · have hd : TextOk "0.".toList := textOk_of_short (by decide)
    exact ⟨hd, h.2⟩
  · refine ⟨?_, h.2⟩
    have hz : (toDouble s.lcdText).isZero = false := by
      cases hz : (toDouble s.lcdText).isZero
      · rfl
      · exact absurd (Or.inl hz) h2
    exact textOk_append_dot h.1 (toDouble_ne_zero_dots hz)
  · exact h

theorem pressBinary_inv {s s1 : Control} {b : Int} (h : LengthInv s)
    (hp : s.pressBinary b = some s1) : LengthInv s1 := by
  unfold Control.pressBinary at hp
  dsimp only at hp
  split_ifs at hp
  · rw [← Option.some.inj hp]; exact h
  · rw [← Option.some.inj hp]; exact h
  · split at hp
    · exact absurd hp (by simp)
    · rename_i hc
      rw [← Option.some.inj hp]
      refine ⟨calculate_result_ok hc, ?_⟩
      have := calculate_memoryText hc
      rename_i s2 r
      show TextOk s2.memoryText
      rw [this]
      exact h.2

theorem finishEq_inv {s : Control} {r : QString} (h : LengthInv s) (hr : TextOk r) :
    LengthInv (s.finishEq r) := by
  unfold Control.finishEq
  dsimp only
  split_ifs
  · exact h
  · exact ⟨hr, h.2⟩

theorem pressEq_inv {s s1 : Control} (h : LengthInv s) (hp : s.pressEq = some s1) :
    LengthInv s1 := by
  unfold Control.pressEq at hp
  dsimp only at hp
  split_ifs at hp
  · rw [← Option.some.inj hp]; exact h
  · rw [← Option.some.inj hp]
    unfold Control.finishEq
    dsimp only
    rw [if_neg (by simpa using ‹_›)]
    exact h
  · split at hp
    · exact absurd hp (by simp)
    · rename_i hc
      rw [← Option.some.inj hp]
      exact finishEq_inv (calculate_inv hc h) (calculate_result_ok hc)

theorem pressMC_inv {s : Control} (h : LengthInv s) : LengthInv s.pressMC :=
  ⟨h.1, textOk_zero⟩

theorem pressMR_inv {s : Control} (h : LengthInv s) : LengthInv s.pressMR := by
  unfold Control.pressMR
  dsimp only
  split_ifs
  · exact ⟨textOk_zero, h.2⟩
  · exact ⟨h.2, h.2⟩

theorem pressMS_inv {s : Control} (h : LengthInv s) : LengthInv s.pressMS := by
  unfold Control.pressMS
  dsimp only
  split_ifs
  · exact ⟨textOk_zero, textOk_zero⟩
  · exact ⟨textOk_zero, h.1⟩

theorem pressMP_inv {s s1 : Control} (h : LengthInv s) (hp : s.pressMP = some s1) :
    LengthInv s1 := by
  unfold Control.pressMP at hp
  dsimp only at hp
  split_ifs at hp
  · rw [← Option.some.inj hp]; exact h
  · rw [← Option.some.inj hp]; exact ⟨h.1, h.1⟩
  · split at hp
    · exact absurd hp (by simp)
    · rename_i hc
      rw [← Option.some.inj hp]
      exact ⟨(calculate_inv hc h).1, calculate_result_ok hc⟩

theorem pressBS_inv {s : Control} (h : LengthInv s) : LengthInv s.pressBS := by
  unfold Control.pressBS
  dsimp only
  split_ifs
  · exact ⟨textOk_dropLast h.1, h.2⟩
  · exact ⟨textOk_zero, h.2⟩
  · exact h

theorem pressCLR_inv {s : Control} (h : LengthInv s) : LengthInv s.pressCLR :=
  ⟨textOk_zero, h.2⟩

theorem pressBin_inv {s : Control} (h : LengthInv s) : LengthInv s.pressBin := by
  unfold Control.pressBin Control.setBinButtonStatus
  dsimp only
  split_ifs <;> exact h

theorem pressHex_inv {s : Control} (h : LengthInv s) : LengthInv s.pressHex := by
  unfold Control.pressHex Control.setHexButtonStatus
  dsimp only
  split_ifs <;> exact h

/-- Every button keeps display text and memory within their length bound. -/
theorem buttonPressed_inv {s s1 : Control} {b : Int} (h : LengthInv s)
    (hp : s.buttonPressed b = some s1) : LengthInv s1 := by
  rcases buttonPressed_cases s b with
    ⟨hb, he⟩ | ⟨hb, he⟩ | ⟨hb, he⟩ | ⟨hb, he⟩ | ⟨hb, he⟩ | ⟨hb, he⟩ | ⟨hb, he⟩ | ⟨hb, he⟩ |
    ⟨hb, he⟩ | ⟨hb, he⟩ | ⟨hb, he⟩ | ⟨hb, he⟩ | ⟨hb, he⟩ | ⟨hb, he⟩ | ⟨hb, he⟩ | ⟨hb, he⟩ |
    ⟨hb, he⟩ | ⟨hb, he⟩ | ⟨hb, he⟩
  all_goals rw [he] at hp
  · rw [← Option.some.inj hp]; exact h
  · rw [← Option.some.inj hp]; exact pressDigit_inv (mem_digitButtons hb) h
  · exact pressSq_inv h hp
  · exact pressSqrt_inv h hp
  · exact pressFact_inv h hp
  · exact pressInv_inv h hp
  · rw [← Option.some.inj hp]; exact pressSign_inv h
  · rw [← Option.some.inj hp]; exact pressDot_inv h
  · exact pressBinary_inv h hp
  · exact pressEq_inv h hp
  · rw [← Option.some.inj hp]; exact pressMC_inv h
  · rw [← Option.some.inj hp]; exact pressMR_inv h
  · rw [← Option.some.inj hp]; exact pressMS_inv h
  · exact pressMP_inv h hp
  · rw [← Option.some.inj hp]; exact pressBS_inv h
  · rw [← Option.some.inj hp]; exact pressCLR_inv h
  · exact pressCube_inv h hp
  · rw [← Option.some.inj hp]; exact pressBin_inv h
  · rw [← Option.some.inj hp]; exact pressHex_inv h

theorem run_inv : ∀ (bs : List Int) {s s1 : Control}, LengthInv s →
    s.run bs = some s1 → LengthInv s1 := by
  intro bs
  induction bs with
  | nil =>
    intro s s1 h hr
    simp only [Control.run, Option.some.injEq] at hr
    rw [← hr]
    exact h
  | cons b bs ih =>
    intro s s1 h hr
    simp only [Control.run] at hr
    cases hb : s.buttonPressed b with
    | none => rw [hb] at hr; exact absurd hr (by simp)
    | some s2 =>
      rw [hb] at hr
      exact ih (buttonPressed_inv h hb) hr

theorem init_inv : LengthInv init := ⟨textOk_zero, textOk_zero⟩

/-- C3 as stated fails: twenty presses of 1 and the sign toggle leave a
display text of 21 characters (the toggle prepends to a text of 20); with a
point, Equals and a second point after that the text has 23. -/
theorem display_length_counterexample :
    (init.run (List.replicate 20 BUTTON_1 ++ [BUTTON_SIGN])).map
        (fun s => (s.lcdText, s.lcdText.length)) =
      some ("-11111111111111111111".toList, 21) ∧
    (init.run (List.replicate 20 BUTTON_1 ++
        [BUTTON_SIGN, BUTTON_DOT, BUTTON_EQ, BUTTON_DOT])).map
        (fun s => (s.lcdText, s.lcdText.length)) =
      some ("-11111111111111111111..".toList, 23) := by
  decide!

/-- C3 (amended): in every state reachable from the constructor state the
display text has at most 20 characters besides one for a minus sign it holds
and one for each of its first two points, hence at most 23; the sign toggle
prepends the minus sign exactly when the flag is clear and the text before
the press has at most 20 characters, and digits are appended only to a text
shorter than 20. -/
theorem display_length_bound (s : Control) (h : Reachable s) :
    s.lcdText.length ≤
        20 + min (s.lcdText.count '.') 2 + (if '-' ∈ s.lcdText then 1 else 0) ∧
      s.lcdText.length ≤ 23 ∧
      (s.isNegativeEnabled = false → s.lcdText.length ≤ 20 →
        s.pressSign.lcdText = '-' :: s.lcdText) ∧
      (s.isNegativeEnabled = false → ¬ s.lcdText.length ≤ 20 →
        s.pressSign.lcdText = s.lcdText) ∧
      (∀ d ∈ digitButtons, ¬ s.lcdText.length < 20 →
        (toDouble s.lcdText).isZero = false →
        ¬ (s.lastClicked = TYPE_OP ∨ s.lastClicked = TYPE_EQ) →
        (s.pressDigit d).lcdText = s.lcdText) := by
  obtain ⟨bs, hbs⟩ := h
  have hinv := run_inv bs init_inv hbs
  refine ⟨hinv.1, textOk_le _ hinv.1, ?_, ?_, ?_⟩
  · intro hf hl
    rw [pressSign_lcdText, if_pos hf, if_pos (show s.lcdText.length ≤ LCD_LENGTH from hl)]
  · intro hf hl
    rw [pressSign_lcdText, if_pos hf, if_neg (show ¬ s.lcdText.length ≤ LCD_LENGTH from hl)]
  · intro d _ hl hz hlc
    unfold Control.pressDigit
    dsimp only
    rw [if_neg (by rw [hz]; decide), if_neg hlc,
      if_neg (show ¬ s.lcdText.length < LCD_LENGTH from hl)]
    rfl

/-- Witness of C3 (amended): the state after the presses 5 and sign, showing
"-5". -/
theorem display_length_bound_witness :
    Reachable (init.pressDigit BUTTON_5).pressSign ∧
    (init.pressDigit BUTTON_5).pressSign.lcdText = "-5".toList ∧
    (init.pressDigit BUTTON_5).pressSign.lcdText.length ≤ 23 :=
  ⟨⟨[BUTTON_5, BUTTON_SIGN], rfl⟩, by decide!,
    (display_length_bound _ ⟨[BUTTON_5, BUTTON_SIGN], rfl⟩).2.1⟩

/-! ### Equals twice, unary operators, M+ -/

theorem finishEq_lastClicked (s : Control) (r : QString) :
    (s.finishEq r).lastClicked = TYPE_EQ := by
  unfold Control.finishEq
  rfl

theorem pressEq_lastClicked {s s1 : Control} (h : s.pressEq = some s1) :
    s1.lastClicked = TYPE_EQ := by
  unfold Control.pressEq at h
  dsimp only at h
  split_ifs at h
  · rw [← Option.some.inj h]; rfl
  · rw [← Option.some.inj h]; exact finishEq_lastClicked _ _
  · split at h
    · exact absurd h (by simp)
    · rw [← Option.some.inj h]; exact finishEq_lastClicked _ _

theorem pressEq_after_eq {s : Control} (h : s.lastClicked = TYPE_EQ) :
    s.pressEq = some s := by
  unfold Control.pressEq
  dsimp only
  rw [if_pos (Or.inr (Or.inr h))]
  cases s
  simp only [Control.setLastClicked] at h ⊢
  rw [h]

/-- C21: Equals pressed twice leaves the state Equals pressed once leaves:
the second press finds the last action Equals, changes no field and sends
nothing (it does not repeat the last operation). -/
theorem equals_idempotent (s : Control) :
    (s.buttonPressed BUTTON_EQ).bind (fun s1 => s1.buttonPressed BUTTON_EQ) =
      s.buttonPressed BUTTON_EQ ∧
    (∀ s1, s.buttonPressed BUTTON_EQ = some s1 →
      s1.buttonPressed BUTTON_EQ = some s1 ∧ s1.lastClicked = TYPE_EQ) := by
  have key : ∀ s1, s.buttonPressed BUTTON_EQ = some s1 →
      s1.buttonPressed BUTTON_EQ = some s1 ∧ s1.lastClicked = TYPE_EQ := by
    intro s1 h1
    have hlc := pressEq_lastClicked (show s.pressEq = some s1 from h1)
    exact ⟨pressEq_after_eq hlc, hlc⟩
  refine ⟨?_, key⟩
  cases h : s.buttonPressed BUTTON_EQ with
  | none => rfl
  | some s1 =>
    rw [Option.some_bind]
    exact (key s1 h).1

/-- Witness of C21: with operand "8", operator Add and display "2", Equals
shows "10" and a second Equals changes nothing. -/
theorem equals_idempotent_witness :
    (({ init with lcdText := "2".toList, operand1 := "8".toList,
                  lastOperator := OPERATOR_PLUS, lastClicked := TYPE_NUM } :
        Control).run [BUTTON_EQ, BUTTON_EQ]).map (fun s => (s.lcdText, s.emitted)) =
      some ("10".toList, [Signal.setLCD "10".toList]) ∧
    (({ init with lcdText := "2".toList, operand1 := "8".toList,
                  lastOperator := OPERATOR_PLUS, lastClicked := TYPE_NUM } :
        Control).buttonPressed BUTTON_EQ).bind (fun s1 => s1.buttonPressed BUTTON_EQ) =
      ({ init with lcdText := "2".toList, operand1 := "8".toList,
                   lastOperator := OPERATOR_PLUS, lastClicked := TYPE_NUM } :
        Control).buttonPressed BUTTON_EQ :=
  ⟨by decide!, (equals_idempotent _).1⟩

theorem buttonPressed_SQ (s : Control) : s.buttonPressed BUTTON_SQ = s.pressSq := rfl

theorem buttonPressed_SQRT (s : Control) : s.buttonPressed BUTTON_SQRT = s.pressSqrt := rfl

theorem buttonPressed_CUBE (s : Control) : s.buttonPressed BUTTON_CUBE = s.pressCube := rfl

theorem buttonPressed_FACT (s : Control) : s.buttonPressed BUTTON_FACT = s.pressFact := rfl

theorem buttonPressed_MP (s : Control) : s.buttonPressed BUTTON_MP = s.pressMP := rfl

/-- Under an operator other than Divide `calculate` does not touch the
state. -/
theorem calculate_state_ne_div {s s1 : Control} {a b r : QString} {op : Int}
    (h : s.calculate a b op = some (s1, r)) (hop : op ≠ OPERATOR_DIV) : s1 = s := by
  unfold Control.calculate at h
  dsimp only at h
  split_ifs at h with h1 h2 h3 h4 h5 h6 h7
  all_goals first
    | (simp only [Option.some.injEq, Prod.mk.injEq] at h; exact h.1.symm)
    | (split at h <;> simp at h; exact h.1.symm)
    | exact absurd h6 hop

/-- `calculate` maps into a press that shows the result on `s`, when the
second operand is numerically non-zero. -/
theorem calculate_map_displayed (s : Control) (a b : QString) (op : Int)
    (hb : (toDouble b).isZero = false) :
    (match s.calculate a b op with
      | none => none
      | some (s2, r) => some (((s2.setText r).updateLCD).setLastClicked TYPE_OP)) =
    (s.calculate a b op).map (fun p => s.displayed p.2 TYPE_OP) := by
  cases hc : s.calculate a b op with
  | none => rfl
  | some p =>
    obtain ⟨s2, r⟩ := p
    have := calculate_same_state hc hb
    subst this
    rfl

/-- C22 as stated fails for the reciprocal: on the display "4" it shows
"0.25", the text `calculate` returns on "1" and "4", while `calculate` with
both operands "4" returns "1". -/
theorem reciprocal_operands_counterexample :
    (init.run [BUTTON_4, BUTTON_INV]).map (fun s => s.lcdText) = some "0.25".toList ∧
    (init.calculate "1".toList "4".toList OPERATOR_DIV).map (fun p => p.2) =
      some "0.25".toList ∧
    (init.calculate "4".toList "4".toList OPERATOR_DIV).map (fun p => p.2) =
      some "1".toList := by
  decide!

/-- C22 (amended): with a numerically zero display Square, Square-root and
Cube change no field and send nothing.  With a non-zero display `t`, Square
shows `calculate(t, t, Multiply)`, Square-root `calculate(t, t, SquareRoot)`,
Cube `calculate(calculate(t, t, Multiply), t, Multiply)` and Reciprocal
`calculate("1", t, Divide)`; showing a text sets the last action to Operator
and leaves pending operand, pending operator and memory unchanged. -/
theorem unary_operator_behaviour (s : Control) :
    ((toDouble s.lcdText).isZero = true →
      s.buttonPressed BUTTON_SQ = some s ∧ s.buttonPressed BUTTON_SQRT = some s ∧
      s.buttonPressed BUTTON_CUBE = some s) ∧
    ((toDouble s.lcdText).isZero = false →
      s.buttonPressed BUTTON_SQ =
        (s.calculate s.lcdText s.lcdText OPERATOR_MUL).map
          (fun p => s.displayed p.2 TYPE_OP) ∧
      s.buttonPressed BUTTON_SQRT =
        (s.calculate s.lcdText s.lcdText OPERATOR_SQRT).map
          (fun p => s.displayed p.2 TYPE_OP) ∧
      s.buttonPressed BUTTON_CUBE =
        (s.calculate s.lcdText s.lcdText OPERATOR_MUL).bind (fun p =>
          (s.calculate p.2 s.lcdText OPERATOR_MUL).map
            (fun q => s.displayed q.2 TYPE_OP)) ∧
      s.buttonPressed BUTTON_INV =
        (s.calculate "1".toList s.lcdText OPERATOR_DIV).map
          (fun p => s.displayed p.2 TYPE_OP)) ∧
    (∀ r : QString,
      (s.displayed r TYPE_OP).lcdText = r ∧
      (s.displayed r TYPE_OP).lastClicked = TYPE_OP ∧
      (s.displayed r TYPE_OP).operand1 = s.operand1 ∧
      (s.displayed r TYPE_OP).lastOperator = s.lastOperator ∧
      (s.displayed r TYPE_OP).memoryText = s.memoryText ∧
      (s.displayed r TYPE_OP).emitted = s.emitted ++ [Signal.setLCD r]) := by
  refine ⟨?_, ?_, fun r => ⟨rfl, rfl, rfl, rfl, rfl, rfl⟩⟩
  · intro hz
    refine ⟨?_, ?_, ?_⟩
    · rw [buttonPressed_SQ]
      unfold Control.pressSq
      dsimp only
      rw [if_neg (by rw [hz]; decide)]
    · rw [buttonPressed_SQRT]
      unfold Control.pressSqrt
      dsimp only
      rw [if_neg (by rw [hz]; decide)]
    · rw [buttonPressed_CUBE]
      unfold Control.pressCube
      dsimp only
      rw [if_neg (by rw [hz]; decide)]
  · intro hz
    have hnz : ¬ (toDouble s.lcdText).isZero = true := by rw [hz]; decide
    refine ⟨?_, ?_, ?_, ?_⟩
    · rw [buttonPressed_SQ]
      unfold Control.pressSq
      dsimp only
      rw [if_pos hnz]
      exact calculate_map_displayed s _ _ _ hz
    · rw [buttonPressed_SQRT]
      unfold Control.pressSqrt
      dsimp only
      rw [if_pos hnz]
      exact calculate_map_displayed s _ _ _ hz
    · rw [buttonPressed_CUBE]
      unfold Control.pressCube
      dsimp only
      rw [if_pos hnz]
      cases hc : s.calculate s.lcdText s.lcdText OPERATOR_MUL with
      | none => rfl
      | some p =>
        obtain ⟨s2, r⟩ := p
        have := calculate_same_state hc hz
        subst this
        exact calculate_map_displayed s2 _ _ _ hz
    · rw [buttonPressed_INV]
      unfold Control.pressInv
      dsimp only
      rw [if_neg hnz]
      exact calculate_map_displayed s _ _ _ hz

/-- Witness of C22 (amended): on the display "4" Square shows "16",
Square-root "2", Cube "64" and Reciprocal "0.25"; on "0" Square does nothing. -/
theorem unary_operator_behaviour_witness :
    init.buttonPressed BUTTON_SQ = some init ∧
    ((init.setText "4".toList).buttonPressed BUTTON_SQ).map (fun s => s.lcdText) =
      some "16".toList ∧
    ((init.setText "4".toList).buttonPressed BUTTON_SQRT).map (fun s => s.lcdText) =
      some "2".toList ∧
    ((init.setText "4".toList).buttonPressed BUTTON_CUBE).map (fun s => s.lcdText) =
      some "64".toList ∧
    ((init.setText "4".toList).buttonPressed BUTTON_INV).map (fun s => s.lcdText) =
      some "0.25".toList := by
  refine ⟨((unary_operator_behaviour init).1 (by decide!)).1, ?_, ?_, ?_, ?_⟩
  · rw [((unary_operator_behaviour (init.setText "4".toList)).2.1 (by decide!)).1]
    decide!
  · rw [((unary_operator_behaviour (init.setText "4".toList)).2.1 (by decide!)).2.1]
    decide!
  · rw [((unary_operator_behaviour (init.setText "4".toList)).2.1 (by decide!)).2.2.1]
    decide!
  · rw [((unary_operator_behaviour (init.setText "4".toList)).2.1 (by decide!)).2.2.2]
    decide!

/-- C23: M+ leaves the register unchanged when the display is numerically
zero, sets it to the display text when the display is non-zero and the
register is zero, and otherwise to the text `calculate` returns on display,
register and Add; display text, operand, operator, last action and flags are
unchanged and nothing is sent. -/
theorem memory_plus_behaviour (s : Control) :
    ((toDouble s.lcdText).isZero = true → s.buttonPressed BUTTON_MP = some s) ∧
    ((toDouble s.lcdText).isZero = false → (toDouble s.memoryText).isZero = true →
      s.buttonPressed BUTTON_MP = some { s with memoryText := s.lcdText }) ∧
    ((toDouble s.lcdText).isZero = false → (toDouble s.memoryText).isZero = false →
      ∃ r, s.calculate s.lcdText s.memoryText OPERATOR_PLUS = some (s, r) ∧
        s.buttonPressed BUTTON_MP = some { s with memoryText := r }) := by
  refine ⟨?_, ?_, ?_⟩
  · intro hz
    rw [buttonPressed_MP]
    unfold Control.pressMP
    dsimp only
    rw [if_pos hz]
  · intro hz hm
    rw [buttonPressed_MP]
    unfold Control.pressMP
    dsimp only
    rw [if_neg (by rw [hz]; decide), if_pos hm]
    rfl
  · intro hz hm
    obtain ⟨⟨s2, r⟩, hc⟩ := calculate_total s s.lcdText s.memoryText
      (show OPERATOR_PLUS ≠ OPERATOR_FACT by decide)
    have hs := calculate_state_ne_div hc (by decide)
    subst hs
    refine ⟨r, hc, ?_⟩
    rw [buttonPressed_MP]
    unfold Control.pressMP
    dsimp only
    rw [if_neg (by rw [hz]; decide), if_neg (by rw [hm]; decide), hc]
    rfl

/-- Witness of C23: with display "5", M+ on the register "0" stores "5", and
on the register "7" stores "12". -/
theorem memory_plus_behaviour_witness :
    ((init.setText "5".toList).buttonPressed BUTTON_MP).map (fun s => s.memoryText) =
      some "5".toList ∧
    (((init.setText "5".toList).setMemoryText "7".toList).buttonPressed BUTTON_MP).map
      (fun s => (s.memoryText, s.lcdText, s.emitted)) =
      some ("12".toList, "5".toList, []) := by
  constructor
  · rw [(memory_plus_behaviour (init.setText "5".toList)).2.1 (by decide!) (by decide!)]
    rfl
  · obtain ⟨r, hc, hb⟩ := (memory_plus_behaviour
      ((init.setText "5".toList).setMemoryText "7".toList)).2.2 (by decide!) (by decide!)
    rw [hb]
    have hr : ((init.setText "5".toList).setMemoryText "7".toList).calculate "5".toList
        "7".toList OPERATOR_PLUS =
        some ((init.setText "5".toList).setMemoryText "7".toList, "12".toList) := by
      decide!
    have heq : r = "12".toList := by
      have := hc.symm.trans hr
      simp only [Option.some.injEq, Prod.mk.injEq] at this
      exact this.2
    rw [heq]
    rfl

theorem pressSq_lastClicked {s s1 : Control} (hz : (toDouble s.lcdText).isZero = false)
    (h : s.pressSq = some s1) : s1.lastClicked = TYPE_OP := by
  unfold Control.pressSq at h
  dsimp only at h
  rw [if_pos (by rw [hz]; decide)] at h
  split at h
  · exact absurd h (by simp)
  · rw [← Option.some.inj h]; rfl

theorem pressSqrt_lastClicked {s s1 : Control} (hz : (toDouble s.lcdText).isZero = false)
    (h : s.pressSqrt = some s1) : s1.lastClicked = TYPE_OP := by
  unfold Control.pressSqrt at h
  dsimp only at h
  rw [if_pos (by rw [hz]; decide)] at h
  split at h
  · exact absurd h (by simp)
  · rw [← Option.some.inj h]; rfl

theorem pressCube_lastClicked {s s1 : Control} (hz : (toDouble s.lcdText).isZero = false)
    (h : s.pressCube = some s1) : s1.lastClicked = TYPE_OP := by
  unfold Control.pressCube at h
  dsimp only at h
  rw [if_pos (by rw [hz]; decide)] at h
  split at h
  · exact absurd h (by simp)
  · split at h
    · exact absurd h (by simp)
    · rw [← Option.some.inj h]; rfl

theorem pressInv_lastClicked {s s1 : Control} (hz : (toDouble s.lcdText).isZero = false)
    (h : s.pressInv = some s1) : s1.lastClicked = TYPE_OP := by
  unfold Control.pressInv at h
  dsimp only at h
  rw [if_neg (by rw [hz]; decide)] at h
  split at h
  · exact absurd h (by simp)
  · rw [← Option.some.inj h]; rfl

theorem pressFact_lastClicked {s s1 : Control} (h : s.pressFact = some s1) :
    s1.lastClicked = TYPE_OP := by
  unfold Control.pressFact at h
  dsimp only at h
  split at h
  · exact absurd h (by simp)
  · rw [← Option.some.inj h]; rfl

/-- C29: a completed press of Square, Square-root, Cube or Reciprocal on a
numerically non-zero display, or of Factorial on any display, leaves the last
action Operator; and with the last action Operator a binary operator button
only replaces the pending operator: pending operand and display are
unchanged, nothing is evaluated and nothing is sent.  From the constructor
state 5, Sq, +, 3, = ends with display "3". -/
theorem unary_then_binary_overrides (s s1 : Control) (u b : Int)
    (hu : ((u = BUTTON_SQ ∨ u = BUTTON_SQRT ∨ u = BUTTON_CUBE ∨ u = BUTTON_INV) ∧
        (toDouble s.lcdText).isZero = false) ∨ u = BUTTON_FACT)
    (h : s.buttonPressed u = some s1)
    (hb : b = BUTTON_PLUS ∨ b = BUTTON_NEG ∨ b = BUTTON_MUL ∨ b = BUTTON_DIV) :
    s1.lastClicked = TYPE_OP ∧
    s1.buttonPressed b =
      some { s1 with lastOperator := Control.newOpOf b, lastClicked := TYPE_OP } ∧
    (init.run [BUTTON_5, BUTTON_SQ, BUTTON_PLUS, BUTTON_3, BUTTON_EQ]).map
      (fun s2 => s2.lcdText) = some "3".toList := by
  have hlc : s1.lastClicked = TYPE_OP := by
    rcases hu with ⟨hu, hz⟩ | hu
    · rcases hu with hu | hu | hu | hu <;> subst hu
      · exact pressSq_lastClicked hz h
      · exact pressSqrt_lastClicked hz h
      · exact pressCube_lastClicked hz h
      · exact pressInv_lastClicked hz h
    · subst hu
      exact pressFact_lastClicked h
  refine ⟨hlc, ?_, by decide!⟩
  rw [buttonPressed_binary s1 hb]
  unfold Control.pressBinary
  dsimp only
  rw [if_pos (Or.inr hlc)]
  rfl

/-- Witness of C29: Square on the display "5" shows "25" with last action
Operator, and + then only sets the pending operator. -/
theorem unary_then_binary_overrides_witness :
    ((init.setText "5".toList).buttonPressed BUTTON_SQ).map (fun s => s.lcdText) =
      some "25".toList ∧
    ((init.setText "5".toList).displayed "25".toList TYPE_OP).buttonPressed BUTTON_PLUS =
      some { (init.setText "5".toList).displayed "25".toList TYPE_OP with
        lastOperator := Control.newOpOf BUTTON_PLUS, lastClicked := TYPE_OP } :=
  ⟨by decide!,
    (unary_then_binary_overrides (init.setText "5".toList)
      ((init.setText "5".toList).displayed "25".toList TYPE_OP) BUTTON_SQ BUTTON_PLUS
      (Or.inl ⟨Or.inl rfl, by decide!⟩) (by decide!) (Or.inl rfl)).2.1⟩

/-! ### The base toggles -/

theorem buttonPressed_BIN (s : Control) : s.buttonPressed BUTTON_BIN = some s.pressBin := rfl

theorem buttonPressed_HEX (s : Control) : s.buttonPressed BUTTON_HEX = some s.pressHex := rfl

theorem pressBin_dec {s : Control} (h : s.binButtonStatus = MODE_DEC) :
    s.pressBin = { s with
        binButtonStatus := MODE_BIN,
        emitted := s.emitted ++ [Signal.setButton BUTTON_BIN "Bin".toList MODE_DEC] } := by
  unfold Control.pressBin
  rw [if_pos h]
  rfl

theorem pressBin_bin {s : Control} (h : s.binButtonStatus = MODE_BIN) :
    s.pressBin = { s with
        binButtonStatus := MODE_DEC,
        emitted := s.emitted ++ [Signal.setButton BUTTON_BIN "Dec".toList MODE_BIN] } := by
  unfold Control.pressBin
  rw [if_neg (by rw [h]; decide), if_pos h]
  rfl

theorem pressHex_dec {s : Control} (h : s.hexButtonStatus = MODE_DEC) :
    s.pressHex = { s with
        hexButtonStatus := MODE_HEX,
        emitted := s.emitted ++ [Signal.setButton BUTTON_HEX "Hex".toList MODE_DEC] } := by
  unfold Control.pressHex
  rw [if_pos h]
  rfl

theorem pressHex_hex {s : Control} (h : s.hexButtonStatus = MODE_HEX) :
    s.pressHex = { s with
        hexButtonStatus := MODE_DEC,
        emitted := s.emitted ++ [Signal.setButton BUTTON_HEX "Dec".toList MODE_HEX] } := by
  unfold Control.pressHex
  rw [if_neg (by rw [h]; decide), if_pos h]
  rfl

theorem calculate_modes {s s1 : Control} {a b r : QString} {op : Int}
    (h : s.calculate a b op = some (s1, r)) :
    s1.binButtonStatus = s.binButtonStatus ∧ s1.hexButtonStatus = s.hexButtonStatus := by
  rcases calculate_state h with h1 | h1 <;> rw [h1] <;> exact ⟨rfl, rfl⟩

theorem finishEq_modes (s : Control) (r : QString) :
    (s.finishEq r).binButtonStatus = s.binButtonStatus ∧
      (s.finishEq r).hexButtonStatus = s.hexButtonStatus := by
  unfold Control.finishEq
  dsimp only
  split_ifs <;> exact ⟨rfl, rfl⟩

theorem modes_trans {a b c d e f : Int} (h1 : a = b ∧ c = d) (h2 : b = e ∧ d = f) :
    a = e ∧ c = f := ⟨h1.1.trans h2.1, h1.2.trans h2.2⟩

theorem pressDigit_modes (s : Control) (b : Int) :
    (s.pressDigit b).binButtonStatus = s.binButtonStatus ∧
      (s.pressDigit b).hexButtonStatus = s.hexButtonStatus := by
  unfold Control.pressDigit
  dsimp only
  split_ifs <;> exact ⟨rfl, rfl⟩

theorem pressSign_modes (s : Control) :
    (s.pressSign).binButtonStatus = s.binButtonStatus ∧
      (s.pressSign).hexButtonStatus = s.hexButtonStatus := by
  unfold Control.pressSign
  dsimp only
  split_ifs <;> exact ⟨rfl, rfl⟩

theorem pressDot_modes (s : Control) :
    (s.pressDot).binButtonStatus = s.binButtonStatus ∧
      (s.pressDot).hexButtonStatus = s.hexButtonStatus := by
  unfold Control.pressDot
  dsimp only
  split_ifs <;> exact ⟨rfl, rfl⟩

theorem pressMR_modes (s : Control) :
    (s.pressMR).binButtonStatus = s.binButtonStatus ∧
      (s.pressMR).hexButtonStatus = s.hexButtonStatus := by
  unfold Control.pressMR
  dsimp only
  split_ifs <;> exact ⟨rfl, rfl⟩

theorem pressMS_modes (s : Control) :
    (s.pressMS).binButtonStatus = s.binButtonStatus ∧
      (s.pressMS).hexButtonStatus = s.hexButtonStatus := by
  unfold Control.pressMS
  dsimp only
  split_ifs <;> exact ⟨rfl, rfl⟩

theorem pressBS_modes (s : Control) :
    (s.pressBS).binButtonStatus = s.binButtonStatus ∧
      (s.pressBS).hexButtonStatus = s.hexButtonStatus := by
  unfold Control.pressBS
  dsimp only
  split_ifs <;> exact ⟨rfl, rfl⟩

theorem pressSq_modes {s s1 : Control} (h : s.pressSq = some s1) :
    s1.binButtonStatus = s.binButtonStatus ∧ s1.hexButtonStatus = s.hexButtonStatus := by
  unfold Control.pressSq at h
  dsimp only at h
  split_ifs at h
  all_goals first
    | (rw [← Option.some.inj h]
       first | exact ⟨rfl, rfl⟩ | exact finishEq_modes _ _)
    | (split at h
       · exact absurd h (by simp)
       · rename_i hc
         have h2 := calculate_modes hc
         rw [← Option.some.inj h]
         first | exact h2 | exact modes_trans (finishEq_modes _ _) h2)

theorem pressSqrt_modes {s s1 : Control} (h : s.pressSqrt = some s1) :
    s1.binButtonStatus = s.binButtonStatus ∧ s1.hexButtonStatus = s.hexButtonStatus := by
  unfold Control.pressSqrt at h
  dsimp only at h
  split_ifs at h
  all_goals first
    | (rw [← Option.some.inj h]
       first | exact ⟨rfl, rfl⟩ | exact finishEq_modes _ _)
    | (split at h
       · exact absurd h (by simp)
       · rename_i hc
         have h2 := calculate_modes hc
         rw [← Option.some.inj h]
         first | exact h2 | exact modes_trans (finishEq_modes _ _) h2)

theorem pressInv_modes {s s1 : Control} (h : s.pressInv = some s1) :
    s1.binButtonStatus = s.binButtonStatus ∧ s1.hexButtonStatus = s.hexButtonStatus := by
  unfold Control.pressInv at h
  dsimp only at h
  split_ifs at h
  all_goals first
    | (rw [← Option.some.inj h]
       first | exact ⟨rfl, rfl⟩ | exact finishEq_modes _ _)
    | (split at h
       · exact absurd h (by simp)
       · rename_i hc
         have h2 := calculate_modes hc
         rw [← Option.some.inj h]
         first | exact h2 | exact modes_trans (finishEq_modes _ _) h2)

theorem pressEq_modes {s s1 : Control} (h : s.pressEq = some s1) :
    s1.binButtonStatus = s.binButtonStatus ∧ s1.hexButtonStatus = s.hexButtonStatus := by
  unfold Control.pressEq at h
  dsimp only at h
  split_ifs at h
  all_goals first
    | (rw [← Option.some.inj h]
       first | exact ⟨rfl, rfl⟩ | exact finishEq_modes _ _)
    | (split at h
       · exact absurd h (by simp)
       · rename_i hc
         have h2 := calculate_modes hc
         rw [← Option.some.inj h]
         first | exact h2 | exact modes_trans (finishEq_modes _ _) h2)

theorem pressMP_modes {s s1 : Control} (h : s.pressMP = some s1) :
    s1.binButtonStatus = s.binButtonStatus ∧ s1.hexButtonStatus = s.hexButtonStatus := by
  unfold Control.pressMP at h
  dsimp only at h
  split_ifs at h
  all_goals first
    | (rw [← Option.some.inj h]
       first | exact ⟨rfl, rfl⟩ | exact finishEq_modes _ _)
    | (split at h
       · exact absurd h (by simp)
       · rename_i hc
         have h2 := calculate_modes hc
         rw [← Option.some.inj h]
         first | exact h2 | exact modes_trans (finishEq_modes _ _) h2)

theorem pressBinary_modes {s s1 : Control} {b : Int} (h : s.pressBinary b = some s1) :
    s1.binButtonStatus = s.binButtonStatus ∧ s1.hexButtonStatus = s.hexButtonStatus := by
  unfold Control.pressBinary at h
  dsimp only at h
  split_ifs at h
  all_goals first
    | (rw [← Option.some.inj h]
       first | exact ⟨rfl, rfl⟩ | exact finishEq_modes _ _)
    | (split at h
       · exact absurd h (by simp)
       · rename_i hc
         have h2 := calculate_modes hc
         rw [← Option.some.inj h]
         first | exact h2 | exact modes_trans (finishEq_modes _ _) h2)

theorem pressFact_modes {s s1 : Control} (h : s.pressFact = some s1) :
    s1.binButtonStatus = s.binButtonStatus ∧ s1.hexButtonStatus = s.hexButtonStatus := by
  unfold Control.pressFact at h
  dsimp only at h
  split at h
  · exact absurd h (by simp)
  · rename_i hc
    have h2 := calculate_modes hc
    rw [← Option.some.inj h]
    exact h2

theorem pressCube_modes {s s1 : Control} (h : s.pressCube = some s1) :
    s1.binButtonStatus = s.binButtonStatus ∧ s1.hexButtonStatus = s.hexButtonStatus := by
  unfold Control.pressCube at h
  dsimp only at h
  split_ifs at h
  · rw [← Option.some.inj h]; exact ⟨rfl, rfl⟩
  · split at h
    · exact absurd h (by simp)
    · rename_i hc
      split at h
      · exact absurd h (by simp)
      · rename_i hc2
        have h2 := modes_trans (calculate_modes hc2) (calculate_modes hc)
        rw [← Option.some.inj h]
        exact h2

theorem modeInv_of_same {s s1 : Control} (h : ModeInv s)
    (hs : s1.binButtonStatus = s.binButtonStatus ∧ s1.hexButtonStatus = s.hexButtonStatus) :
    ModeInv s1 := by
  unfold ModeInv at h ⊢
  rw [hs.1, hs.2]
  exact h

theorem pressBin_modeInv {s : Control} (h : ModeInv s) : ModeInv s.pressBin := by
  rcases h.1 with hb | hb
  · rw [pressBin_bin hb]; exact ⟨Or.inr rfl, h.2⟩
  · rw [pressBin_dec hb]; exact ⟨Or.inl rfl, h.2⟩

theorem pressHex_modeInv {s : Control} (h : ModeInv s) : ModeInv s.pressHex := by
  rcases h.2 with hb | hb
  · rw [pressHex_hex hb]; exact ⟨h.1, Or.inr rfl⟩
  · rw [pressHex_dec hb]; exact ⟨h.1, Or.inl rfl⟩

/-- Every button keeps the two toggle statuses among the expected ones. -/
theorem buttonPressed_modeInv {s s1 : Control} {b : Int} (h : ModeInv s)
    (hp : s.buttonPressed b = some s1) : ModeInv s1 := by
  rcases buttonPressed_cases s b with
    ⟨hb, he⟩ | ⟨hb, he⟩ | ⟨hb, he⟩ | ⟨hb, he⟩ | ⟨hb, he⟩ | ⟨hb, he⟩ | ⟨hb, he⟩ | ⟨hb, he⟩ |
    ⟨hb, he⟩ | ⟨hb, he⟩ | ⟨hb, he⟩ | ⟨hb, he⟩ | ⟨hb, he⟩ | ⟨hb, he⟩ | ⟨hb, he⟩ | ⟨hb, he⟩ |
    ⟨hb, he⟩ | ⟨hb, he⟩ | ⟨hb, he⟩
  all_goals rw [he] at hp
  · rw [← Option.some.inj hp]; exact h
  · rw [← Option.some.inj hp]; exact modeInv_of_same h (pressDigit_modes _ _)
  · exact modeInv_of_same h (pressSq_modes hp)
  · exact modeInv_of_same h (pressSqrt_modes hp)
  · exact modeInv_of_same h (pressFact_modes hp)
  · exact modeInv_of_same h (pressInv_modes hp)
  · rw [← Option.some.inj hp]; exact modeInv_of_same h (pressSign_modes _)
  · rw [← Option.some.inj hp]; exact modeInv_of_same h (pressDot_modes _)
  · exact modeInv_of_same h (pressBinary_modes hp)
  · exact modeInv_of_same h (pressEq_modes hp)
  · rw [← Option.some.inj hp]; exact modeInv_of_same h ⟨rfl, rfl⟩
  · rw [← Option.some.inj hp]; exact modeInv_of_same h (pressMR_modes _)
  · rw [← Option.some.inj hp]; exact modeInv_of_same h (pressMS_modes _)
  · exact modeInv_of_same h (pressMP_modes hp)
  · rw [← Option.some.inj hp]; exact modeInv_of_same h (pressBS_modes _)
  · rw [← Option.some.inj hp]; exact modeInv_of_same h ⟨rfl, rfl⟩
  · exact modeInv_of_same h (pressCube_modes hp)
  · rw [← Option.some.inj hp]; exact pressBin_modeInv h
  · rw [← Option.some.inj hp]; exact pressHex_modeInv h

theorem run_modeInv : ∀ (bs : List Int) {s s1 : Control}, ModeInv s →
    s.run bs = some s1 → ModeInv s1 := by
  intro bs
  induction bs with
  | nil =>
    intro s s1 h hr
    simp only [Control.run, Option.some.injEq] at hr
    rw [← hr]
    exact h
  | cons b bs ih =>
    intro s s1 h hr
    simp only [Control.run] at hr
    cases hb : s.buttonPressed b with
    | none => rw [hb] at hr; exact absurd hr (by simp)
    | some s2 =>
      rw [hb] at hr
      exact ih (buttonPressed_modeInv h hb) hr

/-- C26: in every state reachable from the constructor state the Bin
button's status is MODE_BIN or MODE_DEC, never MODE_HEX, and the Hex button's
status is MODE_HEX or MODE_DEC, never MODE_BIN: the two toggle handlers never
take their "should never come" branch. -/
theorem toggle_status_never_crossed (s : Control) (h : Reachable s) :
    s.binButtonStatus ≠ MODE_HEX ∧ s.hexButtonStatus ≠ MODE_BIN ∧
    (s.binButtonStatus = MODE_DEC ∨ s.binButtonStatus = MODE_BIN) ∧
    (s.hexButtonStatus = MODE_DEC ∨ s.hexButtonStatus = MODE_HEX) := by
  obtain ⟨bs, hbs⟩ := h
  have hinv : ModeInv s := run_modeInv bs ⟨Or.inl rfl, Or.inl rfl⟩ hbs
  refine ⟨?_, ?_, hinv.1.symm, hinv.2.symm⟩
  · rcases hinv.1 with h1 | h1 <;> rw [h1] <;> decide
  · rcases hinv.2 with h1 | h1 <;> rw [h1] <;> decide

/-- Witness of C26: the state after the presses Bin, 5, Hex. -/
theorem toggle_status_never_crossed_witness :
    Reachable ((init.pressBin.pressDigit BUTTON_5).pressHex) ∧
    ((init.pressBin.pressDigit BUTTON_5).pressHex).binButtonStatus = MODE_DEC ∧
    ((init.pressBin.pressDigit BUTTON_5).pressHex).binButtonStatus ≠ MODE_HEX ∧
    ((init.pressBin.pressDigit BUTTON_5).pressHex).hexButtonStatus ≠ MODE_BIN :=
  ⟨⟨[BUTTON_BIN, BUTTON_5, BUTTON_HEX], rfl⟩, by decide!,
    (toggle_status_never_crossed _ ⟨[BUTTON_BIN, BUTTON_5, BUTTON_HEX], rfl⟩).1,
    (toggle_status_never_crossed _ ⟨[BUTTON_BIN, BUTTON_5, BUTTON_HEX], rfl⟩).2.1⟩

/-! ### The factorial loop on a large operand -/

/-- When every `int` value is at most the operand, the loop counter reaches
`INT_MAX` and overflows. -/
theorem factLoop_overflow {op1 : Dbl}
    (h : ∀ j : Int, j ≤ 2147483647 → Dbl.intLe j op1 = true) :
    ∀ (fuel : Nat) (i : Int) (r : Dbl), i ≤ 2147483647 →
      Control.factLoop op1 fuel i r = none := by
  intro fuel
  induction fuel with
  | zero => intro i r _; rfl
  | succ f ih =>
    intro i r hi
    simp only [Control.factLoop]
    rw [if_pos (h i hi)]
    by_cases hmax : i = 2147483647
    · rw [if_pos hmax]
    · rw [if_neg hmax]
      exact ih (i + 1) _ (by omega)

theorem pressFact_overflow {s : Control} (hne : s.lcdText ≠ [])
    (h : ∀ j : Int, j ≤ 2147483647 →
      Dbl.intLe j (Control.factOperand (toDouble s.lcdText)) = true) :
    s.buttonPressed BUTTON_FACT = none := by
  have hf : Control.factorial (Control.factOperand (toDouble s.lcdText)) = none := by
    unfold Control.factorial
    exact factLoop_overflow h _ _ _ (by decide)
  show s.pressFact = none
  unfold Control.pressFact
  dsimp only
  have hc : s.calculate s.lcdText s.lcdText OPERATOR_FACT = none := by
    unfold Control.calculate
    dsimp only
    have he : s.lcdText.isEmpty = false := by
      cases hs : s.lcdText with
      | nil => exact absurd hs hne
      | cons c r => rfl
    rw [he]
    simp only [Bool.false_eq_true, if_false]
    rw [if_neg (by decide), if_neg (by decide), if_neg (by decide), if_neg (by decide),
      if_neg (by decide), if_pos trivial, hf]
  rw [hc]

/-- C27: with the 20-digit number 11111111111111111111 on the display the
factorial button does not complete: every value of the `int` counter is at
most the operand, so the counter runs into its overflow at `INT_MAX`. -/
theorem factorial_counter_overflow :
    (init.run (List.replicate 20 BUTTON_1)).map (fun s => s.lcdText) =
      some "11111111111111111111".toList ∧
    Control.factOperand (toDouble "11111111111111111111".toList) =
      Dbl.fin false 5425347222222222 11 ∧
    init.run (List.replicate 20 BUTTON_1 ++ [BUTTON_FACT]) = none := by
  have h1 : (init.run (List.replicate 20 BUTTON_1)).map (fun s => s.lcdText) =
      some "11111111111111111111".toList := by decide!
  have h2 : Control.factOperand (toDouble "11111111111111111111".toList) =
      Dbl.fin false 5425347222222222 11 := by decide!
  refine ⟨h1, h2, ?_⟩
  rw [run_append]
  cases hr : init.run (List.replicate 20 BUTTON_1) with
  | none => rfl
  | some s =>
    rw [hr, Option.map_some', Option.some.injEq] at h1
    rw [Option.some_bind]
    show (s.buttonPressed BUTTON_FACT).bind (fun s1 => s1.run []) = none
    have : s.buttonPressed BUTTON_FACT = none := by
      apply pressFact_overflow
      · rw [h1]; decide
      · intro j hj
        rw [h1, h2]
        have hv : Dbl.scaled false 5425347222222222 11 0 = 11111111111111110656 := by
          decide!
        simp only [Dbl.intLe, hv]
        simp
        omega
    rw [this]
    rfl

/-! ### Typing more than 20 digits -/

theorem take_take_append (n : Nat) (x l : List Char) :
    (x.take n ++ l).take n = (x ++ l).take n := by
  by_cases h : x.length ≤ n
  · rw [List.take_of_length_le h]
  · have hn : n ≤ x.length := by omega
    have h1 : (x.take n).length = n := by simp [hn]
    rw [List.take_append_of_le_length (by omega), List.take_append_of_le_length hn,
      List.take_take, min_self]

theorem labelsOf_take {bs : List Int} (h : ∀ b ∈ bs, b ∈ digitButtons) (k : Nat) :
    labelsOf (bs.take k) = (labelsOf bs).take k := by
  induction bs generalizing k with
  | nil => simp [labelsOf]
  | cons b bs ih =>
    obtain ⟨d, hlab, _⟩ := digit_label (h b (List.mem_cons_self _ _))
    cases k with
    | zero => simp [labelsOf]
    | succ k =>
      simp only [List.take_succ_cons, labelsOf, hlab, List.singleton_append]
      rw [ih (fun x hx => h x (List.mem_cons_of_mem _ hx))]

/-- Typing digits after a digit text that does not start with 0: the labels
are appended up to 20 characters, the rest is dropped. -/
theorem run_digits_cap : ∀ (bs : List Int) (s : Control),
    (∀ b ∈ bs, b ∈ digitButtons) → s.lastClicked = TYPE_NUM →
    (∃ c r, s.lcdText = c :: r ∧ isDigit c = true ∧ c ≠ '0' ∧ ∀ x ∈ r, isDigit x = true) →
    s.lcdText.length ≤ 20 →
    (s.run bs).map (fun s1 => (s1.lcdText, s1.lastClicked)) =
      some ((s.lcdText ++ labelsOf bs).take 20, TYPE_NUM) := by
  intro bs
  induction bs with
  | nil =>
    intro s _ hlc _ hlen
    simp only [Control.run, Option.map_some', labelsOf, List.append_nil]
    rw [List.take_of_length_le hlen, hlc]
  | cons b bs ih =>
    intro s hbs hlc hT hlen
    have hb : b ∈ digitButtons := hbs b (List.mem_cons_self _ _)
    obtain ⟨d, hlab, hd⟩ := digit_label hb
    obtain ⟨c, r, h, hc, hc0, hr⟩ := hT
    have hz : (toDouble s.lcdText).isZero = false := by
      rw [h]; exact toDouble_digits_ne_zero hc hc0 hr (by rw [← h]; exact hlen)
    have htext : (s.pressDigit b).lcdText = (s.lcdText ++ [d]).take 20 := by
      unfold Control.pressDigit
      dsimp only
      rw [if_neg (by rw [hz]; decide), if_neg (by rw [hlc]; decide), hlab]
      by_cases hl : s.lcdText.length < LCD_LENGTH
      · rw [if_pos hl]
        unfold LCD_LENGTH at hl
        rw [List.take_of_length_le (by simp; omega)]
        rfl
      · rw [if_neg hl]
        unfold LCD_LENGTH at hl
        rw [List.take_append_of_le_length (by omega), List.take_of_length_le hlen]
        rfl
    have hcan : ∃ c r, (s.pressDigit b).lcdText = c :: r ∧ isDigit c = true ∧ c ≠ '0' ∧
        ∀ x ∈ r, isDigit x = true := by
      refine ⟨c, (r ++ [d]).take 19, ?_, hc, hc0, ?_⟩
      · rw [htext, h]
        rfl
      · intro x hx
        have hx2 := List.mem_of_mem_take hx
        rcases List.mem_append.mp hx2 with h1 | h1
        · exact hr x h1
        · rw [List.mem_singleton.mp h1]; exact hd
    have hlen' : (s.pressDigit b).lcdText.length ≤ 20 := by
      rw [htext]
      simp
    have := ih (s.pressDigit b) (fun x hx => hbs x (List.mem_cons_of_mem _ hx)) rfl hcan hlen'
    simp only [Control.run, buttonPressed_of_digit s hb, Option.some_bind, labelsOf, hlab]
    rw [this, htext, take_take_append]
    simp

theorem digit_label_ne_zero {b : Int} (hb : b ∈ digitButtons) (h0 : b ≠ BUTTON_0) :
    ∃ c, buttonLabel b = [c] ∧ isDigit c = true ∧ c ≠ '0' := by
  simp only [digitButtons, List.mem_cons, List.mem_singleton, List.not_mem_nil,
    or_false] at hb
  rcases hb with h | h | h | h | h | h | h | h | h | h <;> subst h
  · exact absurd rfl h0
  all_goals exact ⟨_, rfl, by decide, by decide⟩

/-- C28: after the digit presses `b :: bs` from the constructor state, with
`b` not the digit 0, the display text is the concatenation of the labels of
the first 20 presses (of all of them when there are fewer) and the last
action is Digit. -/
theorem digits_display_capped (b : Int) (bs : List Int)
    (hd : ∀ x ∈ b :: bs, x ∈ digitButtons) (h0 : b ≠ BUTTON_0) :
    (init.run (b :: bs)).map (fun s => (s.lcdText, s.lastClicked)) =
      some (labelsOf ((b :: bs).take 20), TYPE_NUM) ∧
    ((b :: bs).take 20).length = min (b :: bs).length 20 := by
  refine ⟨?_, List.length_take _ _ |>.trans (min_comm _ _)⟩
  have hb : b ∈ digitButtons := hd b (List.mem_cons_self _ _)
  obtain ⟨d, hlab, hdig, hd0⟩ := digit_label_ne_zero hb h0
  have htext : (init.pressDigit b).lcdText = [d] := by
    unfold Control.pressDigit
    dsimp only
    rw [if_pos (show (toDouble init.lcdText).isZero = true from toDouble_zero_text),
      if_pos (show init.lastClicked = TYPE_OP ∨ init.lastClicked = TYPE_EQ ∨
        init.lastClicked = TYPE_INIT ∨ init.lastClicked = TYPE_OTHER ∨
        init.lastClicked = TYPE_NUM from Or.inr (Or.inr (Or.inl rfl))), hlab]
    rfl
  have h1 := run_digits_cap bs (init.pressDigit b)
    (fun x hx => hd x (List.mem_cons_of_mem _ hx)) rfl
    ⟨d, [], htext, hdig, hd0, by simp⟩ (by rw [htext]; simp)
  simp only [Control.run, buttonPressed_of_digit init hb, Option.some_bind]
  rw [h1, htext, labelsOf_take hd, labelsOf, hlab]

/-- Witness of C28: 22 presses of 1 show twenty 1s. -/
theorem digits_display_capped_witness :
    (∀ x ∈ BUTTON_1 :: List.replicate 21 BUTTON_1, x ∈ digitButtons) ∧
    BUTTON_1 ≠ BUTTON_0 ∧
    labelsOf ((BUTTON_1 :: List.replicate 21 BUTTON_1).take 20) =
      "11111111111111111111".toList ∧
    (init.run (BUTTON_1 :: List.replicate 21 BUTTON_1)).map
      (fun s => (s.lcdText, s.lastClicked)) =
      some (labelsOf ((BUTTON_1 :: List.replicate 21 BUTTON_1).take 20), TYPE_NUM) :=
  ⟨by decide, by decide, by decide!,
    (digits_display_capped BUTTON_1 (List.replicate 21 BUTTON_1) (by decide)
      (by decide)).1⟩

/-! ### Flags, digit count and LCD signal after a press -/

theorem displayed_shown (s s0 : Control) (r : QString) (lc : Int)
    (he : s0.emitted = s.emitted) :
    Shown s (((s0.setText r).updateLCD).setLastClicked lc) ∧
    DecimalSynced (((s0.setText r).updateLCD).setLastClicked lc) := by
  unfold Shown DecimalSynced
  refine ⟨⟨rfl, rfl, ?_⟩, rfl⟩
  show s0.emitted ++ _ = _
  rw [he]
  rfl

theorem updateLCD_shown (s s0 : Control) (r : QString) (he : s0.emitted = s.emitted) :
    Shown s ((s0.setText r).updateLCD) ∧ DecimalSynced ((s0.setText r).updateLCD) :=
  displayed_shown s s0 r ((s0.setText r).updateLCD).lastClicked he

theorem pressDigit_refresh (s : Control) (b : Int) :
    (s.pressDigit b).lcdText = s.lcdText ∨
    (Shown s (s.pressDigit b) ∧ DecimalSynced (s.pressDigit b)) := by
  unfold Control.pressDigit
  dsimp only
  split_ifs
  · exact Or.inr (displayed_shown s s _ _ rfl)
  · exact Or.inr (displayed_shown s s _ _ rfl)
  · exact Or.inr (displayed_shown s s _ _ rfl)
  · exact Or.inr (displayed_shown s s _ _ rfl)
  · exact Or.inr (displayed_shown s s _ _ rfl)
  · exact Or.inl rfl

theorem pressSign_refresh (s : Control) :
    Shown s s.pressSign ∧ DecimalSynced s.pressSign := by
  unfold Control.pressSign
  dsimp only
  split_ifs
  · exact updateLCD_shown s _ _ rfl
  · exact updateLCD_shown s _ _ rfl
  · exact updateLCD_shown s _ _ rfl

theorem pressDot_refresh (s : Control) :
    s.pressDot.lcdText = s.lcdText ∨ (Shown s s.pressDot ∧ DecimalSynced s.pressDot) := by
  unfold Control.pressDot
  dsimp only
  split_ifs
  · exact Or.inr (displayed_shown s _ _ _ rfl)
  · exact Or.inr (displayed_shown s _ _ _ rfl)
  · exact Or.inl rfl

theorem pressMR_refresh (s : Control) : Shown s s.pressMR ∧ DecimalSynced s.pressMR := by
  unfold Control.pressMR
  dsimp only
  split_ifs
  · exact updateLCD_shown s _ _ rfl
  · exact updateLCD_shown s _ _ rfl

theorem pressBS_refresh (s : Control) :
    s.pressBS.lcdText = s.lcdText ∨ (Shown s s.pressBS ∧ DecimalSynced s.pressBS) := by
  unfold Control.pressBS
  dsimp only
  split_ifs
  · exact Or.inr (displayed_shown s _ _ _ rfl)
  · exact Or.inr (displayed_shown s _ _ _ rfl)
  · exact Or.inl rfl

theorem pressCLR_refresh (s : Control) : Shown s s.pressCLR ∧ DecimalSynced s.pressCLR := by
  unfold Shown DecimalSynced
  exact ⟨⟨rfl, rfl, rfl⟩, rfl⟩

theorem pressSq_refresh {s s1 : Control} (h : s.pressSq = some s1) :
    s1.lcdText = s.lcdText ∨ (Shown s s1 ∧ DecimalSynced s1) := by
  unfold Control.pressSq at h
  dsimp only at h
  split_ifs at h
  · rw [← Option.some.inj h]; exact Or.inl rfl
  · split at h
    · exact absurd h (by simp)
    · rename_i hc
      have h2 := calculate_state_ne_div hc (by decide)
      rw [← Option.some.inj h, h2]
      exact Or.inr (displayed_shown s s _ _ rfl)

theorem pressSqrt_refresh {s s1 : Control} (h : s.pressSqrt = some s1) :
    s1.lcdText = s.lcdText ∨ (Shown s s1 ∧ DecimalSynced s1) := by
  unfold Control.pressSqrt at h
  dsimp only at h
  split_ifs at h
  · rw [← Option.some.inj h]; exact Or.inl rfl
  · split at h
    · exact absurd h (by simp)
    · rename_i hc
      have h2 := calculate_state_ne_div hc (by decide)
      rw [← Option.some.inj h, h2]
      exact Or.inr (displayed_shown s s _ _ rfl)

theorem pressFact_refresh {s s1 : Control} (h : s.pressFact = some s1) :
    Shown s s1 ∧ DecimalSynced s1 := by
  unfold Control.pressFact at h
  dsimp only at h
  split at h
  · exact absurd h (by simp)
  · rename_i hc
    have h2 := calculate_state_ne_div hc (by decide)
    rw [← Option.some.inj h, h2]
    exact displayed_shown s s _ _ rfl

theorem pressCube_refresh {s s1 : Control} (h : s.pressCube = some s1) :
    s1.lcdText = s.lcdText ∨ (Shown s s1 ∧ DecimalSynced s1) := by
  unfold Control.pressCube at h
  dsimp only at h
  split_ifs at h
  · rw [← Option.some.inj h]; exact Or.inl rfl
  · split at h
    · exact absurd h (by simp)
    · rename_i hc
      split at h
      · exact absurd h (by simp)
      · rename_i hc2
        have h2 := calculate_state_ne_div hc (by decide)
        have h3 := calculate_state_ne_div hc2 (by decide)
        rw [← Option.some.inj h, h3, h2]
        exact Or.inr (displayed_shown s s _ _ rfl)

theorem pressInv_refresh {s s1 : Control} (h : s.pressInv = some s1)
    (hz : (toDouble s.lcdText).isZero = false) :
    Shown s s1 ∧ DecimalSynced s1 := by
  unfold Control.pressInv at h
  dsimp only at h
  rw [if_neg (by rw [hz]; decide)] at h
  split at h
  · exact absurd h (by simp)
  · rename_i hc
    have h2 := calculate_same_state hc hz
    rw [← Option.some.inj h, h2]
    exact displayed_shown s s _ _ rfl

theorem pressMP_lcdText {s s1 : Control} (h : s.pressMP = some s1) :
    s1.lcdText = s.lcdText := by
  unfold Control.pressMP at h
  dsimp only at h
  split_ifs at h
  · rw [← Option.some.inj h]
  · rw [← Option.some.inj h]; rfl
  · split at h
    · exact absurd h (by simp)
    · rename_i hc
      have h2 := calculate_state_ne_div hc (by decide)
      rw [← Option.some.inj h, h2]
      rfl

theorem pressBinary_refresh {s s1 : Control} {b : Int} (h : s.pressBinary b = some s1) :
    s1.lcdText = s.lcdText ∨ (Shown s s1 ∧ s1.isDecimalEnabled = false) := by
  unfold Control.pressBinary at h
  dsimp only at h
  by_cases hz : (toDouble s.lcdText).isZero = true ∨ s.lastClicked = TYPE_OP
  · rw [if_pos hz] at h
    rw [← Option.some.inj h]; exact Or.inl rfl
  · rw [if_neg hz] at h
    have hz2 : (toDouble s.lcdText).isZero = false := by
      cases hq : (toDouble s.lcdText).isZero
      · rfl
      · exact absurd (Or.inl hq) hz
    split_ifs at h
    · rw [← Option.some.inj h]; exact Or.inl rfl
    · split at h
      · exact absurd h (by simp)
      · rename_i hc
        have h2 := calculate_same_state hc hz2
        rw [← Option.some.inj h, h2]
        refine Or.inr ⟨?_, rfl⟩
        exact (displayed_shown (s.setOperand1 _) (s.setOperand1 _) _ TYPE_OP rfl).1

theorem finishEq_refresh (s : Control) (operand1 : QString) :
    (s.finishEq operand1).lcdText = s.lcdText ∨
    (Shown s (s.finishEq operand1) ∧ (s.finishEq operand1).isDecimalEnabled = false) := by
  unfold Control.finishEq
  dsimp only
  split_ifs
  · exact Or.inl rfl
  · refine Or.inr ⟨?_, rfl⟩
    exact (displayed_shown s (s.setOperator OPERATOR_NONE) _ TYPE_EQ rfl).1

theorem pressEq_refresh {s s1 : Control} (h : s.pressEq = some s1) :
    s1.lcdText = s.lcdText ∨ (Shown s s1 ∧ s1.isDecimalEnabled = false) := by
  unfold Control.pressEq at h
  dsimp only at h
  by_cases hz : (toDouble s.lcdText).isZero = true ∨ s.lastClicked = TYPE_OP ∨
      s.lastClicked = TYPE_EQ
  · rw [if_pos hz] at h
    rw [← Option.some.inj h]; exact Or.inl rfl
  · rw [if_neg hz] at h
    have hz2 : (toDouble s.lcdText).isZero = false := by
      cases hq : (toDouble s.lcdText).isZero
      · rfl
      · exact absurd (Or.inl hq) hz
    split_ifs at h
    · rw [← Option.some.inj h]; exact finishEq_refresh s _
    · split at h
      · exact absurd h (by simp)
      · rename_i hc
        have h2 := calculate_same_state hc hz2
        rw [← Option.some.inj h, h2]
        exact finishEq_refresh s _

/-- After a press that changes the display text, other than MS and the
reciprocal of zero, the text has just been shown; the decimal flag is the one
of the text, except after a binary operator or Equals, where it is false. -/
theorem buttonPressed_refresh {s s1 : Control} {b : Int} (h : s.buttonPressed b = some s1)
    (hch : s1.lcdText ≠ s.lcdText) (hms : b ≠ BUTTON_MS)
    (herr : ¬ (b = BUTTON_INV ∧ (toDouble s.lcdText).isZero = true)) :
    Shown s s1 ∧ (clearsDecimal b → s1.isDecimalEnabled = false) ∧
      (¬ clearsDecimal b → DecimalSynced s1) := by
  have key : ∀ {P : Prop}, (s1.lcdText = s.lcdText ∨ P) → P := fun hP =>
    hP.resolve_left hch
  rcases buttonPressed_cases s b with
    ⟨_, he⟩ | ⟨hb, he⟩ | ⟨hb, he⟩ | ⟨hb, he⟩ | ⟨hb, he⟩ | ⟨hb, he⟩ | ⟨hb, he⟩ | ⟨hb, he⟩ |
    ⟨hb, he⟩ | ⟨hb, he⟩ | ⟨hb, he⟩ | ⟨hb, he⟩ | ⟨hb, he⟩ | ⟨hb, he⟩ | ⟨hb, he⟩ | ⟨hb, he⟩ |
    ⟨hb, he⟩ | ⟨hb, he⟩ | ⟨hb, he⟩
  · rw [he] at h
    exact absurd (by rw [← Option.some.inj h]) hch
  · rw [he] at h
    have hs := Option.some.inj h
    subst hs
    have h2 := key (pressDigit_refresh s b)
    refine ⟨h2.1, fun hc => ?_, fun _ => h2.2⟩
    unfold clearsDecimal at hc
    rcases hb with hb | hb | hb | hb | hb | hb | hb | hb | hb | hb <;> subst hb <;>
      exact absurd hc (by decide)
  · rw [he] at h
    have h2 := key (pressSq_refresh h)
    subst hb
    exact ⟨h2.1, fun hc => absurd hc (by unfold clearsDecimal; decide), fun _ => h2.2⟩
  · rw [he] at h
    have h2 := key (pressSqrt_refresh h)
    subst hb
    exact ⟨h2.1, fun hc => absurd hc (by unfold clearsDecimal; decide), fun _ => h2.2⟩
  · rw [he] at h
    have h2 := pressFact_refresh h
    subst hb
    exact ⟨h2.1, fun hc => absurd hc (by unfold clearsDecimal; decide), fun _ => h2.2⟩
  · rw [he] at h
    have hz : (toDouble s.lcdText).isZero = false := by
      cases hq : (toDouble s.lcdText).isZero
      · rfl
      · exact absurd ⟨hb, hq⟩ herr
    have h2 := pressInv_refresh h hz
    subst hb
    exact ⟨h2.1, fun hc => absurd hc (by unfold clearsDecimal; decide), fun _ => h2.2⟩
  · rw [he] at h
    have h2 := pressSign_refresh s
    rw [Option.some.inj h] at h2
    subst hb
    exact ⟨h2.1, fun hc => absurd hc (by unfold clearsDecimal; decide), fun _ => h2.2⟩
  · rw [he] at h
    have hs := Option.some.inj h
    subst hs
    have h2 := key (pressDot_refresh s)
    subst hb
    exact ⟨h2.1, fun hc => absurd hc (by unfold clearsDecimal; decide), fun _ => h2.2⟩
  · rw [he] at h
    have h2 := key (pressBinary_refresh h)
    refine ⟨h2.1, fun _ => h2.2, fun hc => absurd ?_ hc⟩
    unfold clearsDecimal
    rcases hb with hb | hb | hb | hb
    · exact Or.inl hb
    · exact Or.inr (Or.inl hb)
    · exact Or.inr (Or.inr (Or.inl hb))
    · exact Or.inr (Or.inr (Or.inr (Or.inl hb)))
  · rw [he] at h
    have h2 := key (pressEq_refresh h)
    refine ⟨h2.1, fun _ => h2.2, fun hc => absurd ?_ hc⟩
    exact Or.inr (Or.inr (Or.inr (Or.inr hb)))
  · rw [he] at h
    exact absurd (by rw [← Option.some.inj h]; rfl) hch
  · rw [he] at h
    have h2 := pressMR_refresh s
    rw [Option.some.inj h] at h2
    subst hb
    exact ⟨h2.1, fun hc => absurd hc (by unfold clearsDecimal; decide), fun _ => h2.2⟩
  · exact absurd hb hms
  · rw [he] at h
    exact absurd (pressMP_lcdText h) hch
  · rw [he] at h
    have hs := Option.some.inj h
    subst hs
    have h2 := key (pressBS_refresh s)
    subst hb
    exact ⟨h2.1, fun hc => absurd hc (by unfold clearsDecimal; decide), fun _ => h2.2⟩
  · rw [he] at h
    have h2 := pressCLR_refresh s
    rw [Option.some.inj h] at h2
    subst hb
    exact ⟨h2.1, fun hc => absurd hc (by unfold clearsDecimal; decide), fun _ => h2.2⟩
  · rw [he] at h
    have h2 := key (pressCube_refresh h)
    subst hb
    exact ⟨h2.1, fun hc => absurd hc (by unfold clearsDecimal; decide), fun _ => h2.2⟩
  · rw [he] at h
    refine absurd ?_ hch
    rw [← Option.some.inj h]
    unfold Control.pressBin Control.setBinButtonStatus
    dsimp only
    split_ifs <;> rfl
  · rw [he] at h
    refine absurd ?_ hch
    rw [← Option.some.inj h]
    unfold Control.pressHex Control.setHexButtonStatus
    dsimp only
    split_ifs <;> rfl

/-- C24 as stated fails twice.  After 5, sign, MS the display text has gone
from "-5" to "0" while the sign flag is still set and the digit count is still
2; after 1, ., 5, +, 1, + the display text has gone from "1" to "2.5", which
contains a point, while the decimal flag is false. -/
theorem flags_recomputed_counterexample :
    (init.run [BUTTON_5, BUTTON_SIGN]).map (fun s => s.lcdText) = some "-5".toList ∧
    (init.run [BUTTON_5, BUTTON_SIGN, BUTTON_MS]).map
        (fun s => (s.lcdText, s.isNegativeEnabled, decide ('-' ∈ s.lcdText),
          s.numLCDDigits, s.lcdText.length)) =
      some ("0".toList, true, false, 2, 1) ∧
    (init.run [BUTTON_1, BUTTON_DOT, BUTTON_5, BUTTON_PLUS, BUTTON_1]).map
        (fun s => s.lcdText) = some "1".toList ∧
    (init.run [BUTTON_1, BUTTON_DOT, BUTTON_5, BUTTON_PLUS, BUTTON_1, BUTTON_PLUS]).map
        (fun s => (s.lcdText, s.isDecimalEnabled, decide ('.' ∈ s.lcdText))) =
      some ("2.5".toList, false, true) := by
  decide!

/-- C24, amended: after a press that changes the display text, other than MS
and the reciprocal of a zero display, the sign flag equals "the text contains
a minus sign" and the recorded digit count equals the text length; the decimal
flag equals "the text contains a point", except after a binary operator or
Equals, which leave it false. -/
theorem flags_recomputed_after_display_update {s s1 : Control} {b : Int}
    (h : s.buttonPressed b = some s1) (hch : s1.lcdText ≠ s.lcdText)
    (hms : b ≠ BUTTON_MS)
    (herr : ¬ (b = BUTTON_INV ∧ (toDouble s.lcdText).isZero = true)) :
    s1.isNegativeEnabled = decide ('-' ∈ s1.lcdText) ∧
    s1.numLCDDigits = (s1.lcdText.length : Int) ∧
    ((b = BUTTON_PLUS ∨ b = BUTTON_NEG ∨ b = BUTTON_MUL ∨ b = BUTTON_DIV ∨ b = BUTTON_EQ) →
      s1.isDecimalEnabled = false) ∧
    (¬ (b = BUTTON_PLUS ∨ b = BUTTON_NEG ∨ b = BUTTON_MUL ∨ b = BUTTON_DIV ∨ b = BUTTON_EQ) →
      s1.isDecimalEnabled = decide ('.' ∈ s1.lcdText)) := by
  obtain ⟨h1, h2, h3⟩ := buttonPressed_refresh h hch hms herr
  exact ⟨h1.1, h1.2.1, h2, h3⟩

/-- Witness of C24: the sign button on the display "5". -/
theorem flags_recomputed_after_display_update_witness :
    (init.pressDigit BUTTON_5).buttonPressed BUTTON_SIGN =
      some ((init.pressDigit BUTTON_5).pressSign) ∧
    ((init.pressDigit BUTTON_5).pressSign).lcdText = "-5".toList ∧
    (init.pressDigit BUTTON_5).lcdText = "5".toList ∧
    ((init.pressDigit BUTTON_5).pressSign).isNegativeEnabled = true ∧
    ((init.pressDigit BUTTON_5).pressSign).numLCDDigits = 2 ∧
    ((init.pressDigit BUTTON_5).pressSign).isNegativeEnabled =
      decide ('-' ∈ ((init.pressDigit BUTTON_5).pressSign).lcdText) :=
  ⟨rfl, by decide!, by decide!, by decide!, by decide!,
    (flags_recomputed_after_display_update
      (show (init.pressDigit BUTTON_5).buttonPressed BUTTON_SIGN =
        some ((init.pressDigit BUTTON_5).pressSign) from rfl)
      (by decide!) (by decide) (by decide)).1⟩

/-- C25: in every state reachable from the constructor state, the Bin button
(resp. the Hex button) switches its status between MODE_BIN (resp. MODE_HEX)
and MODE_DEC and sends exactly one hint: the button's id, the label of the new
status and the previous status; every other field, the other toggle's status
included, is unchanged, and pressing the same toggle twice restores its
status. -/
theorem base_toggle_behaviour (s : Control) (h : Reachable s) :
    ((s.binButtonStatus = MODE_BIN ∧
        s.buttonPressed BUTTON_BIN = some { s with
          binButtonStatus := MODE_DEC,
          emitted := s.emitted ++ [Signal.setButton BUTTON_BIN "Dec".toList MODE_BIN] }) ∨
      (s.binButtonStatus = MODE_DEC ∧
        s.buttonPressed BUTTON_BIN = some { s with
          binButtonStatus := MODE_BIN,
          emitted := s.emitted ++ [Signal.setButton BUTTON_BIN "Bin".toList MODE_DEC] })) ∧
    ((s.hexButtonStatus = MODE_HEX ∧
        s.buttonPressed BUTTON_HEX = some { s with
          hexButtonStatus := MODE_DEC,
          emitted := s.emitted ++ [Signal.setButton BUTTON_HEX "Dec".toList MODE_HEX] }) ∨
      (s.hexButtonStatus = MODE_DEC ∧
        s.buttonPressed BUTTON_HEX = some { s with
          hexButtonStatus := MODE_HEX,
          emitted := s.emitted ++ [Signal.setButton BUTTON_HEX "Hex".toList MODE_DEC] })) ∧
    (s.run [BUTTON_BIN, BUTTON_BIN]).map (fun s1 => s1.binButtonStatus) =
      some s.binButtonStatus ∧
    (s.run [BUTTON_HEX, BUTTON_HEX]).map (fun s1 => s1.hexButtonStatus) =
      some s.hexButtonStatus := by
  obtain ⟨bs, hbs⟩ := h
  have hinv : ModeInv s := run_modeInv bs ⟨Or.inl rfl, Or.inl rfl⟩ hbs
  have hrunB : s.run [BUTTON_BIN, BUTTON_BIN] = some s.pressBin.pressBin := rfl
  have hrunH : s.run [BUTTON_HEX, BUTTON_HEX] = some s.pressHex.pressHex := rfl
  refine ⟨?_, ?_, ?_, ?_⟩
  · rcases hinv.1 with h1 | h1
    · exact Or.inl ⟨h1, by rw [buttonPressed_BIN, pressBin_bin h1]⟩
    · exact Or.inr ⟨h1, by rw [buttonPressed_BIN, pressBin_dec h1]⟩
  · rcases hinv.2 with h1 | h1
    · exact Or.inl ⟨h1, by rw [buttonPressed_HEX, pressHex_hex h1]⟩
    · exact Or.inr ⟨h1, by rw [buttonPressed_HEX, pressHex_dec h1]⟩
  · rw [hrunB, Option.map_some']
    rcases hinv.1 with h1 | h1
    · rw [pressBin_bin h1, pressBin_dec rfl, h1]
    · rw [pressBin_dec h1, pressBin_bin rfl, h1]
  · rw [hrunH, Option.map_some']
    rcases hinv.2 with h1 | h1
    · rw [pressHex_hex h1, pressHex_dec rfl, h1]
    · rw [pressHex_dec h1, pressHex_hex rfl, h1]

/-- Witness of C25: the state after the presses Bin, 5 has Bin status
MODE_DEC and Hex status MODE_HEX; the Bin button sets MODE_BIN with the hint
"Bin", the Hex button sets MODE_DEC with the hint "Dec". -/
theorem base_toggle_behaviour_witness :
    Reachable (init.pressBin.pressDigit BUTTON_5) ∧
    (init.pressBin.pressDigit BUTTON_5).binButtonStatus = MODE_DEC ∧
    (init.pressBin.pressDigit BUTTON_5).hexButtonStatus = MODE_HEX ∧
    ((init.pressBin.pressDigit BUTTON_5).run [BUTTON_BIN]).map
      (fun s1 => (s1.binButtonStatus, s1.emitted.getLast?)) =
      some (MODE_BIN, some (Signal.setButton BUTTON_BIN "Bin".toList MODE_DEC)) ∧
    ((init.pressBin.pressDigit BUTTON_5).run [BUTTON_BIN, BUTTON_BIN]).map
      (fun s1 => s1.binButtonStatus) =
      some (init.pressBin.pressDigit BUTTON_5).binButtonStatus ∧
    ((init.pressBin.pressDigit BUTTON_5).run [BUTTON_HEX, BUTTON_HEX]).map
      (fun s1 => s1.hexButtonStatus) =
      some (init.pressBin.pressDigit BUTTON_5).hexButtonStatus :=
  ⟨⟨[BUTTON_BIN, BUTTON_5], rfl⟩, by decide!, by decide!, by decide!,
    (base_toggle_behaviour _ ⟨[BUTTON_BIN, BUTTON_5], rfl⟩).2.2.1,
    (base_toggle_behaviour _ ⟨[BUTTON_BIN, BUTTON_5], rfl⟩).2.2.2⟩

end QCalc
